import Mathlib

/-!
# sm_td: a shallow embedding of the tap/hold state machine

The definitions below follow `src/sm_td.h` and `src/sm_td.c` function by function.

* C pointers `smtd_state *state` always point into the global array
  `smtd_active_states`; they are modelled by the slot index.
* `uint8_t` and `uint16_t` values are natural numbers; the places where the
  C code can wrap (`sequence_len++`) reduce modulo `2^8` explicitly.
* The services of the keyboard firmware that the code calls (modifier state,
  deferred executor, `process_record`, the user callback `on_smtd_action`)
  are either fields of `Config` or small models of their documented interface.
  Every call of such a service is appended to `World.trace`.
* `process_record` re-enters `process_smtd`; the nesting depth of this
  re-entry is bounded by a fuel argument of the host pipeline.
-/

namespace SmTd

/-! ## Types of sm_td.h -/

/-- Matrix position of a key (`keypos_t` of the firmware). -/
structure keypos_t where
  col : Nat
  row : Nat
deriving DecidableEq, Repr

/-- Key event (`keyevent_t`): a position and whether the key went down. -/
structure keyevent_t where
  key : keypos_t
  pressed : Bool
deriving DecidableEq, Repr

/-- Key record (`keyrecord_t`), reduced to the event it carries. -/
structure keyrecord_t where
  event : keyevent_t
deriving DecidableEq, Repr

/-- C macro `MAKE_KEYPOS(row, col)`. -/
def MAKE_KEYPOS (row col : Nat) : keypos_t := { col := col, row := row }

/-- C macro `MAKE_KEYEVENT(row, col, pressed)`. -/
def MAKE_KEYEVENT (row col : Nat) (pressed : Bool) : keyevent_t :=
  { key := MAKE_KEYPOS row col, pressed := pressed }

/-- Enum `smtd_timeout` (sm_td.h:87). -/
inductive smtd_timeout where
  | SMTD_TIMEOUT_TAP
  | SMTD_TIMEOUT_SEQUENCE
  | SMTD_TIMEOUT_FOLLOWING_TAP
  | SMTD_TIMEOUT_RELEASE
deriving DecidableEq, Repr

/-- Enum `smtd_feature` (sm_td.h:104). -/
inductive smtd_feature where
  | SMTD_FEATURE_MODS_RECALL
  | SMTD_FEATURE_AGGREGATE_TAPS
deriving DecidableEq, Repr

/-- Enum `smtd_action` (sm_td.h:119). -/
inductive smtd_action where
  | SMTD_ACTION_TOUCH
  | SMTD_ACTION_TAP
  | SMTD_ACTION_HOLD
  | SMTD_ACTION_RELEASE
deriving DecidableEq, Repr

/-- Enum `smtd_stage` (sm_td.h:144). -/
inductive smtd_stage where
  | SMTD_STAGE_NONE
  | SMTD_STAGE_TOUCH
  | SMTD_STAGE_SEQUENCE
  | SMTD_STAGE_FOLLOWING_TOUCH
  | SMTD_STAGE_HOLD
  | SMTD_STAGE_RELEASE
deriving DecidableEq, Repr

open smtd_timeout smtd_feature smtd_action smtd_stage

/-- Token of the deferred executor; `0` is `INVALID_DEFERRED_TOKEN`. -/
abbrev deferred_token := Nat

/-- The invalid token of the deferred executor. -/
def INVALID_DEFERRED_TOKEN : deferred_token := 0

/-- Struct `smtd_state` (sm_td.h:157). -/
structure smtd_state where
  macro_keycode : Nat
  modes_before_touch : Nat
  modes_with_touch : Nat
  sequence_len : Nat
  following_key : keypos_t
  following_keycode : Nat
  timeout : deferred_token
  stage : smtd_stage
  freeze : Bool
deriving DecidableEq, Repr

/-- C macro `EMPTY_STATE` (sm_td.h:186). -/
def EMPTY_STATE : smtd_state :=
  { macro_keycode := 0, modes_before_touch := 0, modes_with_touch := 0, sequence_len := 0,
    following_key := MAKE_KEYPOS 0 0, following_keycode := 0,
    timeout := INVALID_DEFERRED_TOKEN, stage := SMTD_STAGE_NONE, freeze := false }

/-- C macro `RETURN_LAYER_NOT_SET` (sm_td.h:192). -/
def RETURN_LAYER_NOT_SET : Nat := 15

/-- Number of slots of the array `smtd_active_states` (sm_td.c:151). -/
def SMTD_POOL_CAPACITY : Nat := 10

/-! ## Environment: firmware state, trace, configuration -/

/-- The part of the firmware state that the user callback and the default key
handling can read and write: the modifier byte (`get_mods`), the layer state,
and the two layer bookkeeping variables of sm_td.c:137. -/
structure Host where
  mods : Nat
  layer_state : Nat
  return_layer : Nat
  return_layer_cnt : Nat
deriving DecidableEq, Repr

/-- One entry of the deferred executor: token, delay, which of the four
callbacks was registered and the slot index passed as `cb_arg`. -/
structure Timer where
  token : deferred_token
  delay : Nat
  callback : smtd_timeout
  cb_arg : Nat
deriving DecidableEq, Repr

/-- Calls that leave the module, in the order they are made. -/
inductive Ev where
  | action (keycode : Nat) (act : smtd_action) (sequence_len : Nat)
  | process_record (key : keypos_t) (pressed : Bool)
  | defer_exec (token : deferred_token) (delay : Nat) (callback : smtd_timeout) (cb_arg : Nat)
  | cancel_deferred_exec (token : deferred_token)
  | set_mods (mods : Nat)
  | del_mods (mods : Nat)
  | send_keyboard_report
deriving DecidableEq, Repr

/-- Compile-time configuration and the user supplied hooks.  The two weak
symbols `get_smtd_timeout` and `smtd_feature_enabled` are optional. -/
structure Config where
  TAPPING_TERM : Nat
  SMTD_KEYCODES_BEGIN : Nat
  SMTD_KEYCODES_END : Nat
  get_smtd_timeout : Option (Nat → smtd_timeout → Nat)
  smtd_feature_enabled : Option (Nat → smtd_feature → Bool)
  on_smtd_action : Nat → smtd_action → Nat → Host → Host
  keycode_at : Host → keyevent_t → Nat
  host_default : Nat → keyevent_t → Host → Host

/-- All mutable state: the two globals of sm_td.c:151, the firmware state,
the deferred executor and the trace of outgoing calls. -/
structure World where
  smtd_active_states : List smtd_state
  smtd_active_states_size : Nat
  host : Host
  timers : List Timer
  next_token : deferred_token
  trace : List Ev
deriving DecidableEq, Repr

/-- Result of a computation that may re-enter the host pipeline. -/
inductive Res (α : Type) where
  | ok (val : α)
  | out_of_fuel
  | out_of_bounds
deriving DecidableEq, Repr

/-- Sequencing of results. -/
def Res.bind {α β : Type} (r : Res α) (f : α → Res β) : Res β :=
  match r with
  | .ok a => f a
  | .out_of_fuel => .out_of_fuel
  | .out_of_bounds => .out_of_bounds

/-- Read `smtd_active_states[i]`. -/
def World.st (w : World) (i : Nat) : smtd_state :=
  w.smtd_active_states.getD i EMPTY_STATE

/-- Write `smtd_active_states[i] = s`. -/
def World.setSt (w : World) (i : Nat) (s : smtd_state) : World :=
  { w with smtd_active_states := w.smtd_active_states.set i s }

/-- Update the fields of `smtd_active_states[i]` in place. -/
def World.modSt (w : World) (i : Nat) (f : smtd_state → smtd_state) : World :=
  w.setSt i (f (w.st i))

/-- Append one outgoing call to the trace. -/
def World.emit (w : World) (e : Ev) : World :=
  { w with trace := w.trace ++ [e] }

/-- The state at power up: ten empty slots, size 0, no timer pending. -/
def World.init (h : Host) : World :=
  { smtd_active_states := List.replicate SMTD_POOL_CAPACITY EMPTY_STATE,
    smtd_active_states_size := 0,
    host := h, timers := [], next_token := 1, trace := [] }

/-- The live records: the first `smtd_active_states_size` slots. -/
def World.live (w : World) : List smtd_state :=
  w.smtd_active_states.take w.smtd_active_states_size

/-! ## Firmware services -/

/-- Firmware `get_mods()`. -/
def get_mods (w : World) : Nat := w.host.mods

/-- Firmware `set_mods(mods)`. -/
def set_mods (mods : Nat) (w : World) : World :=
  let w1 : World := { w with host := { w.host with mods := mods % 256 } }
  w1.emit (.set_mods mods)

/-- Firmware `del_mods(mods)`: `real_mods &= ~mods` on a byte. -/
def del_mods (mods : Nat) (w : World) : World :=
  let w1 : World := { w with host := { w.host with mods := w.host.mods &&& (255 - mods % 256) } }
  w1.emit (.del_mods mods)

/-- Firmware `send_keyboard_report()`. -/
def send_keyboard_report (w : World) : World := w.emit .send_keyboard_report

/-- Firmware `defer_exec(delay, callback, cb_arg)`: a fresh token is handed out
and the entry is queued.  Returns the token and the new state. -/
def defer_exec (delay : Nat) (callback : smtd_timeout) (cb_arg : Nat) (w : World) :
    deferred_token × World :=
  let entry : Timer :=
    { token := w.next_token, delay := delay, callback := callback, cb_arg := cb_arg }
  let w1 : World := { w with timers := w.timers ++ [entry], next_token := w.next_token + 1 }
  (w.next_token, w1.emit (.defer_exec w.next_token delay callback cb_arg))

/-- Firmware `cancel_deferred_exec(token)`: drops the entry with that token;
no effect on the invalid token or on a token that is not queued. -/
def cancel_deferred_exec (token : deferred_token) (w : World) : World :=
  let keep : Timer → Bool := fun t => t.token != token || token == INVALID_DEFERRED_TOKEN
  let w1 : World := { w with timers := w.timers.filter keep }
  w1.emit (.cancel_deferred_exec token)

/-! ## sm_td.c -/

/-- Function `get_smtd_timeout_default` (sm_td.c:47) with the defaults of sm_td.h:50-64. -/
def get_smtd_timeout_default (cfg : Config) (timeout : smtd_timeout) : Nat :=
  match timeout with
  | SMTD_TIMEOUT_TAP => cfg.TAPPING_TERM
  | SMTD_TIMEOUT_SEQUENCE => cfg.TAPPING_TERM / 2
  | SMTD_TIMEOUT_FOLLOWING_TAP => cfg.TAPPING_TERM
  | SMTD_TIMEOUT_RELEASE => cfg.TAPPING_TERM / 4

/-- Function `get_smtd_timeout_or_default` (sm_td.c:61). -/
def get_smtd_timeout_or_default (cfg : Config) (keycode : Nat) (timeout : smtd_timeout) : Nat :=
  match cfg.get_smtd_timeout with
  | some hook => hook keycode timeout
  | none => get_smtd_timeout_default cfg timeout

/-- Function `smtd_feature_enabled_default` (sm_td.c:72) with the defaults of sm_td.h:66-72. -/
def smtd_feature_enabled_default (feature : smtd_feature) : Bool :=
  match feature with
  | SMTD_FEATURE_MODS_RECALL => true
  | SMTD_FEATURE_AGGREGATE_TAPS => false

/-- Function `smtd_feature_enabled_or_default` (sm_td.c:82). -/
def smtd_feature_enabled_or_default (cfg : Config) (keycode : Nat) (feature : smtd_feature) : Bool :=
  match cfg.smtd_feature_enabled with
  | some hook => hook keycode feature
  | none => smtd_feature_enabled_default feature

/-- C macro `SMTD_ACTION(action, state)` (sm_td.h:137): the user callback is
called with the key, the action and the current `sequence_len` of the slot. -/
def SMTD_ACTION (cfg : Config) (action : smtd_action) (idx : Nat) (w : World) : World :=
  let s := w.st idx
  let w1 : World := w.emit (.action s.macro_keycode action s.sequence_len)
  { w1 with host := cfg.on_smtd_action s.macro_keycode action s.sequence_len w1.host }

/-- C macro `DO_ACTION_TAP(state)` (sm_td.h:216). -/
def DO_ACTION_TAP (cfg : Config) (idx : Nat) (w : World) : World :=
  let current_mods := get_mods w
  if smtd_feature_enabled_or_default cfg (w.st idx).macro_keycode SMTD_FEATURE_MODS_RECALL
      && (w.st idx).modes_before_touch != current_mods then
    let w1 := set_mods (w.st idx).modes_before_touch w
    let w2 := send_keyboard_report w1
    let w3 := SMTD_ACTION cfg SMTD_ACTION_TAP idx w2
    let mods_diff := (get_mods w3 ^^^ (w3.st idx).modes_before_touch) % 256
    let w4 := set_mods (current_mods ^^^ mods_diff) w3
    let w5 := del_mods (w4.st idx).modes_with_touch w4
    let w6 := send_keyboard_report w5
    let w7 := w6.modSt idx fun s => { s with modes_before_touch := 0 }
    w7.modSt idx fun s => { s with modes_with_touch := 0 }
  else
    SMTD_ACTION cfg SMTD_ACTION_TAP idx w

/-- Run `process_record` on a synthesized record; the call is traced. -/
def call_process_record (process_record : keyrecord_t → World → Res World)
    (record : keyrecord_t) (w : World) : Res World :=
  process_record record (w.emit (.process_record record.event.key record.event.pressed))

/-- Function `smtd_press_following_key` (sm_td.c:154). -/
def smtd_press_following_key (process_record : keyrecord_t → World → Res World)
    (idx : Nat) (release : Bool) (w : World) : Res World :=
  let w1 := w.modSt idx fun s => { s with freeze := true }
  let record_press : keyrecord_t :=
    { event := MAKE_KEYEVENT (w1.st idx).following_key.row (w1.st idx).following_key.col true }
  (call_process_record process_record record_press w1).bind fun w2 =>
    if release then
      let record_release : keyrecord_t :=
        { event := MAKE_KEYEVENT (w2.st idx).following_key.row (w2.st idx).following_key.col false }
      (call_process_record process_record record_release w2).bind fun w3 =>
        .ok (w3.modSt idx fun s => { s with freeze := false })
    else
      .ok (w2.modSt idx fun s => { s with freeze := false })

/-- Function `timeout_reset_seq` (sm_td.c:175). -/
def timeout_reset_seq (idx : Nat) (w : World) : World :=
  w.modSt idx fun s => { s with sequence_len := 0 }

/-- The inner loop of sm_td.c:234: `n` iterations starting at `j`, each copying
slot `j + 1` over slot `j`. -/
def shift_down : Nat → Nat → List smtd_state → List smtd_state
  | 0, _, l => l
  | n + 1, j, l => shift_down n (j + 1) (l.set j (l.getD (j + 1) EMPTY_STATE))

/-- The `SMTD_STAGE_NONE` case of `smtd_next_stage` (sm_td.c:230-260): if the
pointer is one of the live slots, the later records move one slot down, the
size is decremented and the vacated last slot is cleared. -/
def remove_state (idx : Nat) (w : World) : World :=
  if idx < w.smtd_active_states_size then
    let l := shift_down (w.smtd_active_states_size - 1 - idx) idx w.smtd_active_states
    { w with smtd_active_states := l.set (w.smtd_active_states_size - 1) EMPTY_STATE,
             smtd_active_states_size := w.smtd_active_states_size - 1 }
  else w

/-- Arm the timer of a stage: `state->timeout = defer_exec(get_smtd_timeout_or_default(..), cb, state)`. -/
def arm_timeout (cfg : Config) (kind : smtd_timeout) (idx : Nat) (w : World) : World :=
  let r := defer_exec (get_smtd_timeout_or_default cfg (w.st idx).macro_keycode kind) kind idx w
  r.2.modSt idx fun s => { s with timeout := r.1 }

/-- Function `smtd_next_stage` (sm_td.c:220). -/
def smtd_next_stage (cfg : Config) (idx : Nat) (next_stage : smtd_stage) (w : World) : World :=
  let prev_token := (w.st idx).timeout
  let w1 := w.modSt idx fun s => { s with timeout := INVALID_DEFERRED_TOKEN }
  let w2 := w1.modSt idx fun s => { s with stage := next_stage }
  let w3 :=
    match next_stage with
    | SMTD_STAGE_NONE => remove_state idx w2
    | SMTD_STAGE_TOUCH =>
      let a := w2.modSt idx fun s => { s with modes_before_touch := get_mods w2 }
      let b := SMTD_ACTION cfg SMTD_ACTION_TOUCH idx a
      let c := b.modSt idx fun s => { s with modes_with_touch := get_mods b &&& (255 - (b.st idx).modes_before_touch % 256) }
      arm_timeout cfg SMTD_TIMEOUT_TAP idx c
    | SMTD_STAGE_SEQUENCE => arm_timeout cfg SMTD_TIMEOUT_SEQUENCE idx w2
    | SMTD_STAGE_HOLD => SMTD_ACTION cfg SMTD_ACTION_HOLD idx w2
    | SMTD_STAGE_FOLLOWING_TOUCH => arm_timeout cfg SMTD_TIMEOUT_FOLLOWING_TAP idx w2
    | SMTD_STAGE_RELEASE => arm_timeout cfg SMTD_TIMEOUT_RELEASE idx w2
  cancel_deferred_exec prev_token w3

/-- Function `timeout_touch` (sm_td.c:182). -/
def timeout_touch (cfg : Config) (idx : Nat) (w : World) : World :=
  smtd_next_stage cfg idx SMTD_STAGE_HOLD w

/-- Function `timeout_sequence` (sm_td.c:188). -/
def timeout_sequence (cfg : Config) (idx : Nat) (w : World) : World :=
  let w1 :=
    if smtd_feature_enabled_or_default cfg (w.st idx).macro_keycode SMTD_FEATURE_AGGREGATE_TAPS then
      DO_ACTION_TAP cfg idx w
    else w
  smtd_next_stage cfg idx SMTD_STAGE_NONE w1

/-- Function `timeout_following_touch` (sm_td.c:199). -/
def timeout_following_touch (cfg : Config) (process_record : keyrecord_t → World → Res World)
    (idx : Nat) (w : World) : Res World :=
  smtd_press_following_key process_record idx false (smtd_next_stage cfg idx SMTD_STAGE_HOLD w)

/-- Function `timeout_release` (sm_td.c:208). -/
def timeout_release (cfg : Config) (process_record : keyrecord_t → World → Res World)
    (idx : Nat) (w : World) : Res World :=
  (smtd_press_following_key process_record idx false (DO_ACTION_TAP cfg idx w)).bind fun w1 =>
    .ok (smtd_next_stage cfg idx SMTD_STAGE_NONE w1)

/-- Position test of sm_td.c:348: `following_key.row == key.row && following_key.col == key.col`. -/
def same_pos (a b : keypos_t) : Bool := a.row == b.row && a.col == b.col

/-- Function `process_smtd_state` (sm_td.c:290).  The returned flag is the C
return value: `false` means the event was handled by this record. -/
def process_smtd_state (cfg : Config) (process_record : keyrecord_t → World → Res World)
    (keycode : Nat) (record : keyrecord_t) (idx : Nat) (w : World) : Res (Bool × World) :=
  if (w.st idx).freeze then .ok (true, w) else
  match (w.st idx).stage with
  | SMTD_STAGE_NONE =>
    if keycode == (w.st idx).macro_keycode && record.event.pressed then
      .ok (false, smtd_next_stage cfg idx SMTD_STAGE_TOUCH w)
    else .ok (true, w)
  | SMTD_STAGE_TOUCH =>
    if keycode == (w.st idx).macro_keycode && !record.event.pressed then
      let w1 := smtd_next_stage cfg idx SMTD_STAGE_SEQUENCE w
      let w2 :=
        if !smtd_feature_enabled_or_default cfg (w1.st idx).macro_keycode
            SMTD_FEATURE_AGGREGATE_TAPS then
          DO_ACTION_TAP cfg idx w1
        else w1
      .ok (false, w2)
    else if keycode != (w.st idx).macro_keycode && record.event.pressed then
      let w1 := w.modSt idx fun s => { s with following_key := record.event.key }
      let w2 := w1.modSt idx fun s => { s with following_keycode := keycode }
      .ok (false, smtd_next_stage cfg idx SMTD_STAGE_FOLLOWING_TOUCH w2)
    else .ok (true, w)
  | SMTD_STAGE_SEQUENCE =>
    if keycode == (w.st idx).macro_keycode && record.event.pressed then
      let w1 := w.modSt idx fun s => { s with sequence_len := (s.sequence_len + 1) % 256 }
      .ok (false, smtd_next_stage cfg idx SMTD_STAGE_TOUCH w1)
    else if record.event.pressed then
      let w1 :=
        if smtd_feature_enabled_or_default cfg (w.st idx).macro_keycode
            SMTD_FEATURE_AGGREGATE_TAPS then
          DO_ACTION_TAP cfg idx w
        else w
      .ok (true, smtd_next_stage cfg idx SMTD_STAGE_NONE w1)
    else .ok (true, w)
  | SMTD_STAGE_FOLLOWING_TOUCH =>
    if keycode == (w.st idx).macro_keycode && !record.event.pressed then
      .ok (false, smtd_next_stage cfg idx SMTD_STAGE_RELEASE w)
    else if keycode != (w.st idx).macro_keycode
        && same_pos (w.st idx).following_key record.event.key && !record.event.pressed then
      (smtd_press_following_key process_record idx true
          (smtd_next_stage cfg idx SMTD_STAGE_HOLD w)).bind fun w1 =>
        .ok (false, w1)
    else if keycode != (w.st idx).macro_keycode
        && !same_pos (w.st idx).following_key record.event.key && record.event.pressed then
      (smtd_press_following_key process_record idx false
          (smtd_next_stage cfg idx SMTD_STAGE_HOLD w)).bind fun w1 =>
        let w2 := w1.modSt idx fun s => { s with freeze := true }
        let record_press : keyrecord_t :=
          { event := MAKE_KEYEVENT record.event.key.row record.event.key.col true }
        (call_process_record process_record record_press w2).bind fun w3 =>
          .ok (false, w3.modSt idx fun s => { s with freeze := false })
    else .ok (true, w)
  | SMTD_STAGE_HOLD =>
    if keycode == (w.st idx).macro_keycode && !record.event.pressed then
      .ok (false, smtd_next_stage cfg idx SMTD_STAGE_NONE (SMTD_ACTION cfg SMTD_ACTION_RELEASE idx w))
    else .ok (true, w)
  | SMTD_STAGE_RELEASE =>
    if keycode == (w.st idx).macro_keycode && record.event.pressed then
      (smtd_press_following_key process_record idx false (DO_ACTION_TAP cfg idx w)).bind fun w1 =>
        let w2 := smtd_next_stage cfg idx SMTD_STAGE_TOUCH w1
        .ok (false, w2.modSt idx fun s => { s with sequence_len := 0 })
    else if keycode != (w.st idx).macro_keycode
        && same_pos (w.st idx).following_key record.event.key && !record.event.pressed then
      (smtd_press_following_key process_record idx true
          (SMTD_ACTION cfg SMTD_ACTION_HOLD idx w)).bind fun w1 =>
        .ok (false, smtd_next_stage cfg idx SMTD_STAGE_NONE
          (SMTD_ACTION cfg SMTD_ACTION_RELEASE idx w1))
    else if keycode != (w.st idx).macro_keycode
        && ((w.st idx).following_key.row != record.event.key.row
            || (w.st idx).following_key.col != record.event.key.col)
        && record.event.pressed then
      (smtd_press_following_key process_record idx false (DO_ACTION_TAP cfg idx w)).bind fun w1 =>
        let w2 := smtd_next_stage cfg idx SMTD_STAGE_NONE w1
        let record_press : keyrecord_t :=
          { event := MAKE_KEYEVENT record.event.key.row record.event.key.col true }
        (call_process_record process_record record_press w2).bind fun w3 =>
          .ok (false, w3)
    else .ok (true, w)

/-- The first loop of `process_smtd` (sm_td.c:475): offer the event to slot
`i`, `i + 1`, ... while `i < smtd_active_states_size`, the size being read
again at every iteration.  The first argument bounds the number of
iterations; the counter is a `uint8_t`, so 256 is never reached. -/
def process_smtd_scan (cfg : Config) (process_record : keyrecord_t → World → Res World)
    (keycode : Nat) (record : keyrecord_t) : Nat → Nat → World → Res (Bool × World)
  | 0, _, w => .ok (true, w)
  | n + 1, i, w =>
    if i < w.smtd_active_states_size then
      (process_smtd_state cfg process_record keycode record i w).bind fun r =>
        if r.1 then process_smtd_scan cfg process_record keycode record n (i + 1) r.2
        else .ok (false, r.2)
    else .ok (true, w)

/-- The second loop of `process_smtd` (sm_td.c:502): is there a live slot
whose `macro_keycode` is the keycode. -/
def already_handled (keycode : Nat) (w : World) : Bool :=
  (List.range w.smtd_active_states_size).any fun i => (w.st i).macro_keycode == keycode

/-- Lines 512-514 of `process_smtd`: the slot after the live ones gets the
keycode and the size is incremented (a `uint8_t`). -/
def open_slot (keycode : Nat) (w : World) : World :=
  let w1 := w.modSt w.smtd_active_states_size fun s => { s with macro_keycode := keycode }
  { w1 with smtd_active_states_size := (w1.smtd_active_states_size + 1) % 256 }

/-- Function `process_smtd` (sm_td.c:469).  The returned flag is the C return
value: `false` means handled, `true` means the host goes on with the event.
Writing the new record past the tenth slot is reported as `out_of_bounds`. -/
def process_smtd (cfg : Config) (process_record : keyrecord_t → World → Res World)
    (keycode : Nat) (record : keyrecord_t) (w : World) : Res (Bool × World) :=
  (process_smtd_scan cfg process_record keycode record 256 0 w).bind fun r =>
    if !r.1 then .ok (false, r.2)
    else if !record.event.pressed then .ok (true, r.2)
    else if keycode ≤ cfg.SMTD_KEYCODES_BEGIN || cfg.SMTD_KEYCODES_END ≤ keycode then
      .ok (true, r.2)
    else if already_handled keycode r.2 then .ok (true, r.2)
    else if SMTD_POOL_CAPACITY ≤ r.2.smtd_active_states_size then .out_of_bounds
    else
      process_smtd_state cfg process_record keycode record r.2.smtd_active_states_size
        (open_slot keycode r.2)

/-! ## The host pipeline -/

/-- Firmware `process_record`, reduced to what the module relies on: the
keycode of the event is looked up in the keymap, the record is handed to
`process_smtd` (the documented way of installing the module is to call it
first in `process_record_user`), and when `process_smtd` returns `true` the
host handles the key itself.  The first argument bounds the depth of
re-entry. -/
def process_record (cfg : Config) : Nat → keyrecord_t → World → Res World
  | 0 => fun _ _ => .out_of_fuel
  | fuel + 1 => fun record w =>
    let keycode := cfg.keycode_at w.host record.event
    (process_smtd cfg (process_record cfg fuel) keycode record w).bind fun r =>
      if r.1 then .ok { r.2 with host := cfg.host_default keycode record.event r.2.host }
      else .ok r.2

/-- One call of the entry point by the host, with re-entry depth `fuel`. -/
def smtd_event (cfg : Config) (fuel : Nat) (keycode : Nat) (record : keyrecord_t) (w : World) :
    Res (Bool × World) :=
  process_smtd cfg (process_record cfg fuel) keycode record w

/-- A press or release of the key at `key`, as a record. -/
def mk_record (key : keypos_t) (pressed : Bool) : keyrecord_t :=
  { event := { key := key, pressed := pressed } }

/-- Feed a sequence of `(keycode, record)` events to the entry point, one
after the other, collecting the C return values. -/
def feed (cfg : Config) (fuel : Nat) : List (Nat × keyrecord_t) → World → Res (List Bool × World)
  | [], w => .ok ([], w)
  | e :: es, w =>
    (smtd_event cfg fuel e.1 e.2 w).bind fun r =>
      (feed cfg fuel es r.2).bind fun rs => .ok (r.1 :: rs.1, rs.2)

/-- The actions passed to `on_smtd_action`, in order. -/
def actions_of (t : List Ev) : List Ev :=
  t.filter fun e => match e with
    | .action _ _ _ => true
    | _ => false

/-- The calls visible to the user and to the host pipeline: the actions handed
to `on_smtd_action` and the records handed to `process_record`; calls of the
timer and modifier services are dropped. -/
def emitted (t : List Ev) : List Ev :=
  t.filter fun e => match e with
    | .action _ _ _ => true
    | .process_record _ _ => true
    | _ => false

/-- The actions emitted for the key `K`, together with all synthesized records. -/
def emitted_for (K : Nat) (t : List Ev) : List Ev :=
  (emitted t).filter fun e => match e with
    | .action k _ _ => k == K
    | _ => true

/-- The `SMTD_ACTION_TAP` actions of a trace. -/
def taps_of (t : List Ev) : List Ev :=
  (emitted t).filter fun e => match e with
    | .action _ SMTD_ACTION_TAP _ => true
    | _ => false

/-- The array has its ten slots and the size does not exceed them. -/
def World.wf (w : World) : Prop :=
  w.smtd_active_states.length = SMTD_POOL_CAPACITY ∧ w.smtd_active_states_size ≤ SMTD_POOL_CAPACITY

/-- A sample configuration: keycodes 101..109 are tracked, no user hooks, the
user callback and the default key handling leave the firmware state alone, and
the keymap sends the position `(row, col)` to the keycode `10 * row + col`. -/
def cfg0 : Config :=
  { TAPPING_TERM := 200, SMTD_KEYCODES_BEGIN := 100, SMTD_KEYCODES_END := 110,
    get_smtd_timeout := none, smtd_feature_enabled := none,
    on_smtd_action := fun _ _ _ h => h,
    keycode_at := fun _ e => 10 * e.key.row + e.key.col,
    host_default := fun _ _ h => h }

/-- A sample configuration with tap aggregation switched on for every key. -/
def cfg_agg : Config :=
  { cfg0 with smtd_feature_enabled := some fun _ f => f == SMTD_FEATURE_AGGREGATE_TAPS }

/-- A sample firmware state: no modifier held, base layer. -/
def host0 : Host :=
  { mods := 0, layer_state := 1, return_layer := RETURN_LAYER_NOT_SET, return_layer_cnt := 0 }

/-- The pool holds exactly one record, in slot 0: it tracks `K`, is in stage
`stage`, not frozen, and has counted `s` taps. -/
def Solo (K : Nat) (stage : smtd_stage) (s : Nat) (w : World) : Prop :=
  w.smtd_active_states_size = 1 ∧ w.smtd_active_states.length = 10
    ∧ (w.st 0).macro_keycode = K ∧ (w.st 0).stage = stage
    ∧ (w.st 0).freeze = false ∧ (w.st 0).sequence_len = s

/-- The events of `n` consecutive taps of the key `K` at position `pK`. -/
def tap_pairs (K : Nat) (pK : keypos_t) : Nat → List (Nat × keyrecord_t)
  | 0 => []
  | n + 1 => tap_pairs K pK n ++ [(K, mk_record pK true), (K, mk_record pK false)]

/-- Everything outside slot `i` is the same in `w2` as in `w`: the array
length, the size and all other slots. -/
def Frame (i : Nat) (w w2 : World) : Prop :=
  w2.smtd_active_states.length = w.smtd_active_states.length
    ∧ w2.smtd_active_states_size = w.smtd_active_states_size
    ∧ ∀ j, j ≠ i → w2.st j = w.st j

/-- The host pipeline `pr` does not come back into the module: it returns the
array and the size as it got them. -/
def PoolKept (pr : keyrecord_t → World → Res World) : Prop :=
  ∀ r w w2, pr r w = .ok w2 →
    w2.smtd_active_states = w.smtd_active_states
      ∧ w2.smtd_active_states_size = w.smtd_active_states_size

/-- A pool with two records under `cfg0`: key 105 was pressed, then key 106
at row 10, column 6 was pressed and released, so that the record of 105 is in
`HOLD` and the replayed tap of 106 has left a record of 106 in `SEQUENCE`. -/
def world_two : World :=
  match feed cfg0 1 [(105, mk_record ⟨5, 10⟩ true), (106, mk_record ⟨6, 10⟩ true),
      (106, mk_record ⟨6, 10⟩ false)] (World.init host0) with
  | .ok r => r.2
  | _ => World.init host0

/-- A host pipeline that returns at once: no re-entry. -/
def pr_none : keyrecord_t → World → Res World := fun _ w => .ok w

/-- The transition table of the specification (section 4.2) read as a
predicate: does the event `(keycode, record)` match one of the event rows of
the stage of the record `s`?  The key of the record is the one with keycode
`s.macro_keycode`; the following key is a key with another keycode at the
recorded position; a third key is a key with another keycode at another
position. -/
def spec_table_row (s : smtd_state) (keycode : Nat) (record : keyrecord_t) : Bool :=
  let own := keycode == s.macro_keycode
  let following := same_pos s.following_key record.event.key
  let pressed := record.event.pressed
  match s.stage with
  | SMTD_STAGE_NONE => own && pressed
  | SMTD_STAGE_TOUCH => (own && !pressed) || (!own && pressed)
  | SMTD_STAGE_SEQUENCE => pressed
  | SMTD_STAGE_FOLLOWING_TOUCH =>
    (own && !pressed) || (!own && following && !pressed) || (!own && !following && pressed)
  | SMTD_STAGE_HOLD => own && !pressed
  | SMTD_STAGE_RELEASE =>
    (own && pressed) || (!own && following && !pressed) || (!own && !following && pressed)

/-- The queued timers whose callback argument is the slot `idx`: the pending
timers of the record in that slot. -/
def pending_for (idx : Nat) (w : World) : List Timer :=
  w.timers.filter fun t => t.cb_arg == idx

/-- The entry that `arm_timeout cfg kind idx w` hands to the deferred
executor: a fresh token, the timeout of the key of the slot, the callback of
the kind and the slot as argument. -/
def armed_entry (cfg : Config) (kind : smtd_timeout) (idx : Nat) (w : World) : Timer :=
  { token := w.next_token,
    delay := get_smtd_timeout_or_default cfg (w.st idx).macro_keycode kind,
    callback := kind, cb_arg := idx }


/-- A sample firmware state with the modifier bit 0 held. -/
def host_mod : Host := { host0 with mods := 1 }

/-- A sample configuration whose user callback clears all modifiers on
`SMTD_ACTION_TOUCH` and leaves the firmware state alone otherwise. -/
def cfg_clear : Config :=
  { cfg0 with on_smtd_action := fun _ a _ h =>
      if a = SMTD_ACTION_TOUCH then { h with mods := 0 } else h }

/-- A sample configuration whose user callback sets the modifier bit 1 on
`SMTD_ACTION_TOUCH` and leaves the firmware state alone otherwise. -/
def cfg_set : Config :=
  { cfg0 with on_smtd_action := fun _ a _ h =>
      if a = SMTD_ACTION_TOUCH then { h with mods := h.mods ||| 2 } else h }

/-- The pool under `cfg_set` after key 105 was pressed and released with the
modifier bit 0 held, just before the tap is resolved: the record went through
`TOUCH` (the callback added bit 1) and is in `SEQUENCE`. -/
def world_set : World :=
  smtd_next_stage cfg_set 0 SMTD_STAGE_SEQUENCE
    (smtd_next_stage cfg_set 0 SMTD_STAGE_TOUCH (open_slot 105 (World.init host_mod)))


/-- A sample configuration like `cfg0` with keycodes 101..119 tracked. -/
def cfg_wide : Config := { cfg0 with SMTD_KEYCODES_END := 120 }

/-- Press the key with keycode `k` under `cfg_wide` and let its tap timer fire:
`timeout_touch` runs on the slot the press has opened (the last live one). -/
def hold_key (w : World) (k : Nat) : World :=
  match smtd_event cfg_wide 1 k (mk_record ⟨k % 10, k / 10⟩ true) w with
  | .ok r => timeout_touch cfg_wide (r.2.smtd_active_states_size - 1) r.2
  | _ => w

/-- A full pool: the ten keys 101..110 are pressed one after the other, each
held until its tap timer fires, so the ten slots hold records in `HOLD`. -/
def world_full : World :=
  (List.range 10).foldl (fun w i => hold_key w (101 + i)) (World.init host0)

/-- A pool whose first record is in `SEQUENCE` and is followed by a record in
`TOUCH`, under `cfg0`: key 105 is pressed, key 106 is pressed, 105 is released
(its record goes to `RELEASE`), 105 is pressed again (tap of 105, the press of
106 is replayed and opens a record for 106 in slot 1, the record of 105
re-enters `TOUCH`) and released (`SEQUENCE`); 106 is still held. -/
def world_seq_touch : World :=
  match feed cfg0 1 [(105, mk_record ⟨5, 10⟩ true), (106, mk_record ⟨6, 10⟩ true),
      (105, mk_record ⟨5, 10⟩ false), (105, mk_record ⟨5, 10⟩ true),
      (105, mk_record ⟨5, 10⟩ false)] (World.init host0) with
  | .ok r => r.2
  | _ => World.init host0

/-- The slots behind the live records are empty, as they are at power up and
after every removal. -/
def World.clean (w : World) : Prop :=
  ∀ j, w.smtd_active_states_size ≤ j → w.st j = EMPTY_STATE

/-- The keycodes of the live records, in pool order. -/
def World.keys (w : World) : List Nat := w.live.map fun s => s.macro_keycode

/-- One record per key: the array has its ten slots, at most ten records are
live, and the live records have pairwise distinct keycodes. -/
def World.one_per_key (w : World) : Prop := w.wf ∧ w.keys.Nodup

/-- The host pipeline `pr` keeps the one-record-per-key property. -/
def KeepsKeys (pr : keyrecord_t → World → Res World) : Prop :=
  ∀ r w w2, w.one_per_key → pr r w = .ok w2 → w2.one_per_key

/-- The pools that can be reached from power up: by calls of the entry point
with any keycode and record and any depth of re-entry, by the four timeout
callbacks (run with any slot as argument, at any time), and by the firmware
changing its own state between the calls. -/
inductive Reachable (cfg : Config) : World → Prop where
  | init (h : Host) : Reachable cfg (World.init h)
  | event (fuel kc : Nat) (r : keyrecord_t) (w : World) (b : Bool) (w2 : World) :
      Reachable cfg w → smtd_event cfg fuel kc r w = .ok (b, w2) → Reachable cfg w2
  | touch (idx : Nat) (w : World) : Reachable cfg w → Reachable cfg (timeout_touch cfg idx w)
  | sequence (idx : Nat) (w : World) :
      Reachable cfg w → Reachable cfg (timeout_sequence cfg idx w)
  | following (fuel idx : Nat) (w w2 : World) :
      Reachable cfg w →
      timeout_following_touch cfg (process_record cfg fuel) idx w = .ok w2 → Reachable cfg w2
  | release (fuel idx : Nat) (w w2 : World) :
      Reachable cfg w →
      timeout_release cfg (process_record cfg fuel) idx w = .ok w2 → Reachable cfg w2
  | host (w : World) (h : Host) : Reachable cfg w → Reachable cfg { w with host := h }

/-- Firmware `get_highest_layer(state)`: the index of the highest bit set in a
32-bit layer state, 0 when no bit is set. -/
def get_highest_layer (state : Nat) : Nat :=
  (List.range 32).foldl (fun acc i => if state.testBit i then i else acc) 0

/-- Firmware `layer_move(layer)`: the layer state becomes `1 << layer`. -/
def layer_move (layer : Nat) (h : Host) : Host :=
  { h with layer_state := 2 ^ layer % 2 ^ 32 }

/-- C macro `LAYER_PUSH(layer)` (sm_td.h:196); both variables are `uint8_t`. -/
def LAYER_PUSH (layer : Nat) (h : Host) : Host :=
  let h1 : Host := { h with return_layer_cnt := (h.return_layer_cnt + 1) % 256 }
  let h2 : Host :=
    if h1.return_layer == RETURN_LAYER_NOT_SET then
      { h1 with return_layer := get_highest_layer h1.layer_state % 256 }
    else h1
  layer_move layer h2

/-- C macro `LAYER_RESTORE()` (sm_td.h:203). -/
def LAYER_RESTORE (h : Host) : Host :=
  if h.return_layer_cnt > 0 then
    let h1 : Host := { h with return_layer_cnt := h.return_layer_cnt - 1 }
    if h1.return_layer_cnt == 0 then
      let h2 : Host := layer_move h1.return_layer h1
      { h2 with return_layer := RETURN_LAYER_NOT_SET }
    else h1
  else h

/-- A firmware state with layer 15 as the highest layer, the return layer
unset and the counter 0. -/
def host_l15 : Host :=
  { mods := 0, layer_state := 2 ^ 15, return_layer := RETURN_LAYER_NOT_SET, return_layer_cnt := 0 }

/-- The pool after: press 105, its tap timer fires (`HOLD`), press 106 (a
record in `TOUCH` in slot 1, with its tap timer queued for slot 1), release
105 (the record of 105 is freed and the record of 106 moves to slot 0). -/
def world_b_shifted : World :=
  match smtd_event cfg0 1 105 (mk_record ⟨5, 10⟩ true) (World.init host0) with
  | .ok r1 =>
    match smtd_event cfg0 1 106 (mk_record ⟨6, 10⟩ true) (timeout_touch cfg0 0 r1.2) with
    | .ok r2 =>
      match smtd_event cfg0 1 105 (mk_record ⟨5, 10⟩ false) r2.2 with
      | .ok r3 => r3.2
      | _ => World.init host0
    | _ => World.init host0
  | _ => World.init host0

/-- The value a call returned, `d` if it did not return. -/
def Res.getD {α : Type} (r : Res α) (d : α) : α :=
  match r with
  | .ok a => a
  | _ => d

/-- Eight key events, each a press of a key that is up or a release of a key
that is down: press 105, press 106, release 105, press 105, press the
untracked key 7, release 105, press 105, release 105. -/
def run_seq_following : List (Nat × keyrecord_t) :=
  [(105, mk_record ⟨5, 10⟩ true), (106, mk_record ⟨6, 10⟩ true), (105, mk_record ⟨5, 10⟩ false),
   (105, mk_record ⟨5, 10⟩ true), (7, mk_record ⟨7, 0⟩ true), (105, mk_record ⟨5, 10⟩ false),
   (105, mk_record ⟨5, 10⟩ true), (105, mk_record ⟨5, 10⟩ false)]

/-- The pool after `run_seq_following` from power up: the record of 105 in
slot 0 is in `SEQUENCE`, the record of 106 in slot 1 is in `FOLLOWING_TOUCH`
with following key `⟨7, 0⟩`. -/
def world_seq_following : World :=
  match feed cfg0 1 run_seq_following (World.init host0) with
  | .ok r => r.2
  | _ => World.init host0

/-- The fields of a record that the evaluations compare: keycode, stage,
following key and freeze. -/
def smtd_state.summary (s : smtd_state) : Nat × smtd_stage × keypos_t × Bool :=
  (s.macro_keycode, s.stage, s.following_key, s.freeze)

/-- Twenty key events on the tracked keys 101, 102, 103 and the untracked key
7, each a press of a key that is up or a release of a key that is down. -/
def run_three : List (Nat × keyrecord_t) :=
  [(101, mk_record ⟨1, 10⟩ true), (103, mk_record ⟨3, 10⟩ true), (101, mk_record ⟨1, 10⟩ false),
   (101, mk_record ⟨1, 10⟩ true), (102, mk_record ⟨2, 10⟩ true), (101, mk_record ⟨1, 10⟩ false),
   (101, mk_record ⟨1, 10⟩ true), (103, mk_record ⟨3, 10⟩ false), (103, mk_record ⟨3, 10⟩ true),
   (101, mk_record ⟨1, 10⟩ false), (101, mk_record ⟨1, 10⟩ true), (7, mk_record ⟨7, 0⟩ true),
   (101, mk_record ⟨1, 10⟩ false), (101, mk_record ⟨1, 10⟩ true), (103, mk_record ⟨3, 10⟩ false),
   (103, mk_record ⟨3, 10⟩ true), (101, mk_record ⟨1, 10⟩ false), (101, mk_record ⟨1, 10⟩ true),
   (101, mk_record ⟨1, 10⟩ false), (103, mk_record ⟨3, 10⟩ false)]

/-- The pool after `run_three` from power up: the records of 101 and 103 are
in `SEQUENCE`, the record of 102 in slot 2 is in `FOLLOWING_TOUCH` with
following key `⟨7, 0⟩`. -/
def world_three : World :=
  match feed cfg0 2 run_three (World.init host0) with
  | .ok r => r.2
  | _ => World.init host0

/-- The pool after `run_three` and the release of 102: the records of 101 and
103 are in `SEQUENCE`, the record of 102 in slot 2 is in `RELEASE` with
following key `⟨7, 0⟩`. -/
def world_three_release : World :=
  match smtd_event cfg0 2 102 (mk_record ⟨2, 10⟩ false) world_three with
  | .ok r => r.2
  | _ => World.init host0

/-- Well-formedness of the pool in the words of the specification: at most ten
live records, every slot behind them equal to `EMPTY_STATE`, every live record
in a stage other than `NONE` with its keycode strictly inside the range. -/
def World.well_formed (cfg : Config) (w : World) : Bool :=
  decide (w.smtd_active_states_size ≤ SMTD_POOL_CAPACITY)
    && (w.smtd_active_states.drop w.smtd_active_states_size).all (fun s => s == EMPTY_STATE)
    && w.live.all (fun s => s.stage != SMTD_STAGE_NONE
        && decide (cfg.SMTD_KEYCODES_BEGIN < s.macro_keycode)
        && decide (s.macro_keycode < cfg.SMTD_KEYCODES_END))

/-- Ten key events on the tracked keys 101, 102, 103, each a press of a key
that is up or a release of a key that is down. -/
def run_unbalanced : List (Nat × keyrecord_t) :=
  [(101, mk_record ⟨1, 10⟩ true), (102, mk_record ⟨2, 10⟩ true), (101, mk_record ⟨1, 10⟩ false),
   (101, mk_record ⟨1, 10⟩ true), (103, mk_record ⟨3, 10⟩ true), (101, mk_record ⟨1, 10⟩ false),
   (101, mk_record ⟨1, 10⟩ true), (101, mk_record ⟨1, 10⟩ false), (102, mk_record ⟨2, 10⟩ false),
   (103, mk_record ⟨3, 10⟩ false)]

/-- How often the action `act` was handed to `on_smtd_action` for the key `K`. -/
def count_action (K : Nat) (act : smtd_action) (t : List Ev) : Nat :=
  (t.filter fun e => match e with
    | .action k a _ => k == K && a == act
    | _ => false).length

/-- One record per key, and every token stored in a slot was handed out
before: it is below the token `defer_exec` hands out next. -/
def World.tokens_old (w : World) : Prop :=
  w.one_per_key ∧ ∀ j, (w.st j).timeout < w.next_token

/-- The host pipeline `pr` keeps `World.tokens_old`. -/
def KeepsTokens (pr : keyrecord_t → World → Res World) : Prop :=
  ∀ r w w2, w.tokens_old → pr r w = .ok w2 → w2.tokens_old

/-! ## Basic facts about the primitives -/

@[simp] theorem Res.bind_ok {α β : Type} (a : α) (f : α → Res β) : (Res.ok a).bind f = f a := rfl

@[simp] theorem emitted_nil : emitted [] = [] := rfl

@[simp] theorem emitted_append (a b : List Ev) : emitted (a ++ b) = emitted a ++ emitted b := by
  simp [emitted]

theorem st_setSt (w : World) (i j : Nat) (s : smtd_state) :
    (w.setSt i s).st j = if i = j ∧ i < w.smtd_active_states.length then s else w.st j := by
  unfold World.setSt World.st
  simp only [List.getD_eq_getElem?_getD, List.getElem?_set]
  by_cases hij : i = j
  · subst hij
    by_cases hl : i < w.smtd_active_states.length
    · simp [hl]
    · simp [hl, List.getElem?_eq_none (Nat.le_of_not_lt hl)]
  · simp [hij]

@[simp] theorem st_modSt (w : World) (i j : Nat) (f : smtd_state → smtd_state) :
    (w.modSt i f).st j = if i = j ∧ i < w.smtd_active_states.length then f (w.st i) else w.st j := by
  simp [World.modSt, st_setSt]

@[simp] theorem size_modSt (w : World) (i : Nat) (f : smtd_state → smtd_state) :
    (w.modSt i f).smtd_active_states_size = w.smtd_active_states_size := rfl

@[simp] theorem len_modSt (w : World) (i : Nat) (f : smtd_state → smtd_state) :
    (w.modSt i f).smtd_active_states.length = w.smtd_active_states.length := by
  simp [World.modSt, World.setSt]

@[simp] theorem trace_modSt (w : World) (i : Nat) (f : smtd_state → smtd_state) :
    (w.modSt i f).trace = w.trace := rfl

@[simp] theorem host_modSt (w : World) (i : Nat) (f : smtd_state → smtd_state) :
    (w.modSt i f).host = w.host := rfl

@[simp] theorem st_emit (w : World) (e : Ev) (j : Nat) : (w.emit e).st j = w.st j := rfl

@[simp] theorem size_emit (w : World) (e : Ev) :
    (w.emit e).smtd_active_states_size = w.smtd_active_states_size := rfl

@[simp] theorem len_emit (w : World) (e : Ev) :
    (w.emit e).smtd_active_states.length = w.smtd_active_states.length := rfl

@[simp] theorem trace_emit (w : World) (e : Ev) : (w.emit e).trace = w.trace ++ [e] := rfl

@[simp] theorem host_emit (w : World) (e : Ev) : (w.emit e).host = w.host := rfl

/-! ### Service calls leave the array alone -/

@[simp] theorem st_set_mods (m : Nat) (w : World) (j : Nat) : (set_mods m w).st j = w.st j := rfl
@[simp] theorem size_set_mods (m : Nat) (w : World) :
    (set_mods m w).smtd_active_states_size = w.smtd_active_states_size := rfl
@[simp] theorem len_set_mods (m : Nat) (w : World) :
    (set_mods m w).smtd_active_states.length = w.smtd_active_states.length := rfl
@[simp] theorem emitted_set_mods (m : Nat) (w : World) :
    emitted (set_mods m w).trace = emitted w.trace := by
  simp [set_mods, emitted]

@[simp] theorem st_del_mods (m : Nat) (w : World) (j : Nat) : (del_mods m w).st j = w.st j := rfl
@[simp] theorem size_del_mods (m : Nat) (w : World) :
    (del_mods m w).smtd_active_states_size = w.smtd_active_states_size := rfl
@[simp] theorem len_del_mods (m : Nat) (w : World) :
    (del_mods m w).smtd_active_states.length = w.smtd_active_states.length := rfl
@[simp] theorem emitted_del_mods (m : Nat) (w : World) :
    emitted (del_mods m w).trace = emitted w.trace := by
  simp [del_mods, emitted]

@[simp] theorem st_send_report (w : World) (j : Nat) : (send_keyboard_report w).st j = w.st j := rfl
@[simp] theorem size_send_report (w : World) :
    (send_keyboard_report w).smtd_active_states_size = w.smtd_active_states_size := rfl
@[simp] theorem len_send_report (w : World) :
    (send_keyboard_report w).smtd_active_states.length = w.smtd_active_states.length := rfl
@[simp] theorem emitted_send_report (w : World) :
    emitted (send_keyboard_report w).trace = emitted w.trace := by
  simp [send_keyboard_report, emitted]

@[simp] theorem st_cancel (t : Nat) (w : World) (j : Nat) :
    (cancel_deferred_exec t w).st j = w.st j := rfl
@[simp] theorem size_cancel (t : Nat) (w : World) :
    (cancel_deferred_exec t w).smtd_active_states_size = w.smtd_active_states_size := rfl
@[simp] theorem len_cancel (t : Nat) (w : World) :
    (cancel_deferred_exec t w).smtd_active_states.length = w.smtd_active_states.length := rfl
@[simp] theorem emitted_cancel (t : Nat) (w : World) :
    emitted (cancel_deferred_exec t w).trace = emitted w.trace := by
  simp [cancel_deferred_exec, emitted]

@[simp] theorem st_defer (d : Nat) (c : smtd_timeout) (a : Nat) (w : World) (j : Nat) :
    (defer_exec d c a w).2.st j = w.st j := rfl
@[simp] theorem size_defer (d : Nat) (c : smtd_timeout) (a : Nat) (w : World) :
    (defer_exec d c a w).2.smtd_active_states_size = w.smtd_active_states_size := rfl
@[simp] theorem len_defer (d : Nat) (c : smtd_timeout) (a : Nat) (w : World) :
    (defer_exec d c a w).2.smtd_active_states.length = w.smtd_active_states.length := rfl
@[simp] theorem emitted_defer (d : Nat) (c : smtd_timeout) (a : Nat) (w : World) :
    emitted (defer_exec d c a w).2.trace = emitted w.trace := by
  simp [defer_exec, emitted]

@[simp] theorem st_action (cfg : Config) (a : smtd_action) (i : Nat) (w : World) (j : Nat) :
    (SMTD_ACTION cfg a i w).st j = w.st j := rfl
@[simp] theorem size_action (cfg : Config) (a : smtd_action) (i : Nat) (w : World) :
    (SMTD_ACTION cfg a i w).smtd_active_states_size = w.smtd_active_states_size := rfl
@[simp] theorem len_action (cfg : Config) (a : smtd_action) (i : Nat) (w : World) :
    (SMTD_ACTION cfg a i w).smtd_active_states.length = w.smtd_active_states.length := rfl
@[simp] theorem emitted_action (cfg : Config) (a : smtd_action) (i : Nat) (w : World) :
    emitted (SMTD_ACTION cfg a i w).trace
      = emitted w.trace ++ [.action (w.st i).macro_keycode a (w.st i).sequence_len] := by
  simp [SMTD_ACTION, emitted]

/-! ### `arm_timeout` -/

@[simp] theorem st_arm (cfg : Config) (k : smtd_timeout) (i : Nat) (w : World) (j : Nat) :
    (arm_timeout cfg k i w).st j
      = if i = j ∧ i < w.smtd_active_states.length then { w.st i with timeout := w.next_token }
        else w.st j := by
  simp [arm_timeout]
  rfl
@[simp] theorem size_arm (cfg : Config) (k : smtd_timeout) (i : Nat) (w : World) :
    (arm_timeout cfg k i w).smtd_active_states_size = w.smtd_active_states_size := rfl
@[simp] theorem len_arm (cfg : Config) (k : smtd_timeout) (i : Nat) (w : World) :
    (arm_timeout cfg k i w).smtd_active_states.length = w.smtd_active_states.length := by
  simp [arm_timeout]
@[simp] theorem emitted_arm (cfg : Config) (k : smtd_timeout) (i : Nat) (w : World) :
    emitted (arm_timeout cfg k i w).trace = emitted w.trace := by
  simp [arm_timeout]

/-! ### `DO_ACTION_TAP` -/

@[simp] theorem size_tap (cfg : Config) (i : Nat) (w : World) :
    (DO_ACTION_TAP cfg i w).smtd_active_states_size = w.smtd_active_states_size := by
  simp only [DO_ACTION_TAP]
  split <;> simp

@[simp] theorem len_tap (cfg : Config) (i : Nat) (w : World) :
    (DO_ACTION_TAP cfg i w).smtd_active_states.length = w.smtd_active_states.length := by
  simp only [DO_ACTION_TAP]
  split <;> simp

@[simp] theorem emitted_tap (cfg : Config) (i : Nat) (w : World) :
    emitted (DO_ACTION_TAP cfg i w).trace
      = emitted w.trace ++ [.action (w.st i).macro_keycode SMTD_ACTION_TAP (w.st i).sequence_len] := by
  simp only [DO_ACTION_TAP]
  split <;> simp

theorem st_tap (cfg : Config) (i : Nat) (w : World) (j : Nat) :
    ∃ b m, (DO_ACTION_TAP cfg i w).st j
      = { w.st j with modes_before_touch := b, modes_with_touch := m } := by
  simp only [DO_ACTION_TAP]
  split
  · by_cases h : i = j ∧ i < w.smtd_active_states.length
    · obtain ⟨rfl, hl⟩ := h
      exact ⟨0, 0, by simp [hl]⟩
    · exact ⟨(w.st j).modes_before_touch, (w.st j).modes_with_touch, by simp [h]⟩
  · exact ⟨(w.st j).modes_before_touch, (w.st j).modes_with_touch, by simp⟩


@[simp] theorem macro_tap (cfg : Config) (i : Nat) (w : World) (j : Nat) :
    ((DO_ACTION_TAP cfg i w).st j).macro_keycode = (w.st j).macro_keycode := by
  obtain ⟨b, m, h⟩ := st_tap cfg i w j
  rw [h]
@[simp] theorem seq_tap (cfg : Config) (i : Nat) (w : World) (j : Nat) :
    ((DO_ACTION_TAP cfg i w).st j).sequence_len = (w.st j).sequence_len := by
  obtain ⟨b, m, h⟩ := st_tap cfg i w j
  rw [h]
@[simp] theorem stage_tap (cfg : Config) (i : Nat) (w : World) (j : Nat) :
    ((DO_ACTION_TAP cfg i w).st j).stage = (w.st j).stage := by
  obtain ⟨b, m, h⟩ := st_tap cfg i w j
  rw [h]
@[simp] theorem freeze_tap (cfg : Config) (i : Nat) (w : World) (j : Nat) :
    ((DO_ACTION_TAP cfg i w).st j).freeze = (w.st j).freeze := by
  obtain ⟨b, m, h⟩ := st_tap cfg i w j
  rw [h]
@[simp] theorem fkey_tap (cfg : Config) (i : Nat) (w : World) (j : Nat) :
    ((DO_ACTION_TAP cfg i w).st j).following_key = (w.st j).following_key := by
  obtain ⟨b, m, h⟩ := st_tap cfg i w j
  rw [h]
@[simp] theorem fkc_tap (cfg : Config) (i : Nat) (w : World) (j : Nat) :
    ((DO_ACTION_TAP cfg i w).st j).following_keycode = (w.st j).following_keycode := by
  obtain ⟨b, m, h⟩ := st_tap cfg i w j
  rw [h]
@[simp] theorem timeout_tap (cfg : Config) (i : Nat) (w : World) (j : Nat) :
    ((DO_ACTION_TAP cfg i w).st j).timeout = (w.st j).timeout := by
  obtain ⟨b, m, h⟩ := st_tap cfg i w j
  rw [h]

/-! ### `smtd_next_stage` to a stage other than `SMTD_STAGE_NONE` -/

@[simp] theorem macro_next (cfg : Config) (i : Nat) (s : smtd_stage) (w : World) (j : Nat)
    (hs : s ≠ SMTD_STAGE_NONE) :
    ((smtd_next_stage cfg i s w).st j).macro_keycode = (w.st j).macro_keycode := by
  by_cases h : i = j ∧ i < w.smtd_active_states.length
  · obtain ⟨rfl, hl⟩ := h
    cases s
    · exact absurd rfl hs
    all_goals simp [smtd_next_stage, hl]
  · cases s
    · exact absurd rfl hs
    all_goals
      simp only [smtd_next_stage, st_cancel, st_arm, st_action, st_modSt, len_modSt, len_action]
      simp [h]

@[simp] theorem seq_next (cfg : Config) (i : Nat) (s : smtd_stage) (w : World) (j : Nat)
    (hs : s ≠ SMTD_STAGE_NONE) :
    ((smtd_next_stage cfg i s w).st j).sequence_len = (w.st j).sequence_len := by
  by_cases h : i = j ∧ i < w.smtd_active_states.length
  · obtain ⟨rfl, hl⟩ := h
    cases s
    · exact absurd rfl hs
    all_goals simp [smtd_next_stage, hl]
  · cases s
    · exact absurd rfl hs
    all_goals
      simp only [smtd_next_stage, st_cancel, st_arm, st_action, st_modSt, len_modSt, len_action]
      simp [h]

@[simp] theorem freeze_next (cfg : Config) (i : Nat) (s : smtd_stage) (w : World) (j : Nat)
    (hs : s ≠ SMTD_STAGE_NONE) :
    ((smtd_next_stage cfg i s w).st j).freeze = (w.st j).freeze := by
  by_cases h : i = j ∧ i < w.smtd_active_states.length
  · obtain ⟨rfl, hl⟩ := h
    cases s
    · exact absurd rfl hs
    all_goals simp [smtd_next_stage, hl]
  · cases s
    · exact absurd rfl hs
    all_goals
      simp only [smtd_next_stage, st_cancel, st_arm, st_action, st_modSt, len_modSt, len_action]
      simp [h]

@[simp] theorem fkey_next (cfg : Config) (i : Nat) (s : smtd_stage) (w : World) (j : Nat)
    (hs : s ≠ SMTD_STAGE_NONE) :
    ((smtd_next_stage cfg i s w).st j).following_key = (w.st j).following_key := by
  by_cases h : i = j ∧ i < w.smtd_active_states.length
  · obtain ⟨rfl, hl⟩ := h
    cases s
    · exact absurd rfl hs
    all_goals simp [smtd_next_stage, hl]
  · cases s
    · exact absurd rfl hs
    all_goals
      simp only [smtd_next_stage, st_cancel, st_arm, st_action, st_modSt, len_modSt, len_action]
      simp [h]

@[simp] theorem fkc_next (cfg : Config) (i : Nat) (s : smtd_stage) (w : World) (j : Nat)
    (hs : s ≠ SMTD_STAGE_NONE) :
    ((smtd_next_stage cfg i s w).st j).following_keycode = (w.st j).following_keycode := by
  by_cases h : i = j ∧ i < w.smtd_active_states.length
  · obtain ⟨rfl, hl⟩ := h
    cases s
    · exact absurd rfl hs
    all_goals simp [smtd_next_stage, hl]
  · cases s
    · exact absurd rfl hs
    all_goals
      simp only [smtd_next_stage, st_cancel, st_arm, st_action, st_modSt, len_modSt, len_action]
      simp [h]

theorem stage_next (cfg : Config) (i : Nat) (s : smtd_stage) (w : World) (j : Nat)
    (hs : s ≠ SMTD_STAGE_NONE) :
    ((smtd_next_stage cfg i s w).st j).stage
      = if i = j ∧ i < w.smtd_active_states.length then s else (w.st j).stage := by
  by_cases h : i = j ∧ i < w.smtd_active_states.length
  · obtain ⟨rfl, hl⟩ := h
    cases s
    · exact absurd rfl hs
    all_goals simp [smtd_next_stage, hl]
  · cases s
    · exact absurd rfl hs
    all_goals
      simp only [smtd_next_stage, st_cancel, st_arm, st_action, st_modSt, len_modSt, len_action]
      simp [h]

theorem st_next_ne (cfg : Config) (i : Nat) (s : smtd_stage) (w : World) (j : Nat)
    (hs : s ≠ SMTD_STAGE_NONE) (hij : i ≠ j) :
    (smtd_next_stage cfg i s w).st j = w.st j := by
  cases s
  · exact absurd rfl hs
  all_goals simp [smtd_next_stage, hij]

theorem emitted_next (cfg : Config) (i : Nat) (s : smtd_stage) (w : World) :
    emitted (smtd_next_stage cfg i s w).trace
      = emitted w.trace ++
        (match s with
          | SMTD_STAGE_TOUCH => [.action (w.st i).macro_keycode SMTD_ACTION_TOUCH (w.st i).sequence_len]
          | SMTD_STAGE_HOLD => [.action (w.st i).macro_keycode SMTD_ACTION_HOLD (w.st i).sequence_len]
          | _ => []) := by
  cases s
  case SMTD_STAGE_NONE =>
    simp only [smtd_next_stage, emitted_cancel, remove_state]
    split <;> simp
  all_goals
    by_cases hl : i < w.smtd_active_states.length
    · simp [smtd_next_stage, hl]
    · simp [smtd_next_stage, hl]

@[simp] theorem size_next (cfg : Config) (i : Nat) (s : smtd_stage) (w : World)
    (hs : s ≠ SMTD_STAGE_NONE) :
    (smtd_next_stage cfg i s w).smtd_active_states_size = w.smtd_active_states_size := by
  cases s
  · exact absurd rfl hs
  all_goals simp [smtd_next_stage]

@[simp] theorem len_next (cfg : Config) (i : Nat) (s : smtd_stage) (w : World)
    (hs : s ≠ SMTD_STAGE_NONE) :
    (smtd_next_stage cfg i s w).smtd_active_states.length = w.smtd_active_states.length := by
  cases s
  · exact absurd rfl hs
  all_goals simp [smtd_next_stage]


/-! ### Compaction -/

@[simp] theorem length_shift_down (n j : Nat) (l : List smtd_state) :
    (shift_down n j l).length = l.length := by
  induction n generalizing j l with
  | zero => rfl
  | succ n ih => simp [shift_down, ih]

theorem getD_set_eq (l : List smtd_state) (i k : Nat) (a d : smtd_state) :
    (l.set i a).getD k d = if i = k ∧ i < l.length then a else l.getD k d := by
  simp only [List.getD_eq_getElem?_getD, List.getElem?_set]
  by_cases hik : i = k
  · subst hik
    by_cases hl : i < l.length
    · simp [hl]
    · simp [hl, List.getElem?_eq_none (Nat.le_of_not_lt hl)]
  · simp [hik]

theorem getD_shift_down (n j k : Nat) (l : List smtd_state) (h : j + n ≤ l.length) :
    (shift_down n j l).getD k EMPTY_STATE
      = if j ≤ k ∧ k < j + n then l.getD (k + 1) EMPTY_STATE else l.getD k EMPTY_STATE := by
  induction n generalizing j l with
  | zero =>
    have h0 : ¬ (j ≤ k ∧ k < j + 0) := by omega
    rw [if_neg h0]
    rfl
  | succ n ih =>
    have hlen : (l.set j (l.getD (j + 1) EMPTY_STATE)).length = l.length := by simp
    rw [shift_down, ih (j + 1) _ (by rw [hlen]; omega)]
    simp only [getD_set_eq]
    have hj : j < l.length := by omega
    by_cases h1 : j + 1 ≤ k ∧ k < j + 1 + n
    · have h2 : j ≤ k ∧ k < j + (n + 1) := by omega
      have h3 : ¬ (j = k + 1 ∧ j < l.length) := by omega
      simp [h1, h2, h3]
    · by_cases h4 : j = k
      · subst h4
        have h2 : j ≤ j ∧ j < j + (n + 1) := by omega
        simp [h1, h2, hj]
      · have h2 : ¬ (j ≤ k ∧ k < j + (n + 1)) := by omega
        simp [h1, h2, h4]

theorem size_remove (idx : Nat) (w : World) (h : idx < w.smtd_active_states_size) :
    (remove_state idx w).smtd_active_states_size = w.smtd_active_states_size - 1 := by
  simp [remove_state, h]

@[simp] theorem len_remove (idx : Nat) (w : World) :
    (remove_state idx w).smtd_active_states.length = w.smtd_active_states.length := by
  unfold remove_state
  split <;> simp

@[simp] theorem trace_remove (idx : Nat) (w : World) : (remove_state idx w).trace = w.trace := by
  unfold remove_state
  split <;> simp

theorem st_remove (idx : Nat) (w : World) (j : Nat) (h : idx < w.smtd_active_states_size)
    (hl : w.smtd_active_states_size ≤ w.smtd_active_states.length) :
    (remove_state idx w).st j
      = if j < idx then w.st j
        else if j + 1 < w.smtd_active_states_size then w.st (j + 1)
        else if j + 1 = w.smtd_active_states_size then EMPTY_STATE
        else w.st j := by
  simp only [remove_state, h, if_true, World.st, getD_set_eq, length_shift_down]
  rw [getD_shift_down _ _ _ _ (by omega)]
  by_cases h1 : j < idx
  · have h5 : ¬ (w.smtd_active_states_size - 1 = j
        ∧ w.smtd_active_states_size - 1 < w.smtd_active_states.length) := by omega
    have h2 : ¬ (idx ≤ j ∧ j < idx + (w.smtd_active_states_size - 1 - idx)) := by omega
    rw [if_neg h5, if_neg h2, if_pos h1]
  · by_cases h3 : j + 1 < w.smtd_active_states_size
    · have h5 : ¬ (w.smtd_active_states_size - 1 = j
          ∧ w.smtd_active_states_size - 1 < w.smtd_active_states.length) := by omega
      have h2 : (idx ≤ j ∧ j < idx + (w.smtd_active_states_size - 1 - idx)) := by omega
      rw [if_neg h5, if_pos h2, if_neg h1, if_pos h3]
    · by_cases h4 : j + 1 = w.smtd_active_states_size
      · have h5 : (w.smtd_active_states_size - 1 = j
            ∧ w.smtd_active_states_size - 1 < w.smtd_active_states.length) := by omega
        rw [if_pos h5, if_neg h1, if_neg h3, if_pos h4]
      · have h5 : ¬ (w.smtd_active_states_size - 1 = j
            ∧ w.smtd_active_states_size - 1 < w.smtd_active_states.length) := by omega
        have h2 : ¬ (idx ≤ j ∧ j < idx + (w.smtd_active_states_size - 1 - idx)) := by omega
        rw [if_neg h5, if_neg h2, if_neg h1, if_neg h3, if_neg h4]

/-! ### `smtd_next_stage` to `SMTD_STAGE_NONE` -/

theorem size_next_none (cfg : Config) (idx : Nat) (w : World) (h : idx < w.smtd_active_states_size) :
    (smtd_next_stage cfg idx SMTD_STAGE_NONE w).smtd_active_states_size
      = w.smtd_active_states_size - 1 := by
  simp only [smtd_next_stage, size_cancel]
  rw [size_remove] <;> simp [h]

@[simp] theorem len_next_none (cfg : Config) (idx : Nat) (w : World) :
    (smtd_next_stage cfg idx SMTD_STAGE_NONE w).smtd_active_states.length
      = w.smtd_active_states.length := by
  simp [smtd_next_stage]

theorem st_next_none (cfg : Config) (idx : Nat) (w : World) (j : Nat)
    (h : idx < w.smtd_active_states_size)
    (hl : w.smtd_active_states_size ≤ w.smtd_active_states.length) :
    (smtd_next_stage cfg idx SMTD_STAGE_NONE w).st j
      = if j < idx then w.st j
        else if j + 1 < w.smtd_active_states_size then w.st (j + 1)
        else if j + 1 = w.smtd_active_states_size then EMPTY_STATE
        else w.st j := by
  simp only [smtd_next_stage, st_cancel]
  rw [st_remove _ _ _ (by simpa using h) (by simpa using hl)]
  simp only [size_modSt, st_modSt, len_modSt]
  by_cases h1 : j < idx
  · have : ¬ (idx = j ∧ idx < w.smtd_active_states.length) := by omega
    simp [h1, this]
  · by_cases h3 : j + 1 < w.smtd_active_states_size
    · have : ¬ (idx = j + 1 ∧ idx < w.smtd_active_states.length) := by omega
      simp [h1, h3, this]
    · by_cases h4 : j + 1 = w.smtd_active_states_size
      · simp [h1, h3, h4]
      · have : ¬ (idx = j ∧ idx < w.smtd_active_states.length) := by omega
        simp [h1, h3, h4, this]


/-! ### The dispatcher loop -/

theorem bind_eq_ok_true {α : Type} (x : Res α) (f : α → World) (w2 : World) :
    (x.bind fun a => Res.ok (false, f a)) ≠ Res.ok (true, w2) := by
  cases x <;> simp [Res.bind]

theorem scan_stop (cfg : Config) (pr : keyrecord_t → World → Res World) (kc : Nat)
    (r : keyrecord_t) (n i : Nat) (w : World) (h : ¬ i < w.smtd_active_states_size) :
    process_smtd_scan cfg pr kc r n i w = .ok (true, w) := by
  cases n <;> simp [process_smtd_scan, h]

theorem scan_step (cfg : Config) (pr : keyrecord_t → World → Res World) (kc : Nat)
    (r : keyrecord_t) (n i : Nat) (w : World) (h : i < w.smtd_active_states_size) :
    process_smtd_scan cfg pr kc r (n + 1) i w =
      (process_smtd_state cfg pr kc r i w).bind fun x =>
        if x.1 then process_smtd_scan cfg pr kc r n (i + 1) x.2 else .ok (false, x.2) := by
  simp [process_smtd_scan, h]

/-- What a record can do to the world when it declines an event: nothing, or
(stage `SEQUENCE`, a press) the tap action if aggregated and its own removal. -/
theorem decline_cases (cfg : Config) (pr : keyrecord_t → World → Res World) (kc : Nat)
    (r : keyrecord_t) (i : Nat) (w w2 : World)
    (h : process_smtd_state cfg pr kc r i w = .ok (true, w2)) :
    w2 = w ∨
      ((w.st i).stage = SMTD_STAGE_SEQUENCE ∧ r.event.pressed = true ∧
        (w.st i).macro_keycode ≠ kc ∧
        w2 = smtd_next_stage cfg i SMTD_STAGE_NONE
          (if smtd_feature_enabled_or_default cfg (w.st i).macro_keycode
              SMTD_FEATURE_AGGREGATE_TAPS then DO_ACTION_TAP cfg i w else w)) := by
  unfold process_smtd_state at h
  repeat' (first | split at h | (simp only [Res.bind] at h; split at h))
  all_goals
    first
    | (exfalso; simp at h; done)
    | (left; simpa using h.symm)
    | (right; refine ⟨by assumption, by assumption, ?_, ?_⟩ <;> simp_all; intro hc; simp_all)


/-- The array keeps its length and the size does not grow when a record declines. -/
theorem decline_wf (cfg : Config) (pr : keyrecord_t → World → Res World) (kc : Nat)
    (r : keyrecord_t) (i : Nat) (w w2 : World)
    (h : process_smtd_state cfg pr kc r i w = .ok (true, w2)) :
    w2.smtd_active_states.length = w.smtd_active_states.length
      ∧ w2.smtd_active_states_size ≤ w.smtd_active_states_size := by
  rcases decline_cases cfg pr kc r i w w2 h with rfl | ⟨-, -, -, rfl⟩
  · exact ⟨rfl, Nat.le_refl _⟩
  · constructor
    · split <;> simp
    · simp only [smtd_next_stage, size_cancel, remove_state]
      split <;> split <;> simp

/-- Splitting the loop: if the first `a` iterations from index `j` all ran and
declined, the loop goes on from index `j + a` in the world they left. -/
theorem scan_split (cfg : Config) (pr : keyrecord_t → World → Res World) (kc : Nat)
    (r : keyrecord_t) (a n j : Nat) (w wi : World)
    (h : process_smtd_scan cfg pr kc r a j w = .ok (true, wi))
    (hi : j + a ≤ wi.smtd_active_states_size) :
    process_smtd_scan cfg pr kc r (a + n) j w = process_smtd_scan cfg pr kc r n (j + a) wi := by
  induction a generalizing j w with
  | zero =>
    simp only [process_smtd_scan, Res.ok.injEq, Prod.mk.injEq, true_and] at h
    subst h
    simp
  | succ a ih =>
    by_cases hj : j < w.smtd_active_states_size
    · rw [scan_step _ _ _ _ _ _ _ hj] at h
      rw [show a + 1 + n = (a + n) + 1 by omega, scan_step _ _ _ _ _ _ _ hj]
      cases hs : process_smtd_state cfg pr kc r j w with
      | ok x =>
        rw [hs] at h
        simp only [Res.bind_ok] at h ⊢
        by_cases hx : x.1 = true
        · simp only [hx, if_true] at h ⊢
          rw [ih (j + 1) x.2 h (by omega)]
          congr 1
          omega
        · simp [hx] at h
      | out_of_fuel => simp [hs, Res.bind] at h
      | out_of_bounds => simp [hs, Res.bind] at h
    · rw [scan_stop _ _ _ _ _ _ _ hj] at h
      simp only [Res.ok.injEq, Prod.mk.injEq, true_and] at h
      subst h
      omega

/-- First consumer wins: if the first `i` iterations declined and slot `i`
handles the event, `process_smtd` returns `false` with the world slot `i` left. -/
theorem process_smtd_consumed (cfg : Config) (pr : keyrecord_t → World → Res World) (kc : Nat)
    (r : keyrecord_t) (i : Nat) (w wi w2 : World) (hi256 : i < 256)
    (h : process_smtd_scan cfg pr kc r i 0 w = .ok (true, wi))
    (hi : i < wi.smtd_active_states_size)
    (hs : process_smtd_state cfg pr kc r i wi = .ok (false, w2)) :
    process_smtd cfg pr kc r w = .ok (false, w2) := by
  unfold process_smtd
  have h1 := scan_split cfg pr kc r i (255 - i + 1) 0 w wi h (by omega)
  rw [show i + (255 - i + 1) = 256 by omega] at h1
  rw [h1, Nat.zero_add, scan_step _ _ _ _ _ _ _ hi, hs]
  simp

/-- Slot 0 handles the event. -/
theorem process_smtd_consumed_zero (cfg : Config) (pr : keyrecord_t → World → Res World)
    (kc : Nat) (r : keyrecord_t) (w w2 : World) (hi : 0 < w.smtd_active_states_size)
    (hs : process_smtd_state cfg pr kc r 0 w = .ok (false, w2)) :
    process_smtd cfg pr kc r w = .ok (false, w2) :=
  process_smtd_consumed cfg pr kc r 0 w w w2 (by omega) rfl hi hs


/-! ### Opening a record -/

@[simp] theorem st_open (kc : Nat) (w : World) (j : Nat) :
    (open_slot kc w).st j
      = if w.smtd_active_states_size = j ∧ w.smtd_active_states_size < w.smtd_active_states.length
        then { w.st w.smtd_active_states_size with macro_keycode := kc } else w.st j := by
  have h : (open_slot kc w).st j
      = (w.modSt w.smtd_active_states_size fun s => { s with macro_keycode := kc }).st j := rfl
  rw [h, st_modSt]

@[simp] theorem size_open (kc : Nat) (w : World) :
    (open_slot kc w).smtd_active_states_size = (w.smtd_active_states_size + 1) % 256 := rfl

@[simp] theorem len_open (kc : Nat) (w : World) :
    (open_slot kc w).smtd_active_states.length = w.smtd_active_states.length := by
  have h : (open_slot kc w).smtd_active_states
      = (w.modSt w.smtd_active_states_size fun s => { s with macro_keycode := kc }).smtd_active_states := rfl
  rw [h, len_modSt]

@[simp] theorem trace_open (kc : Nat) (w : World) : (open_slot kc w).trace = w.trace := rfl

/-- A press of a tracked key that no record handled and that has no record
yet opens one in the first free slot and moves it to `TOUCH`. -/
theorem process_smtd_open (cfg : Config) (pr : keyrecord_t → World → Res World) (kc : Nat)
    (r : keyrecord_t) (w w1 : World)
    (hscan : process_smtd_scan cfg pr kc r 256 0 w = .ok (true, w1))
    (hp : r.event.pressed = true)
    (hb : cfg.SMTD_KEYCODES_BEGIN < kc) (he : kc < cfg.SMTD_KEYCODES_END)
    (hnot : already_handled kc w1 = false)
    (hcap : w1.smtd_active_states_size < SMTD_POOL_CAPACITY)
    (hlen : w1.smtd_active_states_size < w1.smtd_active_states.length)
    (hstage : (w1.st w1.smtd_active_states_size).stage = SMTD_STAGE_NONE)
    (hfreeze : (w1.st w1.smtd_active_states_size).freeze = false) :
    process_smtd cfg pr kc r w
      = .ok (false, smtd_next_stage cfg w1.smtd_active_states_size SMTD_STAGE_TOUCH
          (open_slot kc w1)) := by
  have hb2 : ¬ kc ≤ cfg.SMTD_KEYCODES_BEGIN := by omega
  have he2 : ¬ cfg.SMTD_KEYCODES_END ≤ kc := by omega
  have hcap2 : ¬ SMTD_POOL_CAPACITY ≤ w1.smtd_active_states_size := by omega
  unfold process_smtd
  rw [hscan]
  simp [hp, hb2, he2, hnot, hcap2, process_smtd_state, hlen, hstage, hfreeze]

@[simp] theorem size_init (h : Host) : (World.init h).smtd_active_states_size = 0 := rfl
@[simp] theorem len_init (h : Host) : (World.init h).smtd_active_states.length = 10 := rfl
@[simp] theorem trace_init (h : Host) : (World.init h).trace = [] := rfl
@[simp] theorem st_init (h : Host) (j : Nat) : (World.init h).st j = EMPTY_STATE := by
  simp only [World.init, World.st, List.getD_eq_getElem?_getD, List.getElem?_replicate]
  split <;> rfl

/-- The first press of a tracked key on the empty pool. -/
theorem event_first_press (cfg : Config) (fuel K : Nat) (r : keyrecord_t) (h : Host)
    (hp : r.event.pressed = true)
    (hb : cfg.SMTD_KEYCODES_BEGIN < K) (he : K < cfg.SMTD_KEYCODES_END) :
    smtd_event cfg fuel K r (World.init h)
      = .ok (false, smtd_next_stage cfg 0 SMTD_STAGE_TOUCH (open_slot K (World.init h))) := by
  unfold smtd_event
  have := process_smtd_open cfg (process_record cfg fuel) K r (World.init h) (World.init h)
    (scan_stop _ _ _ _ _ _ _ (by simp)) hp hb he (by simp [already_handled])
    (by simp [SMTD_POOL_CAPACITY]) (by simp) (by simp [EMPTY_STATE]) (by simp [EMPTY_STATE])
  simpa using this


theorem feed_nil (cfg : Config) (fuel : Nat) (w : World) : feed cfg fuel [] w = .ok ([], w) := rfl

theorem feed_cons_ok (cfg : Config) (fuel : Nat) (e : Nat × keyrecord_t)
    (es : List (Nat × keyrecord_t)) (w w1 w2 : World) (b : Bool) (bs : List Bool)
    (h1 : smtd_event cfg fuel e.1 e.2 w = .ok (b, w1))
    (h2 : feed cfg fuel es w1 = .ok (bs, w2)) :
    feed cfg fuel (e :: es) w = .ok (b :: bs, w2) := by
  simp [feed, h1, h2]

/-- The world after the first press of `K` on the empty pool. -/
theorem touched_facts (cfg : Config) (K : Nat) (h : Host) :
    let w1 := smtd_next_stage cfg 0 SMTD_STAGE_TOUCH (open_slot K (World.init h))
    w1.smtd_active_states_size = 1 ∧ w1.smtd_active_states.length = 10
      ∧ (w1.st 0).stage = SMTD_STAGE_TOUCH ∧ (w1.st 0).freeze = false
      ∧ (w1.st 0).macro_keycode = K ∧ (w1.st 0).sequence_len = 0
      ∧ emitted w1.trace = [.action K SMTD_ACTION_TOUCH 0] ∧ w1.st 1 = EMPTY_STATE := by
  simp [stage_next, emitted_next, st_next_ne, EMPTY_STATE]


/-! ### Events that no record handles and that open no record -/

theorem process_smtd_bypass (cfg : Config) (pr : keyrecord_t → World → Res World) (kc : Nat)
    (r : keyrecord_t) (w w1 : World)
    (hscan : process_smtd_scan cfg pr kc r 256 0 w = .ok (true, w1))
    (h : r.event.pressed = false ∨ kc ≤ cfg.SMTD_KEYCODES_BEGIN ∨ cfg.SMTD_KEYCODES_END ≤ kc
      ∨ already_handled kc w1 = true) :
    process_smtd cfg pr kc r w = .ok (true, w1) := by
  unfold process_smtd
  rw [hscan]
  rcases h with h | h | h | h
  · simp [h]
  · simp [h]
  · simp [h]
  · simp [h]

/-- A frozen record declines every event and changes nothing. -/
theorem state_frozen (cfg : Config) (pr : keyrecord_t → World → Res World) (kc : Nat)
    (r : keyrecord_t) (i : Nat) (w : World) (h : (w.st i).freeze = true) :
    process_smtd_state cfg pr kc r i w = .ok (true, w) := by
  simp [process_smtd_state, h]

@[simp] theorem emitted_for_append (K : Nat) (a b : List Ev) :
    emitted_for K (a ++ b) = emitted_for K a ++ emitted_for K b := by
  simp [emitted_for]

theorem emitted_for_eq (K : Nat) (a b : List Ev) (x : List Ev) (h : emitted a = emitted b ++ x) :
    emitted_for K a = emitted_for K b ++ x.filter (fun e => match e with
      | .action k _ _ => k == K
      | _ => true) := by
  simp [emitted_for, h]

/-- The world seen through a change of the firmware state only. -/
theorem st_with_host (w : World) (hst : Host) (j : Nat) :
    World.st { w with host := hst } j = w.st j := rfl


/-! ### Re-entry while the only record is frozen -/

/-- A synthesized press while the only record (slot 0, key `K`) is frozen: the
record is untouched, nothing is emitted for `K`, and at most one record of
another key is opened behind it. -/
theorem nested_press (cfg : Config) (f K : Nat) (r : keyrecord_t) (w : World)
    (hlen : w.smtd_active_states.length = 10) (hsz : w.smtd_active_states_size = 1)
    (hfr : (w.st 0).freeze = true) (hK : (w.st 0).macro_keycode = K)
    (h1s : (w.st 1).stage = SMTD_STAGE_NONE) (h1f : (w.st 1).freeze = false)
    (hp : r.event.pressed = true) :
    ∃ w2, call_process_record (process_record cfg (f + 1)) r w = .ok w2
      ∧ w2.smtd_active_states.length = 10 ∧ w2.st 0 = w.st 0
      ∧ emitted_for K w2.trace = emitted_for K w.trace ++ [.process_record r.event.key true]
      ∧ (w2.smtd_active_states_size = 1
        ∨ (w2.smtd_active_states_size = 2 ∧ (w2.st 1).macro_keycode ≠ K
            ∧ (w2.st 1).freeze = false ∧ (w2.st 1).stage = SMTD_STAGE_TOUCH)) := by
  unfold call_process_record
  generalize hwb : w.emit (.process_record r.event.key r.event.pressed) = wb
  have blen : wb.smtd_active_states.length = 10 := by rw [← hwb]; simpa using hlen
  have bsz : wb.smtd_active_states_size = 1 := by rw [← hwb]; simpa using hsz
  have bst : ∀ j, wb.st j = w.st j := by intro j; rw [← hwb]; simp
  have btr : emitted wb.trace = emitted w.trace ++ [.process_record r.event.key true] := by
    rw [← hwb]; simp [emitted, hp]
  simp only [process_record]
  generalize cfg.keycode_at wb.host r.event = kc
  have hscan : process_smtd_scan cfg (process_record cfg f) kc r 256 0 wb = .ok (true, wb) := by
    rw [show (256 : Nat) = 255 + 1 from rfl, scan_step _ _ _ _ _ _ _ (by omega),
      state_frozen _ _ _ _ _ _ (by rw [bst]; exact hfr)]
    simp only [Res.bind_ok, if_true]
    exact scan_stop _ _ _ _ _ _ _ (by omega)
  have hah : already_handled kc wb = (K == kc) := by
    simp [already_handled, bsz, bst, hK, List.range_succ]
  by_cases hopen : cfg.SMTD_KEYCODES_BEGIN < kc ∧ kc < cfg.SMTD_KEYCODES_END ∧ K ≠ kc
  · obtain ⟨hb, he, hne⟩ := hopen
    rw [process_smtd_open cfg _ kc r wb wb hscan hp hb he (by simp [hah, hne])
      (by simp [bsz, SMTD_POOL_CAPACITY]) (by omega) (by rw [bsz, bst]; exact h1s)
      (by rw [bsz, bst]; exact h1f)]
    refine ⟨_, rfl, ?_, ?_, ?_, Or.inr ⟨?_, ?_, ?_, ?_⟩⟩
    · simp [blen]
    · simp [bsz, st_next_ne, blen, bst]
    · rw [emitted_for_eq K _ _ _ (emitted_next _ _ _ _), trace_open, emitted_for_eq K _ _ _ btr]
      simp [bsz, blen, hne, Ne.symm hne]
    · simp [bsz]
    · simp [bsz, blen, Ne.symm hne]
    · simp [bsz, blen, bst, h1f]
    · simp [bsz, blen, stage_next]
  · rw [process_smtd_bypass cfg _ kc r wb wb hscan (by
      by_cases h1 : kc ≤ cfg.SMTD_KEYCODES_BEGIN
      · exact Or.inr (Or.inl h1)
      · by_cases h2 : cfg.SMTD_KEYCODES_END ≤ kc
        · exact Or.inr (Or.inr (Or.inl h2))
        · have : K = kc := by
            by_contra h3
            exact hopen ⟨by omega, by omega, h3⟩
          exact Or.inr (Or.inr (Or.inr (by simp [hah, this]))))]
    refine ⟨_, rfl, ?_, ?_, ?_, Or.inl ?_⟩
    · simpa using blen
    · simpa [st_with_host] using bst 0
    · simpa using emitted_for_eq K _ _ _ btr
    · simpa using bsz


theorem st_tap_ne (cfg : Config) (i : Nat) (w : World) (j : Nat) (hij : i ≠ j) :
    (DO_ACTION_TAP cfg i w).st j = w.st j := by
  simp only [DO_ACTION_TAP]
  split <;> simp [hij]

/-- A synthesized release while slot 0 (key `K`) is frozen and at most one
record of another key, in stage `TOUCH`, sits behind it: slot 0 is untouched,
nothing is emitted for `K`, the size stays. -/
theorem nested_release (cfg : Config) (f K : Nat) (r : keyrecord_t) (w : World)
    (hlen : w.smtd_active_states.length = 10)
    (hfr : (w.st 0).freeze = true) (_hK : (w.st 0).macro_keycode = K)
    (hsz : w.smtd_active_states_size = 1
      ∨ (w.smtd_active_states_size = 2 ∧ (w.st 1).macro_keycode ≠ K
          ∧ (w.st 1).freeze = false ∧ (w.st 1).stage = SMTD_STAGE_TOUCH))
    (hp : r.event.pressed = false) :
    ∃ w2, call_process_record (process_record cfg (f + 1)) r w = .ok w2
      ∧ w2.smtd_active_states.length = 10 ∧ w2.st 0 = w.st 0
      ∧ emitted_for K w2.trace = emitted_for K w.trace ++ [.process_record r.event.key false]
      ∧ w2.smtd_active_states_size = w.smtd_active_states_size
      ∧ (w.smtd_active_states_size = 2 → (w2.st 1).macro_keycode ≠ K) := by
  unfold call_process_record
  generalize hwb : w.emit (.process_record r.event.key r.event.pressed) = wb
  have blen : wb.smtd_active_states.length = 10 := by rw [← hwb]; simpa using hlen
  have bsz : wb.smtd_active_states_size = w.smtd_active_states_size := by rw [← hwb]; simp
  have bst : ∀ j, wb.st j = w.st j := by intro j; rw [← hwb]; simp
  have btr : emitted wb.trace = emitted w.trace ++ [.process_record r.event.key false] := by
    rw [← hwb]; simp [emitted, hp]
  simp only [process_record]
  generalize cfg.keycode_at wb.host r.event = kc
  have hfr0 : process_smtd_state cfg (process_record cfg f) kc r 0 wb = .ok (true, wb) :=
    state_frozen _ _ _ _ _ _ (by rw [bst]; exact hfr)
  have hbypass : process_smtd_scan cfg (process_record cfg f) kc r 256 0 wb = .ok (true, wb) →
      ∃ w2, ((process_smtd cfg (process_record cfg f) kc r wb).bind fun x =>
          if x.1 = true then
            Res.ok { x.2 with host := cfg.host_default kc r.event x.2.host }
          else Res.ok x.2) = .ok w2
        ∧ w2.smtd_active_states.length = 10 ∧ w2.st 0 = w.st 0
        ∧ emitted_for K w2.trace = emitted_for K w.trace ++ [.process_record r.event.key false]
        ∧ w2.smtd_active_states_size = w.smtd_active_states_size
        ∧ (w.smtd_active_states_size = 2 → (w2.st 1).macro_keycode ≠ K) := by
    intro hscan
    rw [process_smtd_bypass cfg _ kc r wb wb hscan (Or.inl hp)]
    refine ⟨_, rfl, ?_, ?_, ?_, ?_, ?_⟩
    · simpa using blen
    · simpa [st_with_host] using bst 0
    · simpa using emitted_for_eq K _ _ _ btr
    · simpa using bsz
    · intro h2
      rcases hsz with h1 | ⟨-, hm, -, -⟩
      · omega
      · simpa [st_with_host, bst] using hm
  rcases hsz with h1 | ⟨h2, hm, hf1, hs1⟩
  · apply hbypass
    rw [show (256 : Nat) = 255 + 1 from rfl, scan_step _ _ _ _ _ _ _ (by omega), hfr0]
    simp only [Res.bind_ok, if_true]
    exact scan_stop _ _ _ _ _ _ _ (by omega)
  · by_cases hkc : kc = (w.st 1).macro_keycode
    · have hs : process_smtd_state cfg (process_record cfg f) kc r 1 wb
          = .ok (false,
              if !smtd_feature_enabled_or_default cfg
                  ((smtd_next_stage cfg 1 SMTD_STAGE_SEQUENCE wb).st 1).macro_keycode
                  SMTD_FEATURE_AGGREGATE_TAPS then
                DO_ACTION_TAP cfg 1 (smtd_next_stage cfg 1 SMTD_STAGE_SEQUENCE wb)
              else smtd_next_stage cfg 1 SMTD_STAGE_SEQUENCE wb) := by
        simp [process_smtd_state, bst, hf1, hs1, hkc, hp]
      have h10 : process_smtd_scan cfg (process_record cfg f) kc r 1 0 wb = .ok (true, wb) := by
        rw [scan_step _ _ _ _ _ _ _ (by omega), hfr0]
        simp [process_smtd_scan]
      rw [process_smtd_consumed cfg _ kc r 1 wb wb _ (by omega) h10 (by omega) hs]
      refine ⟨_, rfl, ?_, ?_, ?_, ?_, ?_⟩
      · split <;> simp [blen]
      · split <;> simp [st_tap_ne, st_next_ne, bst]
      · split
        · rw [emitted_for_eq K _ _ _ (emitted_tap _ _ _),
            emitted_for_eq K _ _ _ (emitted_next _ _ _ _), emitted_for_eq K _ _ _ btr]
          simp [bst, hm]
        · rw [emitted_for_eq K _ _ _ (emitted_next _ _ _ _), emitted_for_eq K _ _ _ btr]
          simp
      · split <;> simp [bsz]
      · intro _
        split <;> simp [bst, hm]
    · apply hbypass
      have hs : process_smtd_state cfg (process_record cfg f) kc r 1 wb = .ok (true, wb) := by
        simp [process_smtd_state, bst, hf1, hs1, hkc, hp]
      rw [show (256 : Nat) = 254 + 1 + 1 from rfl, scan_step _ _ _ _ _ _ _ (by omega), hfr0]
      simp only [Res.bind_ok, if_true]
      rw [scan_step _ _ _ _ _ _ _ (by omega), hs]
      simp only [Res.bind_ok, if_true]
      exact scan_stop _ _ _ _ _ _ _ (by omega)


/-- Function `smtd_press_following_key` on a pool whose only record is slot 0:
the press (and the release, when asked for) of the following key are
synthesized in this order, nothing else is emitted for the key of slot 0, and
slot 0 is as before with `freeze` cleared. -/
theorem press_following_solo (cfg : Config) (f K : Nat) (release : Bool) (w : World)
    (hlen : w.smtd_active_states.length = 10) (hsz : w.smtd_active_states_size = 1)
    (hK : (w.st 0).macro_keycode = K)
    (h1s : (w.st 1).stage = SMTD_STAGE_NONE) (h1f : (w.st 1).freeze = false) :
    ∃ w2, smtd_press_following_key (process_record cfg (f + 1)) 0 release w = .ok w2
      ∧ w2.smtd_active_states.length = 10
      ∧ w2.st 0 = { w.st 0 with freeze := false }
      ∧ emitted_for K w2.trace = emitted_for K w.trace ++
          (if release then
            [.process_record (w.st 0).following_key true,
             .process_record (w.st 0).following_key false]
           else [.process_record (w.st 0).following_key true])
      ∧ (w2.smtd_active_states_size = 1
        ∨ (w2.smtd_active_states_size = 2 ∧ (w2.st 1).macro_keycode ≠ K)) := by
  simp only [smtd_press_following_key]
  generalize hwa : (w.modSt 0 fun s => { s with freeze := true }) = wa
  have alen : wa.smtd_active_states.length = 10 := by rw [← hwa]; simpa using hlen
  have asz : wa.smtd_active_states_size = 1 := by rw [← hwa]; simpa using hsz
  have a0 : wa.st 0 = { w.st 0 with freeze := true } := by rw [← hwa]; simp [hlen]
  have a1 : wa.st 1 = w.st 1 := by rw [← hwa]; simp
  have atr : wa.trace = w.trace := by rw [← hwa]; simp
  obtain ⟨w2, e2, l2, s2, t2, z2⟩ := nested_press cfg f K
    { event := MAKE_KEYEVENT (wa.st 0).following_key.row (wa.st 0).following_key.col true } wa
    alen asz (by rw [a0]) (by rw [a0]; exact hK) (by rw [a1]; exact h1s) (by rw [a1]; exact h1f) rfl
  simp only [e2, Res.bind_ok]
  have hkey : ∀ b, (MAKE_KEYEVENT (w.st 0).following_key.row (w.st 0).following_key.col b).key
      = (w.st 0).following_key := fun _ => rfl
  cases release
  · refine ⟨_, rfl, by simpa using l2, ?_, ?_, ?_⟩
    · simp [l2, s2, a0]
    · simp only [trace_modSt, t2, atr, a0]
      rfl
    · rcases z2 with z | ⟨z, m, -, -⟩
      · exact Or.inl (by simpa using z)
      · exact Or.inr ⟨by simpa using z, by simpa using m⟩
  · obtain ⟨w3, e3, l3, s3, t3, z3, m3⟩ := nested_release cfg f K
      { event := MAKE_KEYEVENT (w2.st 0).following_key.row (w2.st 0).following_key.col false } w2
      l2 (by rw [s2, a0]) (by rw [s2, a0]; exact hK) z2 rfl
    simp only [if_true, e3, Res.bind_ok]
    refine ⟨_, rfl, by simpa using l3, ?_, ?_, ?_⟩
    · simp [l3, s3, s2, a0]
    · simp only [trace_modSt, t3, t2, atr, s2, a0, List.append_assoc]
      rfl
    · rcases z2 with z | ⟨z, m, -, -⟩
      · exact Or.inl (by simpa [z3] using z)
      · exact Or.inr ⟨by simpa [z3] using z, by simpa using m3 z⟩

/-- The world after press `K`, press `F` on the empty pool: slot 0 waits in
`FOLLOWING_TOUCH` with the position of `F` recorded. -/
theorem chord_facts (cfg : Config) (fuel K F : Nat) (pK p : keypos_t) (h : Host)
    (hb : cfg.SMTD_KEYCODES_BEGIN < K) (he : K < cfg.SMTD_KEYCODES_END) (hF : F ≠ K) :
    ∃ w2, feed cfg fuel [(K, mk_record pK true), (F, mk_record p true)] (World.init h)
        = .ok ([false, false], w2)
      ∧ w2.smtd_active_states_size = 1 ∧ w2.smtd_active_states.length = 10
      ∧ (w2.st 0).stage = SMTD_STAGE_FOLLOWING_TOUCH ∧ (w2.st 0).freeze = false
      ∧ (w2.st 0).macro_keycode = K ∧ (w2.st 0).sequence_len = 0
      ∧ (w2.st 0).following_key = p
      ∧ emitted w2.trace = [.action K SMTD_ACTION_TOUCH 0] ∧ w2.st 1 = EMPTY_STATE := by
  have e1 := event_first_press cfg fuel K (mk_record pK true) h rfl hb he
  obtain ⟨f1, f2, f3, f4, f5, f6, f7, f8⟩ := touched_facts cfg K h
  generalize smtd_next_stage cfg 0 SMTD_STAGE_TOUCH (open_slot K (World.init h)) = w1 at *
  have s2 : process_smtd_state cfg (process_record cfg fuel) F (mk_record p true) 0 w1
      = .ok (false, smtd_next_stage cfg 0 SMTD_STAGE_FOLLOWING_TOUCH
          ((w1.modSt 0 fun s => { s with following_key := p }).modSt 0
            fun s => { s with following_keycode := F })) := by
    simp [process_smtd_state, f3, f4, f5, mk_record, hF]
  have e2 : smtd_event cfg fuel F (mk_record p true) w1 = _ :=
    process_smtd_consumed_zero _ _ _ _ _ _ (by omega) s2
  refine ⟨_, feed_cons_ok _ _ _ _ _ _ _ _ _ e1 (feed_cons_ok _ _ _ _ _ _ _ _ _ e2 (feed_nil _ _ _)), ?_⟩
  simp [stage_next, emitted_next, st_next_ne, f1, f2, f4, f5, f6, f7, f8]

theorem feed_append_ok (cfg : Config) (fuel : Nat) (es1 es2 : List (Nat × keyrecord_t))
    (w w1 w2 : World) (bs1 bs2 : List Bool)
    (h1 : feed cfg fuel es1 w = .ok (bs1, w1)) (h2 : feed cfg fuel es2 w1 = .ok (bs2, w2)) :
    feed cfg fuel (es1 ++ es2) w = .ok (bs1 ++ bs2, w2) := by
  induction es1 generalizing w bs1 with
  | nil =>
    simp only [feed, Res.ok.injEq, Prod.mk.injEq] at h1
    obtain ⟨rfl, rfl⟩ := h1
    simpa using h2
  | cons e es ih =>
    simp only [feed] at h1
    cases hs : smtd_event cfg fuel e.1 e.2 w with
    | ok x =>
      rw [hs] at h1
      simp only [Res.bind_ok] at h1
      cases hf : feed cfg fuel es x.2 with
      | ok y =>
        rw [hf] at h1
        simp only [Res.bind_ok, Res.ok.injEq, Prod.mk.injEq] at h1
        obtain ⟨rfl, rfl⟩ := h1
        have := ih x.2 y.1 hf
        simp [feed, hs, this]
      | out_of_fuel => simp [hf, Res.bind] at h1
      | out_of_bounds => simp [hf, Res.bind] at h1
    | out_of_fuel => simp [hs, Res.bind] at h1
    | out_of_bounds => simp [hs, Res.bind] at h1


/-! ### Steps of a single record -/

theorem solo_first_press (cfg : Config) (fuel K : Nat) (pK : keypos_t) (h : Host)
    (hb : cfg.SMTD_KEYCODES_BEGIN < K) (he : K < cfg.SMTD_KEYCODES_END) :
    ∃ w, smtd_event cfg fuel K (mk_record pK true) (World.init h) = .ok (false, w)
      ∧ Solo K SMTD_STAGE_TOUCH 0 w ∧ emitted w.trace = [.action K SMTD_ACTION_TOUCH 0] := by
  obtain ⟨f1, f2, f3, f4, f5, f6, f7, -⟩ := touched_facts cfg K h
  exact ⟨_, event_first_press cfg fuel K (mk_record pK true) h rfl hb he,
    ⟨f1, f2, f5, f3, f4, f6⟩, f7⟩

/-- Release of the key in `TOUCH`: the record goes to `SEQUENCE`; the tap
action is emitted right away exactly when aggregation is off. -/
theorem solo_release (cfg : Config) (fuel K s : Nat) (pK : keypos_t) (w : World)
    (hw : Solo K SMTD_STAGE_TOUCH s w) :
    ∃ w2, smtd_event cfg fuel K (mk_record pK false) w = .ok (false, w2)
      ∧ Solo K SMTD_STAGE_SEQUENCE s w2
      ∧ emitted w2.trace = emitted w.trace ++
          (if smtd_feature_enabled_or_default cfg K SMTD_FEATURE_AGGREGATE_TAPS then []
           else [.action K SMTD_ACTION_TAP s]) := by
  obtain ⟨h1, h2, h3, h4, h5, h6⟩ := hw
  have s2 : process_smtd_state cfg (process_record cfg fuel) K (mk_record pK false) 0 w
      = .ok (false,
          if !smtd_feature_enabled_or_default cfg K SMTD_FEATURE_AGGREGATE_TAPS then
            DO_ACTION_TAP cfg 0 (smtd_next_stage cfg 0 SMTD_STAGE_SEQUENCE w)
          else smtd_next_stage cfg 0 SMTD_STAGE_SEQUENCE w) := by
    simp [process_smtd_state, h3, h4, h5, mk_record]
  refine ⟨_, process_smtd_consumed_zero _ _ _ _ _ _ (by omega) s2, ?_, ?_⟩
  · cases hagg : smtd_feature_enabled_or_default cfg K SMTD_FEATURE_AGGREGATE_TAPS <;>
      simp [Solo, stage_next, h1, h2, h3, h5, h6]
  · cases hagg : smtd_feature_enabled_or_default cfg K SMTD_FEATURE_AGGREGATE_TAPS <;>
      simp [emitted_next, h3, h6]

/-- Press of the key in `SEQUENCE`: the tap counter is incremented (modulo
256) and the record re-enters `TOUCH`, which calls the touch action again. -/
theorem solo_press_again (cfg : Config) (fuel K s : Nat) (pK : keypos_t) (w : World)
    (hw : Solo K SMTD_STAGE_SEQUENCE s w) :
    ∃ w2, smtd_event cfg fuel K (mk_record pK true) w = .ok (false, w2)
      ∧ Solo K SMTD_STAGE_TOUCH ((s + 1) % 256) w2
      ∧ emitted w2.trace = emitted w.trace ++ [.action K SMTD_ACTION_TOUCH ((s + 1) % 256)] := by
  obtain ⟨h1, h2, h3, h4, h5, h6⟩ := hw
  have s2 : process_smtd_state cfg (process_record cfg fuel) K (mk_record pK true) 0 w
      = .ok (false, smtd_next_stage cfg 0 SMTD_STAGE_TOUCH
          (w.modSt 0 fun s => { s with sequence_len := (s.sequence_len + 1) % 256 })) := by
    simp [process_smtd_state, h3, h4, h5, mk_record]
  refine ⟨_, process_smtd_consumed_zero _ _ _ _ _ _ (by omega) s2, ?_, ?_⟩
  · simp [Solo, stage_next, h1, h2, h3, h5, h6]
  · simp [emitted_next, h2, h3, h6]

theorem taps_run (cfg : Config) (h : Host) (fuel K : Nat) (pK : keypos_t)
    (hb : cfg.SMTD_KEYCODES_BEGIN < K) (he : K < cfg.SMTD_KEYCODES_END)
    (hagg : smtd_feature_enabled_or_default cfg K SMTD_FEATURE_AGGREGATE_TAPS = false) (n : Nat) :
    ∃ w, feed cfg fuel (tap_pairs K pK (n + 1)) (World.init h)
        = .ok (List.replicate (2 * (n + 1)) false, w)
      ∧ Solo K SMTD_STAGE_SEQUENCE (n % 256) w
      ∧ emitted w.trace = (List.range (n + 1)).flatMap fun i =>
          [.action K SMTD_ACTION_TOUCH (i % 256), .action K SMTD_ACTION_TAP (i % 256)] := by
  induction n with
  | zero =>
    obtain ⟨w1, e1, q1, t1⟩ := solo_first_press cfg fuel K pK h hb he
    obtain ⟨w2, e2, q2, t2⟩ := solo_release cfg fuel K 0 pK w1 q1
    refine ⟨w2, feed_cons_ok _ _ _ _ _ _ _ _ _ e1 (feed_cons_ok _ _ _ _ _ _ _ _ _ e2
      (feed_nil _ _ _)), q2, ?_⟩
    rw [t2, t1]
    simp [hagg, List.range_succ]
  | succ n ih =>
    obtain ⟨w, e, q, t⟩ := ih
    obtain ⟨w1, e1, q1, t1⟩ := solo_press_again cfg fuel K _ pK w q
    obtain ⟨w2, e2, q2, t2⟩ := solo_release cfg fuel K _ pK w1 q1
    have hmod : (n % 256 + 1) % 256 = (n + 1) % 256 := by omega
    rw [hmod] at q2 t1 t2
    refine ⟨w2, ?_, q2, ?_⟩
    · have := feed_append_ok cfg fuel (tap_pairs K pK (n + 1))
        [(K, mk_record pK true), (K, mk_record pK false)] _ _ _ _ _ e
        (feed_cons_ok _ _ _ _ _ _ _ _ _ e1 (feed_cons_ok _ _ _ _ _ _ _ _ _ e2 (feed_nil _ _ _)))
      rw [show tap_pairs K pK (n + 1 + 1)
          = tap_pairs K pK (n + 1) ++ [(K, mk_record pK true), (K, mk_record pK false)] from rfl,
        this]
      congr 2
      rw [show 2 * (n + 1 + 1) = 2 * (n + 1) + 2 by omega, List.replicate_add]
      rfl
    · rw [t2, t1, t, List.range_succ (n := n + 1), List.flatMap_append]
      simp [hagg]


/-! ### The live records as a list -/

theorem live_getElem? (w : World)
    (hwf : w.smtd_active_states_size ≤ w.smtd_active_states.length) (j : Nat) :
    (w.live)[j]? = if j < w.smtd_active_states_size then some (w.st j) else none := by
  simp only [World.live, List.getElem?_take, World.st, List.getD_eq_getElem?_getD]
  split
  · rename_i hj
    have hj2 : j < w.smtd_active_states.length := by omega
    simp [List.getElem?_eq_getElem hj2]
  · rfl

theorem live_length (w : World)
    (hwf : w.smtd_active_states_size ≤ w.smtd_active_states.length) :
    w.live.length = w.smtd_active_states_size := by
  simp [World.live, hwf]

/-- Removing the record in slot `i` erases the `i`-th live record and keeps
the others, in order; `w0` is the world before the record prepared its own
removal (it may differ from `w` in slot `i` only). -/
theorem live_next_none (cfg : Config) (i : Nat) (w w0 : World)
    (hi : i < w.smtd_active_states_size)
    (hwf : w.smtd_active_states_size ≤ w.smtd_active_states.length)
    (hlen : w.smtd_active_states.length = w0.smtd_active_states.length)
    (hsz : w.smtd_active_states_size = w0.smtd_active_states_size)
    (hst : ∀ j, j ≠ i → w.st j = w0.st j) :
    (smtd_next_stage cfg i SMTD_STAGE_NONE w).live = w0.live.eraseIdx i := by
  apply List.ext_getElem?
  intro k
  have hwf2 : (smtd_next_stage cfg i SMTD_STAGE_NONE w).smtd_active_states_size
      ≤ (smtd_next_stage cfg i SMTD_STAGE_NONE w).smtd_active_states.length := by
    rw [size_next_none _ _ _ hi, len_next_none]; omega
  rw [live_getElem? _ hwf2, size_next_none _ _ _ hi, st_next_none _ _ _ _ hi hwf,
    List.getElem?_eraseIdx, live_getElem? w0 (by omega), live_getElem? w0 (by omega)]
  by_cases h1 : k < i
  · have h2 : k < w.smtd_active_states_size - 1 := by omega
    have h3 : k < w0.smtd_active_states_size := by omega
    rw [if_pos h2, if_pos h1, if_pos h1, if_pos h3, hst k (by omega)]
  · by_cases h2 : k < w.smtd_active_states_size - 1
    · have h3 : k + 1 < w.smtd_active_states_size := by omega
      have h4 : k + 1 < w0.smtd_active_states_size := by omega
      rw [if_pos h2, if_neg h1, if_pos h3, if_neg h1, if_pos h4, hst (k + 1) (by omega)]
    · have h4 : ¬ k + 1 < w0.smtd_active_states_size := by omega
      rw [if_neg h2, if_neg h1, if_neg h4]

theorem filter_eraseIdx_of_not {α : Type} (p : α → Bool) (l : List α) (i : Nat)
    (h : ∀ a, l[i]? = some a → p a = false) :
    (l.eraseIdx i).filter p = l.filter p := by
  induction l generalizing i with
  | nil => rfl
  | cons x xs ih =>
    cases i with
    | zero =>
      have hx : p x = false := h x (by simp)
      simp [List.eraseIdx, List.filter_cons, hx]
    | succ i =>
      have := ih i (fun a ha => h a (by simpa using ha))
      simp [List.eraseIdx, List.filter_cons, this]

/-- What a declining record does to the list of live records: nothing, or it
erases itself, and then it is a record of another key than the event's. -/
theorem decline_live (cfg : Config) (pr : keyrecord_t → World → Res World) (kc : Nat)
    (r : keyrecord_t) (i : Nat) (w w2 : World)
    (hi : i < w.smtd_active_states_size)
    (hwf : w.smtd_active_states_size ≤ w.smtd_active_states.length)
    (h : process_smtd_state cfg pr kc r i w = .ok (true, w2)) :
    w2 = w ∨ (r.event.pressed = true ∧ (w.st i).macro_keycode ≠ kc
      ∧ w2.live = w.live.eraseIdx i) := by
  rcases decline_cases cfg pr kc r i w w2 h with rfl | ⟨-, hp, hm, rfl⟩
  · exact Or.inl rfl
  · refine Or.inr ⟨hp, hm, ?_⟩
    split
    · exact live_next_none cfg i _ w (by simpa using hi) (by simpa using hwf) (by simp)
        (by simp) (fun j hj => st_tap_ne cfg i w j (Ne.symm hj))
    · exact live_next_none cfg i w w hi hwf rfl rfl (fun _ _ => rfl)

/-- When no record handles the event, the loop leaves a pool whose live
records are among the former ones, in order and unchanged, and the records
of the event's own key are all still there. -/
theorem scan_declined_live (cfg : Config) (pr : keyrecord_t → World → Res World) (kc : Nat)
    (r : keyrecord_t) (n i : Nat) (w w1 : World)
    (hwf : w.smtd_active_states_size ≤ w.smtd_active_states.length)
    (h : process_smtd_scan cfg pr kc r n i w = .ok (true, w1)) :
    w1.smtd_active_states.length = w.smtd_active_states.length
      ∧ w1.smtd_active_states_size ≤ w.smtd_active_states_size
      ∧ w1.live.Sublist w.live
      ∧ w1.live.filter (fun s => s.macro_keycode == kc)
          = w.live.filter (fun s => s.macro_keycode == kc) := by
  induction n generalizing i w with
  | zero =>
    simp only [process_smtd_scan, Res.ok.injEq, Prod.mk.injEq, true_and] at h
    subst h
    exact ⟨rfl, Nat.le_refl _, List.Sublist.refl _, rfl⟩
  | succ n ih =>
    by_cases hi : i < w.smtd_active_states_size
    · rw [scan_step _ _ _ _ _ _ _ hi] at h
      cases hs : process_smtd_state cfg pr kc r i w with
      | ok x =>
        rw [hs] at h
        simp only [Res.bind_ok] at h
        by_cases hx : x.1 = true
        · simp only [hx, if_true] at h
          have hs2 : process_smtd_state cfg pr kc r i w = .ok (true, x.2) := by
            rw [hs, ← hx]
          obtain ⟨hl2, hz2⟩ := decline_wf cfg pr kc r i w x.2 hs2
          obtain ⟨a, b, c, d⟩ := ih (i + 1) x.2 (by omega) h
          refine ⟨by omega, by omega, ?_, ?_⟩
          · rcases decline_live cfg pr kc r i w x.2 hi hwf hs2 with e | ⟨-, -, e⟩
            · rw [e] at c; exact c
            · exact c.trans (e ▸ List.eraseIdx_sublist _ _)
          · rcases decline_live cfg pr kc r i w x.2 hi hwf hs2 with e | ⟨-, hm, e⟩
            · rw [e] at d; exact d
            · rw [d, e]
              apply filter_eraseIdx_of_not
              intro s hsome
              rw [live_getElem? w hwf, if_pos hi] at hsome
              simp only [Option.some.injEq] at hsome
              subst hsome
              simpa using hm
        · simp [hx] at h
      | out_of_fuel => simp [hs, Res.bind] at h
      | out_of_bounds => simp [hs, Res.bind] at h
    · rw [scan_stop _ _ _ _ _ _ _ hi] at h
      simp only [Res.ok.injEq, Prod.mk.injEq, true_and] at h
      subst h
      exact ⟨rfl, Nat.le_refl _, List.Sublist.refl _, rfl⟩

theorem wf_le (w : World) (h : w.wf) : w.smtd_active_states_size ≤ w.smtd_active_states.length := by
  obtain ⟨h1, h2⟩ := h
  omega

theorem mem_live_already_handled (K : Nat) (w : World)
    (hwf : w.smtd_active_states_size ≤ w.smtd_active_states.length)
    (h : ∃ s ∈ w.live, s.macro_keycode = K) : already_handled K w = true := by
  obtain ⟨s, hs, hK⟩ := h
  obtain ⟨j, hj⟩ := List.mem_iff_getElem?.mp hs
  rw [live_getElem? w hwf] at hj
  by_cases hlt : j < w.smtd_active_states_size
  · rw [if_pos hlt] at hj
    simp only [Option.some.injEq] at hj
    simp only [already_handled, List.any_eq_true, List.mem_range]
    exact ⟨j, hlt, by simp [hj, hK]⟩
  · rw [if_neg hlt] at hj
    exact absurd hj (by simp)


/-! ### Frames: what a record's handler leaves alone -/

theorem frame_refl (i : Nat) (w : World) : Frame i w w := ⟨rfl, rfl, fun _ _ => rfl⟩

theorem frame_modSt (i : Nat) (w x : World) (f : smtd_state → smtd_state) (h : Frame i w x) :
    Frame i w (x.modSt i f) := by
  obtain ⟨h1, h2, h3⟩ := h
  refine ⟨by simpa using h1, by simpa using h2, fun j hj => ?_⟩
  rw [st_modSt, if_neg (by intro hc; exact hj hc.1.symm), h3 j hj]

theorem frame_action (cfg : Config) (a : smtd_action) (i : Nat) (w x : World) (h : Frame i w x) :
    Frame i w (SMTD_ACTION cfg a i x) := by
  obtain ⟨h1, h2, h3⟩ := h
  exact ⟨by simpa using h1, by simpa using h2, fun j hj => by simpa using h3 j hj⟩

theorem frame_tap (cfg : Config) (i : Nat) (w x : World) (h : Frame i w x) :
    Frame i w (DO_ACTION_TAP cfg i x) := by
  obtain ⟨h1, h2, h3⟩ := h
  exact ⟨by simpa using h1, by simpa using h2,
    fun j hj => by rw [st_tap_ne cfg i x j (Ne.symm hj)]; exact h3 j hj⟩

theorem frame_next (cfg : Config) (s : smtd_stage) (i : Nat) (w x : World)
    (hs : s ≠ SMTD_STAGE_NONE) (h : Frame i w x) :
    Frame i w (smtd_next_stage cfg i s x) := by
  obtain ⟨h1, h2, h3⟩ := h
  exact ⟨by simpa [hs] using h1, by simpa [hs] using h2,
    fun j hj => by rw [st_next_ne cfg i s x j hs (Ne.symm hj)]; exact h3 j hj⟩

theorem frame_emit (e : Ev) (i : Nat) (w x : World) (h : Frame i w x) :
    Frame i w (x.emit e) := by
  obtain ⟨h1, h2, h3⟩ := h
  exact ⟨by simpa using h1, by simpa using h2, fun j hj => by simpa using h3 j hj⟩

theorem frame_call (pr : keyrecord_t → World → Res World) (hpr : PoolKept pr)
    (r : keyrecord_t) (i : Nat) (w x y : World)
    (hy : call_process_record pr r x = .ok y) (h : Frame i w x) : Frame i w y := by
  obtain ⟨h1, h2, h3⟩ := h
  obtain ⟨e1, e2⟩ := hpr _ _ _ hy
  refine ⟨?_, ?_, fun j hj => ?_⟩
  · rw [e1]; simpa using h1
  · rw [e2]; simpa using h2
  · have : y.st j = (x.emit (.process_record r.event.key r.event.pressed)).st j := by
      simp only [World.st, e1]
    rw [this]; simpa using h3 j hj

theorem bind_eq_ok {α β : Type} (x : Res α) (f : α → Res β) (b : β) (h : x.bind f = .ok b) :
    ∃ a, x = .ok a ∧ f a = .ok b := by
  cases x with
  | ok a => exact ⟨a, rfl, h⟩
  | out_of_fuel => simp [Res.bind] at h
  | out_of_bounds => simp [Res.bind] at h

theorem frame_press_following (pr : keyrecord_t → World → Res World) (hpr : PoolKept pr)
    (i : Nat) (release : Bool) (w x y : World)
    (hy : smtd_press_following_key pr i release x = .ok y) (h : Frame i w x) : Frame i w y := by
  simp only [smtd_press_following_key] at hy
  obtain ⟨a, ha, hy⟩ := bind_eq_ok _ _ _ hy
  have fa := frame_call pr hpr _ i w _ a ha (frame_modSt i w x _ h)
  cases release
  · simp only [Bool.false_eq_true, if_false, Res.ok.injEq] at hy
    subst hy
    exact frame_modSt i w a _ fa
  · simp only [if_true] at hy
    obtain ⟨b, hb, hy⟩ := bind_eq_ok _ _ _ hy
    simp only [Res.ok.injEq] at hy
    subst hy
    exact frame_modSt i w b _ (frame_call pr hpr _ i w _ b hb fa)

/-- In a frame of slot `i` the records after slot `i` are the same list. -/
theorem suffix_of_frame (i : Nat) (w w2 : World)
    (hwf : w.smtd_active_states_size ≤ w.smtd_active_states.length) (h : Frame i w w2) :
    w.live.drop (i + 1) <:+ w2.live
      ∧ w2.smtd_active_states_size ≤ w.smtd_active_states_size := by
  obtain ⟨h1, h2, h3⟩ := h
  have : w.live.drop (i + 1) = w2.live.drop (i + 1) := by
    apply List.ext_getElem?
    intro k
    rw [List.getElem?_drop, List.getElem?_drop, live_getElem? w hwf, live_getElem? w2 (by omega),
      h2, h3 (i + 1 + k) (by omega)]
  rw [this]
  exact ⟨List.drop_suffix _ _, by omega⟩

/-- When slot `i` is removed after a frame of slot `i`, the records that
were after slot `i` are the tail of the new pool. -/
theorem suffix_of_removed (cfg : Config) (i : Nat) (w x : World)
    (hi : i < w.smtd_active_states_size)
    (hwf : w.smtd_active_states_size ≤ w.smtd_active_states.length) (h : Frame i w x) :
    w.live.drop (i + 1) <:+ (smtd_next_stage cfg i SMTD_STAGE_NONE x).live
      ∧ (smtd_next_stage cfg i SMTD_STAGE_NONE x).smtd_active_states_size
        ≤ w.smtd_active_states_size := by
  obtain ⟨h1, h2, h3⟩ := h
  rw [live_next_none cfg i x w (by omega) (by omega) h1 h2 h3, List.eraseIdx_eq_take_drop_succ,
    size_next_none cfg i x (by omega)]
  exact ⟨List.suffix_append _ _, by omega⟩

theorem live_of_call (pr : keyrecord_t → World → Res World) (hpr : PoolKept pr)
    (r : keyrecord_t) (x y : World) (hy : call_process_record pr r x = .ok y) :
    y.live = x.live := by
  obtain ⟨e1, e2⟩ := hpr _ _ _ hy
  simp only [World.live, e1, e2]
  rfl

theorem suffix_of_removed_call (cfg : Config) (pr : keyrecord_t → World → Res World)
    (hpr : PoolKept pr) (r : keyrecord_t) (i : Nat) (w x y : World)
    (hi : i < w.smtd_active_states_size)
    (hwf : w.smtd_active_states_size ≤ w.smtd_active_states.length)
    (hy : call_process_record pr r (smtd_next_stage cfg i SMTD_STAGE_NONE x) = .ok y)
    (h : Frame i w x) :
    w.live.drop (i + 1) <:+ y.live ∧ y.smtd_active_states_size ≤ w.smtd_active_states_size := by
  rw [live_of_call pr hpr _ _ _ hy, (hpr _ _ _ hy).2]
  exact suffix_of_removed cfg i w x hi hwf h

set_option linter.unusedTactic false in
set_option linter.unreachableTactic false in
/-- The records behind the record that handles the event keep their order
and fields, provided the host pipeline does not re-enter the module. -/
theorem consumed_frame (cfg : Config) (pr : keyrecord_t → World → Res World) (hpr : PoolKept pr)
    (kc : Nat) (r : keyrecord_t) (i : Nat) (w w2 : World)
    (hi : i < w.smtd_active_states_size)
    (hwf : w.smtd_active_states_size ≤ w.smtd_active_states.length)
    (h : process_smtd_state cfg pr kc r i w = .ok (false, w2)) :
    w.live.drop (i + 1) <:+ w2.live
      ∧ w2.smtd_active_states_size ≤ w.smtd_active_states_size := by
  unfold process_smtd_state at h
  repeat' (first | split at h | (simp only [Res.bind] at h; split at h))
  all_goals
    first
    | (exfalso; simp at h; done)
    | skip
  all_goals
    simp only [Res.ok.injEq, Prod.mk.injEq, true_and] at h
    subst h
    first
    | (with_reducible apply suffix_of_frame _ _ _ hwf
       repeat (first
         | with_reducible exact frame_refl _ _
         | with_reducible apply frame_modSt
         | with_reducible apply frame_action
         | with_reducible apply frame_tap
         | (with_reducible apply frame_next
            · simp)
         | with_reducible apply frame_press_following pr hpr _ _ _ _ _ (by assumption)
         | with_reducible apply frame_call pr hpr _ _ _ _ _ (by assumption))
       done)
    | (with_reducible apply suffix_of_removed cfg _ _ _ hi hwf
       repeat (first
         | with_reducible exact frame_refl _ _
         | with_reducible apply frame_modSt
         | with_reducible apply frame_action
         | with_reducible apply frame_tap
         | (with_reducible apply frame_next
            · simp)
         | with_reducible apply frame_press_following pr hpr _ _ _ _ _ (by assumption)
         | with_reducible apply frame_call pr hpr _ _ _ _ _ (by assumption))
       done)
    | (with_reducible apply suffix_of_removed_call cfg pr hpr _ _ _ _ _ hi hwf (by assumption)
       repeat (first
         | with_reducible exact frame_refl _ _
         | with_reducible apply frame_modSt
         | with_reducible apply frame_action
         | with_reducible apply frame_tap
         | (with_reducible apply frame_next
            · simp)
         | with_reducible apply frame_press_following pr hpr _ _ _ _ _ (by assumption)
         | with_reducible apply frame_call pr hpr _ _ _ _ _ (by assumption))
       done)


/-- The timer armed by the first press of `K`: the tap timer of slot 0, whose
token is the one stored in the record. -/
theorem touched_timer (cfg : Config) (K : Nat) (h : Host) :
    (smtd_next_stage cfg 0 SMTD_STAGE_TOUCH (open_slot K (World.init h))).timers
        = [{ token := 1, delay := get_smtd_timeout_or_default cfg K SMTD_TIMEOUT_TAP,
             callback := SMTD_TIMEOUT_TAP, cb_arg := 0 }]
      ∧ ((smtd_next_stage cfg 0 SMTD_STAGE_TOUCH (open_slot K (World.init h))).st 0).timeout
        = 1 := by
  constructor <;>
  simp [smtd_next_stage, open_slot, World.init, arm_timeout, defer_exec, cancel_deferred_exec,
    SMTD_ACTION, World.emit, World.modSt, World.setSt, World.st, INVALID_DEFERRED_TOKEN,
    EMPTY_STATE, SMTD_POOL_CAPACITY, List.replicate]

theorem poolKept_none : PoolKept pr_none := by
  intro r w w2 h
  simp only [pr_none, Res.ok.injEq] at h
  subst h
  exact ⟨rfl, rfl⟩

/-! ### Re-entry with a key that is not tracked -/

/-- A synthesized event whose keycode is not tracked, while the only record
(slot 0) is frozen: the pool is untouched and the record itself is the only
call that leaves the module. -/
theorem nested_plain (cfg : Config) (f : Nat) (r : keyrecord_t) (w : World)
    (hsz : w.smtd_active_states_size = 1) (hfr : (w.st 0).freeze = true)
    (hun : ∀ hst, cfg.keycode_at hst r.event ≤ cfg.SMTD_KEYCODES_BEGIN
      ∨ cfg.SMTD_KEYCODES_END ≤ cfg.keycode_at hst r.event) :
    ∃ w2, call_process_record (process_record cfg (f + 1)) r w = .ok w2
      ∧ w2.smtd_active_states.length = w.smtd_active_states.length
      ∧ w2.smtd_active_states_size = 1 ∧ (∀ j, w2.st j = w.st j)
      ∧ emitted w2.trace
          = emitted w.trace ++ [.process_record r.event.key r.event.pressed] := by
  unfold call_process_record
  generalize hwb : w.emit (.process_record r.event.key r.event.pressed) = wb
  have blen : wb.smtd_active_states.length = w.smtd_active_states.length := by rw [← hwb]; simp
  have bsz : wb.smtd_active_states_size = 1 := by rw [← hwb]; simpa using hsz
  have bst : ∀ j, wb.st j = w.st j := by intro j; rw [← hwb]; simp
  have btr : emitted wb.trace
      = emitted w.trace ++ [.process_record r.event.key r.event.pressed] := by
    rw [← hwb]; simp [emitted]
  simp only [process_record]
  have hkc := hun wb.host
  generalize cfg.keycode_at wb.host r.event = kc at hkc
  have hscan : process_smtd_scan cfg (process_record cfg f) kc r 256 0 wb = .ok (true, wb) := by
    rw [show (256 : Nat) = 255 + 1 from rfl, scan_step _ _ _ _ _ _ _ (by omega),
      state_frozen _ _ _ _ _ _ (by rw [bst]; exact hfr)]
    simp only [Res.bind_ok, if_true]
    exact scan_stop _ _ _ _ _ _ _ (by omega)
  rw [process_smtd_bypass cfg _ kc r wb wb hscan (by
    rcases hkc with h | h
    · exact Or.inr (Or.inl h)
    · exact Or.inr (Or.inr (Or.inl h)))]
  refine ⟨_, rfl, ?_, ?_, ?_, ?_⟩
  · simpa using blen
  · simpa using bsz
  · intro j; simpa [st_with_host] using bst j
  · simpa using btr

/-- Function `smtd_press_following_key` on a pool whose only record is slot 0,
when the keymap sends the following key to keycodes that are not tracked: the
synthesized records are the only calls that leave the module. -/
theorem press_following_plain (cfg : Config) (f : Nat) (release : Bool) (w : World)
    (hlen : w.smtd_active_states.length = 10) (hsz : w.smtd_active_states_size = 1)
    (hun : ∀ hst b, cfg.keycode_at hst { key := (w.st 0).following_key, pressed := b }
        ≤ cfg.SMTD_KEYCODES_BEGIN
      ∨ cfg.SMTD_KEYCODES_END
        ≤ cfg.keycode_at hst { key := (w.st 0).following_key, pressed := b }) :
    ∃ w2, smtd_press_following_key (process_record cfg (f + 1)) 0 release w = .ok w2
      ∧ w2.smtd_active_states_size = 1
      ∧ emitted w2.trace = emitted w.trace ++
          (if release then
            [.process_record (w.st 0).following_key true,
             .process_record (w.st 0).following_key false]
           else [.process_record (w.st 0).following_key true]) := by
  simp only [smtd_press_following_key]
  generalize hwa : (w.modSt 0 fun s => { s with freeze := true }) = wa
  have alen : wa.smtd_active_states.length = 10 := by rw [← hwa]; simpa using hlen
  have asz : wa.smtd_active_states_size = 1 := by rw [← hwa]; simpa using hsz
  have a0 : wa.st 0 = { w.st 0 with freeze := true } := by rw [← hwa]; simp [hlen]
  have atr : wa.trace = w.trace := by rw [← hwa]; simp
  obtain ⟨w2, e2, l2, z2, s2, t2⟩ := nested_plain cfg f
    { event := MAKE_KEYEVENT (wa.st 0).following_key.row (wa.st 0).following_key.col true } wa
    asz (by rw [a0]) (by intro hst; rw [a0]; exact hun hst true)
  simp only [e2, Res.bind_ok]
  cases release
  · refine ⟨_, rfl, by simpa using z2, ?_⟩
    simp only [trace_modSt, t2, atr, a0]
    rfl
  · obtain ⟨w3, e3, l3, z3, s3, t3⟩ := nested_plain cfg f
      { event := MAKE_KEYEVENT (w2.st 0).following_key.row (w2.st 0).following_key.col false } w2
      z2 (by rw [s2, a0]) (by intro hst; rw [s2, a0]; exact hun hst false)
    simp only [if_true, e3, Res.bind_ok]
    refine ⟨_, rfl, by simpa using z3, ?_⟩
    simp only [trace_modSt, t3, t2, atr, s2, a0, List.append_assoc]
    rfl

theorem trace_len_tap (cfg : Config) (i : Nat) (w : World) :
    w.trace.length < (DO_ACTION_TAP cfg i w).trace.length := by
  simp only [DO_ACTION_TAP]
  split <;>
    simp [set_mods, del_mods, send_keyboard_report, SMTD_ACTION, World.emit]

theorem trace_len_next (cfg : Config) (i : Nat) (s : smtd_stage) (w : World) :
    w.trace.length < (smtd_next_stage cfg i s w).trace.length := by
  cases s <;>
    simp [smtd_next_stage, cancel_deferred_exec, arm_timeout, defer_exec, SMTD_ACTION,
      World.emit]

theorem bind_ne_ok {α β : Type} (x : Res α) (g : α → Res β) (y : β)
    (h : ∀ a, g a ≠ .ok y) : x.bind g ≠ .ok y := by
  cases x <;> simp [Res.bind, h]

theorem timers_modSt (w : World) (i : Nat) (f : smtd_state → smtd_state) :
    (w.modSt i f).timers = w.timers := rfl

theorem next_token_modSt (w : World) (i : Nat) (f : smtd_state → smtd_state) :
    (w.modSt i f).next_token = w.next_token := rfl

theorem timers_cancel (tok : deferred_token) (w : World) :
    (cancel_deferred_exec tok w).timers
      = w.timers.filter fun t => t.token != tok || tok == INVALID_DEFERRED_TOKEN := rfl

theorem timers_action (cfg : Config) (a : smtd_action) (i : Nat) (w : World) :
    (SMTD_ACTION cfg a i w).timers = w.timers := rfl

theorem next_token_action (cfg : Config) (a : smtd_action) (i : Nat) (w : World) :
    (SMTD_ACTION cfg a i w).next_token = w.next_token := rfl

theorem timers_remove (i : Nat) (w : World) : (remove_state i w).timers = w.timers := by
  unfold remove_state
  split <;> rfl

theorem timers_arm (cfg : Config) (k : smtd_timeout) (i : Nat) (w : World) :
    (arm_timeout cfg k i w).timers = w.timers ++ [armed_entry cfg k i w] := rfl

theorem armed_entry_congr (cfg : Config) (k : smtd_timeout) (i : Nat) (w1 w2 : World)
    (h1 : w1.next_token = w2.next_token)
    (h2 : (w1.st i).macro_keycode = (w2.st i).macro_keycode) :
    armed_entry cfg k i w1 = armed_entry cfg k i w2 := by
  simp [armed_entry, h1, h2]

theorem macro_modSt (w : World) (i j : Nat) (f : smtd_state → smtd_state)
    (hf : ∀ s, (f s).macro_keycode = s.macro_keycode) :
    ((w.modSt i f).st j).macro_keycode = (w.st j).macro_keycode := by
  rw [st_modSt]
  split
  · rename_i h
    rw [hf, h.1]
  · rfl

theorem armed_entry_modSt (cfg : Config) (k : smtd_timeout) (i j : Nat) (w : World)
    (f : smtd_state → smtd_state) (hf : ∀ s, (f s).macro_keycode = s.macro_keycode) :
    armed_entry cfg k i (w.modSt j f) = armed_entry cfg k i w :=
  armed_entry_congr _ _ _ _ _ rfl (macro_modSt w j i f hf)

theorem armed_entry_action (cfg : Config) (k : smtd_timeout) (i j : Nat) (a : smtd_action)
    (w : World) : armed_entry cfg k i (SMTD_ACTION cfg a j w) = armed_entry cfg k i w := rfl

theorem timers_next (cfg : Config) (idx : Nat) (d : smtd_stage) (w : World) :
    (smtd_next_stage cfg idx d w).timers
      = (match d with
          | SMTD_STAGE_NONE => w.timers
          | SMTD_STAGE_HOLD => w.timers
          | SMTD_STAGE_TOUCH => w.timers ++ [armed_entry cfg SMTD_TIMEOUT_TAP idx w]
          | SMTD_STAGE_SEQUENCE => w.timers ++ [armed_entry cfg SMTD_TIMEOUT_SEQUENCE idx w]
          | SMTD_STAGE_FOLLOWING_TOUCH =>
            w.timers ++ [armed_entry cfg SMTD_TIMEOUT_FOLLOWING_TAP idx w]
          | SMTD_STAGE_RELEASE => w.timers ++ [armed_entry cfg SMTD_TIMEOUT_RELEASE idx w]).filter
          fun t => t.token != (w.st idx).timeout
            || (w.st idx).timeout == INVALID_DEFERRED_TOKEN := by
  cases d
  all_goals simp only [smtd_next_stage]
  all_goals rw [timers_cancel]
  all_goals congr 1
  all_goals first
    | (rw [timers_remove]; rfl)
    | rfl
    | (rw [timers_arm]
       simp only [timers_modSt, timers_action, armed_entry_modSt, armed_entry_action,
         implies_true])

theorem timeout_field_next (cfg : Config) (idx : Nat) (d : smtd_stage) (w : World)
    (hd : d ≠ SMTD_STAGE_NONE) (hl : idx < w.smtd_active_states.length) :
    ((smtd_next_stage cfg idx d w).st idx).timeout
      = if d = SMTD_STAGE_HOLD then INVALID_DEFERRED_TOKEN else w.next_token := by
  cases d
  · exact absurd rfl hd
  all_goals simp [smtd_next_stage, hl, arm_timeout, defer_exec, st_modSt, len_modSt,
    next_token_modSt, next_token_action]

theorem pending_cancelled (idx : Nat) (w : World)
    (hown : ∀ t ∈ w.timers, t.cb_arg = idx →
      t.token = (w.st idx).timeout ∧ t.token ≠ INVALID_DEFERRED_TOKEN) :
    (w.timers.filter fun t => t.token != (w.st idx).timeout
        || (w.st idx).timeout == INVALID_DEFERRED_TOKEN).filter (fun t => t.cb_arg == idx)
      = [] := by
  rw [List.filter_filter, List.filter_eq_nil_iff]
  intro t ht hc
  simp only [Bool.and_eq_true, beq_iff_eq, Bool.or_eq_true, bne_iff_ne, ne_eq] at hc
  obtain ⟨h1, h2⟩ := hown t ht hc.1
  rcases hc.2 with h | h
  · exact h h1
  · exact h2 (h1.trans h)


theorem testBit_255_sub (x : Nat) (hx : x < 256) (i : Nat) :
    (255 - x).testBit i = (decide (i < 8) && !x.testBit i) := by
  have h := Nat.testBit_two_pow_sub_succ (show x < 2 ^ 8 from hx) i
  have e : 2 ^ 8 - (x + 1) = 255 - x := by norm_num; omega
  rw [e] at h
  exact h

theorem byte_recall (m m2 : Nat) (hm : m < 256) (hm2 : m2 < 256) :
    m2 &&& (255 - (m2 &&& (255 - m % 256)) % 256) = m2 &&& m := by
  have e1 : m % 256 = m := Nat.mod_eq_of_lt hm
  have h3 : m2 &&& (255 - m) < 256 := lt_of_le_of_lt Nat.and_le_left hm2
  rw [e1, Nat.mod_eq_of_lt h3]
  apply Nat.eq_of_testBit_eq
  intro i
  rw [Nat.testBit_and, testBit_255_sub _ h3, Nat.testBit_and, testBit_255_sub _ hm,
    Nat.testBit_and]
  by_cases hi : i < 8
  · simp [hi]
    cases m2.testBit i <;> cases m.testBit i <;> rfl
  · have : m2.testBit i = false := by
      apply Nat.testBit_eq_false_of_lt
      exact lt_of_lt_of_le hm2 (by
        have : 2 ^ 8 ≤ 2 ^ i := Nat.pow_le_pow_right (by decide) (by omega)
        simpa using this)
    simp [this]

theorem host_set_mods (m : Nat) (w : World) :
    (set_mods m w).host = { w.host with mods := m % 256 } := rfl

theorem host_del_mods (m : Nat) (w : World) :
    (del_mods m w).host = { w.host with mods := w.host.mods &&& (255 - m % 256) } := rfl

theorem host_send_report (w : World) : (send_keyboard_report w).host = w.host := rfl

theorem trace_set_mods (m : Nat) (w : World) :
    (set_mods m w).trace = w.trace ++ [.set_mods m] := rfl

theorem trace_del_mods (m : Nat) (w : World) :
    (del_mods m w).trace = w.trace ++ [.del_mods m] := rfl

theorem trace_send_report (w : World) :
    (send_keyboard_report w).trace = w.trace ++ [.send_keyboard_report] := rfl

theorem trace_action (cfg : Config) (a : smtd_action) (i : Nat) (w : World) :
    (SMTD_ACTION cfg a i w).trace
      = w.trace ++ [.action (w.st i).macro_keycode a (w.st i).sequence_len] := rfl

theorem host_cancel (t : Nat) (w : World) : (cancel_deferred_exec t w).host = w.host := rfl

theorem host_arm (cfg : Config) (k : smtd_timeout) (i : Nat) (w : World) :
    (arm_timeout cfg k i w).host = w.host := rfl

theorem host_action (cfg : Config) (a : smtd_action) (i : Nat) (w : World) :
    (SMTD_ACTION cfg a i w).host
      = cfg.on_smtd_action (w.st i).macro_keycode a (w.st i).sequence_len w.host := rfl

theorem host_next_touch (cfg : Config) (idx : Nat) (w : World) :
    (smtd_next_stage cfg idx SMTD_STAGE_TOUCH w).host
      = cfg.on_smtd_action (w.st idx).macro_keycode SMTD_ACTION_TOUCH
          (w.st idx).sequence_len w.host := by
  simp only [smtd_next_stage, host_cancel, host_arm, host_modSt, host_action, st_modSt]
  by_cases hl : idx < w.smtd_active_states.length
  · simp [hl, len_modSt]
  · simp [hl, len_modSt]

theorem snapshot_touch (cfg : Config) (idx : Nat) (w : World)
    (hl : idx < w.smtd_active_states.length) :
    ((smtd_next_stage cfg idx SMTD_STAGE_TOUCH w).st idx).modes_before_touch = w.host.mods
      ∧ ((smtd_next_stage cfg idx SMTD_STAGE_TOUCH w).st idx).modes_with_touch
          = (smtd_next_stage cfg idx SMTD_STAGE_TOUCH w).host.mods
              &&& (255 - w.host.mods % 256) := by
  rw [host_next_touch]
  constructor
  · simp [smtd_next_stage, hl, st_modSt, len_modSt, get_mods]
  · simp [smtd_next_stage, hl, st_modSt, len_modSt, get_mods, host_action, host_modSt]

theorem tap_recall (cfg : Config) (idx : Nat) (w2 : World) (m m2 : Nat)
    (hl2 : idx < w2.smtd_active_states.length) (hm : m < 256) (hm2 : m2 < 256)
    (hsup : m &&& m2 = m)
    (hrecall : smtd_feature_enabled_or_default cfg (w2.st idx).macro_keycode
      SMTD_FEATURE_MODS_RECALL = true)
    (htap : ∀ K s h, (cfg.on_smtd_action K SMTD_ACTION_TAP s h).mods = h.mods)
    (hmods : w2.host.mods = m2) (hb : (w2.st idx).modes_before_touch = m)
    (hw : (w2.st idx).modes_with_touch = m2 &&& (255 - m % 256)) :
    (DO_ACTION_TAP cfg idx w2).host
        = cfg.on_smtd_action (w2.st idx).macro_keycode SMTD_ACTION_TAP (w2.st idx).sequence_len
            { w2.host with mods := m }
      ∧ (m2 ≠ m →
          ((DO_ACTION_TAP cfg idx w2).st idx).modes_before_touch = 0
            ∧ ((DO_ACTION_TAP cfg idx w2).st idx).modes_with_touch = 0
            ∧ (DO_ACTION_TAP cfg idx w2).trace = w2.trace ++ [.set_mods m, .send_keyboard_report,
                .action (w2.st idx).macro_keycode SMTD_ACTION_TAP (w2.st idx).sequence_len,
                .set_mods m2, .del_mods (m2 &&& (255 - m % 256)), .send_keyboard_report])
      ∧ (m2 = m →
          (DO_ACTION_TAP cfg idx w2).smtd_active_states = w2.smtd_active_states
            ∧ (DO_ACTION_TAP cfg idx w2).trace = w2.trace
                ++ [.action (w2.st idx).macro_keycode SMTD_ACTION_TAP (w2.st idx).sequence_len]) := by
  by_cases he : m2 = m
  · subst he
    have hc : ¬ ((smtd_feature_enabled_or_default cfg (w2.st idx).macro_keycode
        SMTD_FEATURE_MODS_RECALL && (w2.st idx).modes_before_touch != get_mods w2) = true) := by
      simp [hb, get_mods, hmods]
    simp only [DO_ACTION_TAP, if_neg hc]
    refine ⟨?_, fun h => absurd rfl h, fun _ => ⟨rfl, rfl⟩⟩
    rw [host_action, ← hmods]
  · have hc : (smtd_feature_enabled_or_default cfg (w2.st idx).macro_keycode
        SMTD_FEATURE_MODS_RECALL && (w2.st idx).modes_before_touch != get_mods w2) = true := by
      simp [hb, get_mods, hmods, hrecall]
      exact fun h => he h.symm
    simp only [DO_ACTION_TAP, if_pos hc]
    refine ⟨?_, fun _ => ⟨?_, ?_, ?_⟩, fun h => absurd h he⟩
    · simp only [host_modSt, host_send_report, host_del_mods, host_set_mods, host_action,
        st_set_mods, st_send_report, st_action, st_del_mods, get_mods, hb, hw, hmods, htap,
        Nat.mod_eq_of_lt hm, Nat.xor_self, Nat.zero_mod, Nat.xor_zero, Nat.mod_eq_of_lt hm2]
      have hx : m2 &&& (255 - (m2 &&& (255 - m)) % 256) = m := by
        have h := byte_recall m m2 hm hm2
        rw [Nat.mod_eq_of_lt hm] at h
        rw [h, Nat.land_comm]
        exact hsup
      rw [hx]
      have hH := htap (w2.st idx).macro_keycode (w2.st idx).sequence_len
        { w2.host with mods := m }
      generalize cfg.on_smtd_action (w2.st idx).macro_keycode SMTD_ACTION_TAP
        (w2.st idx).sequence_len { w2.host with mods := m } = H at hH ⊢
      cases H
      simp only at hH
      simp only [hH]
    · simp [st_modSt, hl2]
    · simp [st_modSt, hl2]
    · simp only [trace_modSt, trace_send_report, trace_del_mods, trace_set_mods, trace_action,
        st_set_mods, st_send_report, st_action, st_del_mods, get_mods, hb, hw, hmods, htap,
        host_send_report, host_set_mods, host_action,
        Nat.mod_eq_of_lt hm, Nat.xor_self, Nat.zero_mod, Nat.xor_zero, List.append_assoc,
        List.singleton_append, List.cons_append, List.nil_append]

/-- Induction over the dispatcher loop when every record declines: a property
of the world that each declining call keeps is kept by the loop. -/
theorem scan_invariant (cfg : Config) (pr : keyrecord_t → World → Res World) (kc : Nat)
    (r : keyrecord_t) (Q : World → Prop)
    (hstep : ∀ i w w2, i < w.smtd_active_states_size → Q w →
      process_smtd_state cfg pr kc r i w = .ok (true, w2) → Q w2)
    (n i : Nat) (w w1 : World) (hq : Q w)
    (h : process_smtd_scan cfg pr kc r n i w = .ok (true, w1)) : Q w1 := by
  induction n generalizing i w with
  | zero =>
    simp only [process_smtd_scan, Res.ok.injEq, Prod.mk.injEq, true_and] at h
    subst h
    exact hq
  | succ n ih =>
    by_cases hi : i < w.smtd_active_states_size
    · rw [scan_step _ _ _ _ _ _ _ hi] at h
      cases hs : process_smtd_state cfg pr kc r i w with
      | ok x =>
        rw [hs] at h
        simp only [Res.bind_ok] at h
        by_cases hx : x.1 = true
        · simp only [hx, if_true] at h
          have hs2 : process_smtd_state cfg pr kc r i w = .ok (true, x.2) := by
            rw [hs, ← hx]
          exact ih (i + 1) x.2 (hstep i w x.2 hi hq hs2) h
        · simp [hx] at h
      | out_of_fuel => simp [hs, Res.bind] at h
      | out_of_bounds => simp [hs, Res.bind] at h
    · rw [scan_stop _ _ _ _ _ _ _ hi] at h
      simp only [Res.ok.injEq, Prod.mk.injEq, true_and] at h
      subst h
      exact hq

/-- A declining record leaves the slots behind the live records empty, and
emits nothing for the key of the event. -/
theorem decline_clean (cfg : Config) (pr : keyrecord_t → World → Res World) (kc : Nat)
    (r : keyrecord_t) (i : Nat) (w w2 : World)
    (hi : i < w.smtd_active_states_size)
    (hwf : w.smtd_active_states_size ≤ w.smtd_active_states.length)
    (hc : w.clean)
    (h : process_smtd_state cfg pr kc r i w = .ok (true, w2)) :
    w2.smtd_active_states_size ≤ w2.smtd_active_states.length ∧ w2.clean
      ∧ emitted_for kc w2.trace = emitted_for kc w.trace := by
  obtain ⟨hl2, hz2⟩ := decline_wf cfg pr kc r i w w2 h
  refine ⟨by omega, ?_⟩
  rcases decline_cases cfg pr kc r i w w2 h with rfl | ⟨-, -, hm, rfl⟩
  · exact ⟨hc, rfl⟩
  · by_cases ha : smtd_feature_enabled_or_default cfg (w.st i).macro_keycode
        SMTD_FEATURE_AGGREGATE_TAPS = true
    · rw [if_pos ha]
      constructor
      · intro j hj
        rw [size_next_none cfg i _ (by simpa using hi)] at hj
        rw [st_next_none cfg i _ j (by simpa using hi) (by simpa using hwf)]
        simp only [size_tap] at hj ⊢
        have h1 : ¬ j < i := by omega
        have h2 : ¬ j + 1 < w.smtd_active_states_size := by omega
        rw [if_neg h1, if_neg h2]
        split
        · rfl
        · rw [st_tap_ne cfg i w j (by omega)]
          exact hc j (by omega)
      · rw [emitted_for_eq kc _ _ _ (emitted_next cfg i SMTD_STAGE_NONE _)]
        rw [emitted_for_eq kc _ _ _ (emitted_tap cfg i w)]
        simp [hm]
    · rw [if_neg ha]
      constructor
      · intro j hj
        rw [size_next_none cfg i _ hi] at hj
        rw [st_next_none cfg i _ j hi hwf]
        have h1 : ¬ j < i := by omega
        have h2 : ¬ j + 1 < w.smtd_active_states_size := by omega
        rw [if_neg h1, if_neg h2]
        split
        · rfl
        · exact hc j (by omega)
      · rw [emitted_for_eq kc _ _ _ (emitted_next cfg i SMTD_STAGE_NONE _)]
        simp

theorem live_snoc (w1 w2 : World)
    (h1 : w1.smtd_active_states_size ≤ w1.smtd_active_states.length)
    (h2 : w2.smtd_active_states_size ≤ w2.smtd_active_states.length)
    (hsz : w2.smtd_active_states_size = w1.smtd_active_states_size + 1)
    (hst : ∀ j, j < w1.smtd_active_states_size → w2.st j = w1.st j) :
    w2.live = w1.live ++ [w2.st w1.smtd_active_states_size] := by
  apply List.ext_getElem?
  intro j
  rw [live_getElem? w2 h2, hsz]
  by_cases hj : j < w1.smtd_active_states_size
  · rw [List.getElem?_append_left (by rw [live_length w1 h1]; exact hj), live_getElem? w1 h1,
      if_pos hj, if_pos (by omega), hst j hj]
  · rw [List.getElem?_append_right (by rw [live_length w1 h1]; omega), live_length w1 h1]
    by_cases he : j = w1.smtd_active_states_size
    · subst he
      simp
    · rw [if_neg (by omega)]
      have : 0 < j - w1.smtd_active_states_size := by omega
      obtain ⟨k, hk⟩ := Nat.exists_eq_succ_of_ne_zero (Nat.pos_iff_ne_zero.mp this)
      rw [hk]
      rfl

theorem keys_getElem? (w : World)
    (hle : w.smtd_active_states_size ≤ w.smtd_active_states.length) (j : Nat) :
    w.keys[j]? = if j < w.smtd_active_states_size then some (w.st j).macro_keycode
      else none := by
  simp only [World.keys, List.getElem?_map, live_getElem? w hle]
  split <;> rfl

theorem keys_same (w w2 : World)
    (hle : w.smtd_active_states_size ≤ w.smtd_active_states.length)
    (hl : w2.smtd_active_states.length = w.smtd_active_states.length)
    (hs : w2.smtd_active_states_size = w.smtd_active_states_size)
    (hm : ∀ j, (w2.st j).macro_keycode = (w.st j).macro_keycode) : w2.keys = w.keys := by
  apply List.ext_getElem?
  intro j
  rw [keys_getElem? w2 (by omega), keys_getElem? w hle, hs, hm]

theorem inv_same (w w2 : World) (h : w.one_per_key)
    (hl : w2.smtd_active_states.length = w.smtd_active_states.length)
    (hs : w2.smtd_active_states_size = w.smtd_active_states_size)
    (hm : ∀ j, (w2.st j).macro_keycode = (w.st j).macro_keycode) : w2.one_per_key := by
  obtain ⟨⟨a, b⟩, c⟩ := h
  refine ⟨⟨hl.trans a, by rw [hs]; exact b⟩, ?_⟩
  rw [keys_same w w2 (by rw [a]; exact b) hl hs hm]
  exact c

theorem inv_modSt (w : World) (i : Nat) (f : smtd_state → smtd_state)
    (hf : ∀ s, (f s).macro_keycode = s.macro_keycode) (h : w.one_per_key) :
    (w.modSt i f).one_per_key :=
  inv_same w _ h (len_modSt w i f) (size_modSt w i f) (fun j => macro_modSt w i j f hf)

theorem inv_emit (w : World) (e : Ev) (h : w.one_per_key) : (w.emit e).one_per_key :=
  inv_same w _ h rfl rfl (fun _ => rfl)

theorem inv_host (w : World) (x : Host) (h : w.one_per_key) :
    World.one_per_key { w with host := x } :=
  inv_same w _ h rfl rfl (fun _ => rfl)

theorem inv_action (cfg : Config) (a : smtd_action) (i : Nat) (w : World)
    (h : w.one_per_key) : (SMTD_ACTION cfg a i w).one_per_key :=
  inv_same w _ h rfl rfl (fun _ => rfl)

theorem inv_tap (cfg : Config) (i : Nat) (w : World) (h : w.one_per_key) :
    (DO_ACTION_TAP cfg i w).one_per_key :=
  inv_same w _ h (len_tap cfg i w) (size_tap cfg i w) (fun j => macro_tap cfg i w j)

theorem inv_next (cfg : Config) (i : Nat) (s : smtd_stage) (w : World) (h : w.one_per_key) :
    (smtd_next_stage cfg i s w).one_per_key := by
  by_cases hs : s = SMTD_STAGE_NONE
  · subst hs
    have hle := wf_le w h.1
    by_cases hi : i < w.smtd_active_states_size
    · obtain ⟨⟨a, b⟩, c⟩ := h
      refine ⟨⟨by rw [len_next_none]; exact a, by rw [size_next_none cfg i w hi]; omega⟩, ?_⟩
      have hl := live_next_none cfg i w w hi hle rfl rfl (fun _ _ => rfl)
      unfold World.keys at c ⊢
      rw [hl]
      exact c.sublist ((List.eraseIdx_sublist _ _).map _)
    · apply inv_same w _ h (len_next_none cfg i w)
      · simp [smtd_next_stage, remove_state, hi]
      · intro j
        simp only [smtd_next_stage, remove_state, size_modSt, if_neg hi, st_cancel]
        simp only [macro_modSt, implies_true]
  · exact inv_same w _ h (len_next cfg i s w hs) (size_next cfg i s w hs)
      (fun j => macro_next cfg i s w j hs)

theorem inv_call (pr : keyrecord_t → World → Res World) (hpr : KeepsKeys pr)
    (r : keyrecord_t) (w w2 : World) (hy : call_process_record pr r w = .ok w2)
    (h : w.one_per_key) : w2.one_per_key :=
  hpr r _ w2 (inv_emit w _ h) hy

theorem inv_press_following (pr : keyrecord_t → World → Res World) (hpr : KeepsKeys pr)
    (i : Nat) (release : Bool) (x y : World)
    (hy : smtd_press_following_key pr i release x = .ok y) (h : x.one_per_key) :
    y.one_per_key := by
  simp only [smtd_press_following_key] at hy
  obtain ⟨a, ha, hy⟩ := bind_eq_ok _ _ _ hy
  have fa := inv_call pr hpr _ _ a ha (inv_modSt x i _ (fun _ => rfl) h)
  cases release
  · simp only [Bool.false_eq_true, if_false, Res.ok.injEq] at hy
    subst hy
    exact inv_modSt a i _ (fun _ => rfl) fa
  · simp only [if_true] at hy
    obtain ⟨b, hb, hy⟩ := bind_eq_ok _ _ _ hy
    simp only [Res.ok.injEq] at hy
    subst hy
    exact inv_modSt b i _ (fun _ => rfl) (inv_call pr hpr _ _ b hb fa)

set_option linter.unusedTactic false in
set_option linter.unreachableTactic false in
theorem inv_state (cfg : Config) (pr : keyrecord_t → World → Res World) (hpr : KeepsKeys pr)
    (kc : Nat) (r : keyrecord_t) (i : Nat) (w : World) (b : Bool) (w2 : World)
    (hw : w.one_per_key) (h : process_smtd_state cfg pr kc r i w = .ok (b, w2)) :
    w2.one_per_key := by
  unfold process_smtd_state at h
  repeat' (first | split at h | (simp only [Res.bind] at h; split at h))
  all_goals
    first
    | (exfalso; simp at h; done)
    | skip
  all_goals
    simp only [Res.ok.injEq, Prod.mk.injEq] at h
    obtain ⟨-, rfl⟩ := h
    repeat (first
      | assumption
      | (with_reducible refine inv_modSt _ _ _ (fun _ => rfl) ?_)
      | with_reducible apply inv_action
      | with_reducible apply inv_tap
      | with_reducible apply inv_next
      | with_reducible apply inv_press_following pr hpr _ _ _ _ (by assumption)
      | with_reducible apply inv_call pr hpr _ _ _ (by assumption)
      | split)

theorem inv_scan (cfg : Config) (pr : keyrecord_t → World → Res World) (hpr : KeepsKeys pr)
    (kc : Nat) (r : keyrecord_t) (n i : Nat) (w : World) (b : Bool) (w2 : World)
    (hw : w.one_per_key) (h : process_smtd_scan cfg pr kc r n i w = .ok (b, w2)) :
    w2.one_per_key := by
  induction n generalizing i w with
  | zero =>
    simp only [process_smtd_scan, Res.ok.injEq, Prod.mk.injEq] at h
    obtain ⟨-, rfl⟩ := h
    exact hw
  | succ n ih =>
    by_cases hi : i < w.smtd_active_states_size
    · rw [scan_step _ _ _ _ _ _ _ hi] at h
      obtain ⟨x, hx, h⟩ := bind_eq_ok _ _ _ h
      have hx2 := inv_state cfg pr hpr kc r i w x.1 x.2 hw hx
      split at h
      · exact ih (i + 1) x.2 hx2 h
      · simp only [Res.ok.injEq, Prod.mk.injEq] at h
        obtain ⟨-, rfl⟩ := h
        exact hx2
    · rw [scan_stop _ _ _ _ _ _ _ hi] at h
      simp only [Res.ok.injEq, Prod.mk.injEq] at h
      obtain ⟨-, rfl⟩ := h
      exact hw

theorem inv_open (kc : Nat) (w : World) (hw : w.one_per_key)
    (hnot : already_handled kc w = false)
    (hcap : ¬ SMTD_POOL_CAPACITY ≤ w.smtd_active_states_size) :
    (open_slot kc w).one_per_key := by
  obtain ⟨⟨a, b⟩, c⟩ := hw
  have hlt : w.smtd_active_states_size < 10 := by
    have : ¬ 10 ≤ w.smtd_active_states_size := hcap
    omega
  have hlen : w.smtd_active_states.length = 10 := a
  have hmod : (w.smtd_active_states_size + 1) % 256 = w.smtd_active_states_size + 1 :=
    Nat.mod_eq_of_lt (by omega)
  have hkeys : (open_slot kc w).keys = w.keys ++ [kc] := by
    apply List.ext_getElem?
    intro j
    rw [keys_getElem? _ (by rw [size_open, len_open, hmod]; omega), size_open, hmod, st_open]
    by_cases hj : j < w.smtd_active_states_size
    · rw [List.getElem?_append_left (by
        rw [World.keys, List.length_map, live_length w (by omega)]; exact hj),
        keys_getElem? w (by omega), if_pos hj, if_pos (by omega),
        if_neg (fun h => absurd h.1 (by omega))]
    · rw [List.getElem?_append_right (by
        rw [World.keys, List.length_map, live_length w (by omega)]; omega),
        World.keys, List.length_map, live_length w (by omega)]
      by_cases he : j = w.smtd_active_states_size
      · subst he
        simp [hlen, hlt]
      · rw [if_neg (by omega)]
        have : 0 < j - w.smtd_active_states_size := by omega
        obtain ⟨k, hk⟩ := Nat.exists_eq_succ_of_ne_zero (Nat.pos_iff_ne_zero.mp this)
        rw [hk]
        rfl
  refine ⟨⟨by rw [len_open]; exact a, by
    rw [size_open, hmod]
    show w.smtd_active_states_size + 1 ≤ 10
    omega⟩, ?_⟩
  rw [hkeys, List.nodup_append]
  refine ⟨c, List.nodup_singleton _, ?_⟩
  intro k hk hk2
  simp only [List.mem_singleton] at hk2
  subst hk2
  obtain ⟨j, hj⟩ := List.mem_iff_getElem?.mp hk
  rw [keys_getElem? w (by omega)] at hj
  by_cases hlt2 : j < w.smtd_active_states_size
  · rw [if_pos hlt2] at hj
    simp only [Option.some.injEq] at hj
    have : already_handled k w = true := by
      simp only [already_handled, List.any_eq_true, List.mem_range]
      exact ⟨j, hlt2, by simp [hj]⟩
    rw [hnot] at this
    exact absurd this (by decide)
  · rw [if_neg hlt2] at hj
    exact absurd hj (by simp)

theorem inv_process_smtd (cfg : Config) (pr : keyrecord_t → World → Res World)
    (hpr : KeepsKeys pr) (kc : Nat) (r : keyrecord_t) (w : World) (b : Bool) (w2 : World)
    (hw : w.one_per_key) (h : process_smtd cfg pr kc r w = .ok (b, w2)) :
    w2.one_per_key := by
  unfold process_smtd at h
  obtain ⟨x, hx, h⟩ := bind_eq_ok _ _ _ h
  have hx2 := inv_scan cfg pr hpr kc r 256 0 w x.1 x.2 hw hx
  repeat' split at h
  all_goals
    first
    | (exfalso; simp at h; done)
    | (simp only [Res.ok.injEq, Prod.mk.injEq] at h
       obtain ⟨-, rfl⟩ := h
       exact hx2)
    | (rename_i h4 h5
       exact inv_state cfg pr hpr kc r _ _ b w2
        (inv_open kc x.2 hx2 (Bool.eq_false_iff.mpr h4) h5) h)

theorem inv_process_record (cfg : Config) (fuel : Nat) : KeepsKeys (process_record cfg fuel) := by
  induction fuel with
  | zero =>
    intro r w w2 _ h
    simp [process_record] at h
  | succ n ih =>
    intro r w w2 hw h
    simp only [process_record] at h
    obtain ⟨x, hx, h⟩ := bind_eq_ok _ _ _ h
    have hx2 := inv_process_smtd cfg _ ih _ r w x.1 x.2 hw hx
    split at h
    · simp only [Res.ok.injEq] at h
      subst h
      exact inv_host _ _ hx2
    · simp only [Res.ok.injEq] at h
      subst h
      exact hx2

theorem inv_timeout_sequence (cfg : Config) (idx : Nat) (w : World) (hw : w.one_per_key) :
    (timeout_sequence cfg idx w).one_per_key := by
  simp only [timeout_sequence]
  split
  · exact inv_next _ _ _ _ (inv_tap _ _ _ hw)
  · exact inv_next _ _ _ _ hw

theorem inv_timeout_release (cfg : Config) (pr : keyrecord_t → World → Res World)
    (hpr : KeepsKeys pr) (idx : Nat) (w w2 : World) (hw : w.one_per_key)
    (h : timeout_release cfg pr idx w = .ok w2) : w2.one_per_key := by
  simp only [timeout_release] at h
  obtain ⟨x, hx, h⟩ := bind_eq_ok _ _ _ h
  simp only [Res.ok.injEq] at h
  subst h
  exact inv_next _ _ _ _ (inv_press_following pr hpr _ _ _ _ hx (inv_tap _ _ _ hw))

theorem inv_init (h : Host) : (World.init h).one_per_key := by
  refine ⟨⟨by simp [World.init], by simp [World.init, SMTD_POOL_CAPACITY]⟩, ?_⟩
  simp [World.keys, World.live, World.init]

theorem inv_reachable (cfg : Config) (w : World) (h : Reachable cfg w) : w.one_per_key := by
  induction h with
  | init h => exact inv_init h
  | event fuel kc r w b w2 _ he ih =>
    exact inv_process_smtd cfg _ (inv_process_record cfg fuel) kc r w b w2 ih he
  | touch idx w _ ih => exact inv_next _ _ _ _ ih
  | sequence idx w _ ih => exact inv_timeout_sequence cfg idx w ih
  | following fuel idx w w2 _ he ih =>
    exact inv_press_following _ (inv_process_record cfg fuel) _ _ _ _ he (inv_next _ _ _ _ ih)
  | release fuel idx w w2 _ he ih =>
    exact inv_timeout_release cfg _ (inv_process_record cfg fuel) idx w w2 ih he
  | host w h _ ih => exact inv_host w h ih

theorem distinct_of_nodup (w : World) (h : w.one_per_key) (i j : Nat) (hij : i < j)
    (hj : j < w.smtd_active_states_size) :
    (w.st i).macro_keycode ≠ (w.st j).macro_keycode := by
  obtain ⟨⟨a, b⟩, c⟩ := h
  have hle : w.smtd_active_states_size ≤ w.smtd_active_states.length := by rw [a]; exact b
  intro he
  have hlen : w.keys.length = w.smtd_active_states_size := by
    rw [World.keys, List.length_map, live_length w hle]
  have hi2 : i < w.keys.length := by omega
  have hj2 : j < w.keys.length := by omega
  have e1 : w.keys[i]? = some (w.st i).macro_keycode := by
    rw [keys_getElem? w hle, if_pos (by omega)]
  have e2 : w.keys[j]? = some (w.st j).macro_keycode := by
    rw [keys_getElem? w hle, if_pos hj]
  rw [List.getElem?_eq_getElem hi2] at e1
  rw [List.getElem?_eq_getElem hj2] at e2
  simp only [Option.some.injEq] at e1 e2
  have hinj : w.keys[i] = w.keys[j] := by rw [e1, e2, he]
  have := (List.Nodup.getElem_inj_iff c).mp hinj
  omega

/-- The pending timers of a slot after `smtd_next_stage`, when the timers
queued for the slot carry the token stored in the record and that token is not
the one handed out next: the freshly armed timer for the four stages with a
timeout, none for `HOLD` and `NONE`. -/
theorem pending_next (cfg : Config) (idx : Nat) (d : smtd_stage) (w : World)
    (hown : ∀ t ∈ w.timers, t.cb_arg = idx →
      t.token = (w.st idx).timeout ∧ t.token ≠ INVALID_DEFERRED_TOKEN)
    (hprev : (w.st idx).timeout ≠ w.next_token) :
    pending_for idx (smtd_next_stage cfg idx d w)
        = (match d with
            | SMTD_STAGE_NONE => []
            | SMTD_STAGE_HOLD => []
            | SMTD_STAGE_TOUCH => [armed_entry cfg SMTD_TIMEOUT_TAP idx w]
            | SMTD_STAGE_SEQUENCE => [armed_entry cfg SMTD_TIMEOUT_SEQUENCE idx w]
            | SMTD_STAGE_FOLLOWING_TOUCH => [armed_entry cfg SMTD_TIMEOUT_FOLLOWING_TAP idx w]
            | SMTD_STAGE_RELEASE => [armed_entry cfg SMTD_TIMEOUT_RELEASE idx w]) := by
  have hold := pending_cancelled idx w hown
  have hnew : ∀ k, (([armed_entry cfg k idx w].filter fun t => t.token != (w.st idx).timeout
        || (w.st idx).timeout == INVALID_DEFERRED_TOKEN).filter (fun t => t.cb_arg == idx))
      = [armed_entry cfg k idx w] := by
    intro k
    have : (armed_entry cfg k idx w).token ≠ (w.st idx).timeout := fun h => hprev h.symm
    simp [armed_entry] at this ⊢
    simp [this]
  unfold pending_for
  rw [timers_next]
  cases d <;> simp only [List.filter_append, hold, hnew, List.nil_append]

theorem st_modSt_self (w : World) (i : Nat) (f : smtd_state → smtd_state)
    (hl : i < w.smtd_active_states.length) : (w.modSt i f).st i = f (w.st i) := by
  rw [st_modSt, if_pos ⟨rfl, hl⟩]

theorem trace_cancel (t : deferred_token) (w : World) :
    (cancel_deferred_exec t w).trace = w.trace ++ [.cancel_deferred_exec t] := rfl

theorem trace_arm (cfg : Config) (k : smtd_timeout) (i : Nat) (w : World) :
    (arm_timeout cfg k i w).trace
      = w.trace ++ [.defer_exec w.next_token
          (get_smtd_timeout_or_default cfg (w.st i).macro_keycode k) k i] := by
  simp [arm_timeout, defer_exec, World.emit]

theorem seq_modSt (w : World) (i j : Nat) (f : smtd_state → smtd_state)
    (hf : ∀ s, (f s).sequence_len = s.sequence_len) :
    ((w.modSt i f).st j).sequence_len = (w.st j).sequence_len := by
  rw [st_modSt]
  split
  · rename_i h
    rw [hf, h.1]
  · rfl

/-- The calls made by `smtd_next_stage(state, SMTD_STAGE_TOUCH)`, in order: the
touch action, `defer_exec` for the tap timer, `cancel_deferred_exec` for the
token stored before. -/
theorem trace_next_touch (cfg : Config) (idx : Nat) (w : World) :
    (smtd_next_stage cfg idx SMTD_STAGE_TOUCH w).trace
      = w.trace ++ [.action (w.st idx).macro_keycode SMTD_ACTION_TOUCH (w.st idx).sequence_len,
          .defer_exec w.next_token
            (get_smtd_timeout_or_default cfg (w.st idx).macro_keycode SMTD_TIMEOUT_TAP)
            SMTD_TIMEOUT_TAP idx,
          .cancel_deferred_exec (w.st idx).timeout] := by
  simp only [smtd_next_stage]
  rw [trace_cancel, trace_arm, trace_modSt, trace_action]
  simp only [trace_modSt, next_token_modSt, next_token_action, st_action, macro_modSt,
    seq_modSt, implies_true, List.append_assoc, List.singleton_append]
  rfl

theorem timeout_modSt (w : World) (i j : Nat) (f : smtd_state → smtd_state)
    (hf : ∀ s, (f s).timeout = s.timeout) :
    ((w.modSt i f).st j).timeout = (w.st j).timeout := by
  rw [st_modSt]
  split
  · rename_i h
    rw [hf, h.1]
  · rfl

theorem told_modSt (w : World) (i : Nat) (f : smtd_state → smtd_state)
    (hf : ∀ s, (f s).macro_keycode = s.macro_keycode) (hg : ∀ s, (f s).timeout = s.timeout)
    (h : w.tokens_old) : (w.modSt i f).tokens_old :=
  ⟨inv_modSt w i f hf h.1, fun j => by rw [timeout_modSt w i j f hg, next_token_modSt]; exact h.2 j⟩

theorem told_emit (w : World) (e : Ev) (h : w.tokens_old) : (w.emit e).tokens_old :=
  ⟨inv_emit w e h.1, fun j => h.2 j⟩

theorem told_host (w : World) (x : Host) (h : w.tokens_old) :
    World.tokens_old { w with host := x } :=
  ⟨inv_host w x h.1, fun j => h.2 j⟩

theorem told_action (cfg : Config) (a : smtd_action) (i : Nat) (w : World)
    (h : w.tokens_old) : (SMTD_ACTION cfg a i w).tokens_old :=
  ⟨inv_action cfg a i w h.1, fun j => h.2 j⟩

theorem next_token_tap (cfg : Config) (i : Nat) (w : World) :
    (DO_ACTION_TAP cfg i w).next_token = w.next_token := by
  simp only [DO_ACTION_TAP]
  split <;> rfl

theorem told_tap (cfg : Config) (i : Nat) (w : World) (h : w.tokens_old) :
    (DO_ACTION_TAP cfg i w).tokens_old :=
  ⟨inv_tap cfg i w h.1, fun j => by rw [timeout_tap, next_token_tap]; exact h.2 j⟩

theorem next_token_next (cfg : Config) (i : Nat) (s : smtd_stage) (w : World) :
    w.next_token ≤ (smtd_next_stage cfg i s w).next_token
      ∧ (s ≠ SMTD_STAGE_NONE → s ≠ SMTD_STAGE_HOLD →
          (smtd_next_stage cfg i s w).next_token = w.next_token + 1) := by
  cases s
  case SMTD_STAGE_NONE =>
    refine ⟨?_, fun h => absurd rfl h⟩
    simp only [smtd_next_stage, remove_state]
    split
    · exact Nat.le_refl _
    · exact Nat.le_refl _
  case SMTD_STAGE_HOLD => exact ⟨Nat.le_refl _, fun _ h => absurd rfl h⟩
  all_goals
    refine ⟨?_, fun _ _ => ?_⟩ <;>
    simp [smtd_next_stage, arm_timeout, defer_exec, cancel_deferred_exec, World.emit,
      next_token_modSt, next_token_action]

theorem told_next (cfg : Config) (i : Nat) (s : smtd_stage) (w : World) (h : w.tokens_old) :
    (smtd_next_stage cfg i s w).tokens_old := by
  refine ⟨inv_next cfg i s w h.1, fun j => ?_⟩
  have h0 : 0 < w.next_token := Nat.lt_of_le_of_lt (Nat.zero_le _) (h.2 0)
  have hj := h.2 j
  have hj1 := h.2 (j + 1)
  obtain ⟨n1, n2⟩ := next_token_next cfg i s w
  by_cases hs : s = SMTD_STAGE_NONE
  · subst hs
    refine Nat.lt_of_lt_of_le ?_ n1
    by_cases hi : i < w.smtd_active_states_size
    · rw [st_next_none cfg i w j hi (wf_le w h.1.1)]
      repeat' split
      all_goals assumption
    · simp only [smtd_next_stage, remove_state, size_modSt, if_neg hi, st_cancel]
      simp only [st_modSt, len_modSt]
      repeat' split
      all_goals first | assumption | exact h0 | exact h.2 i
  · by_cases hij : i = j ∧ i < w.smtd_active_states.length
    · obtain ⟨rfl, hl⟩ := hij
      rw [timeout_field_next cfg i s w hs hl]
      split
      · exact Nat.lt_of_lt_of_le h0 n1
      · rename_i hh
        rw [n2 hs hh]
        exact Nat.lt_succ_self _
    · refine Nat.lt_of_lt_of_le ?_ n1
      by_cases hij2 : i = j
      · subst hij2
        have hl : ¬ i < w.smtd_active_states.length := fun hl => hij ⟨rfl, hl⟩
        have e : (smtd_next_stage cfg i s w).st i = w.st i := by
          cases s
          · exact absurd rfl hs
          all_goals simp [smtd_next_stage, arm_timeout, hl]
        rw [e]
        exact hj
      · rw [st_next_ne cfg i s w j hs hij2]
        exact hj

theorem told_call (pr : keyrecord_t → World → Res World) (hpr : KeepsTokens pr)
    (r : keyrecord_t) (w w2 : World) (hy : call_process_record pr r w = .ok w2)
    (h : w.tokens_old) : w2.tokens_old :=
  hpr r _ w2 (told_emit w _ h) hy

theorem told_press_following (pr : keyrecord_t → World → Res World) (hpr : KeepsTokens pr)
    (i : Nat) (release : Bool) (x y : World)
    (hy : smtd_press_following_key pr i release x = .ok y) (h : x.tokens_old) :
    y.tokens_old := by
  simp only [smtd_press_following_key] at hy
  obtain ⟨a, ha, hy⟩ := bind_eq_ok _ _ _ hy
  have fa := told_call pr hpr _ _ a ha (told_modSt x i _ (fun _ => rfl) (fun _ => rfl) h)
  cases release
  · simp only [Bool.false_eq_true, if_false, Res.ok.injEq] at hy
    subst hy
    exact told_modSt a i _ (fun _ => rfl) (fun _ => rfl) fa
  · simp only [if_true] at hy
    obtain ⟨b, hb, hy⟩ := bind_eq_ok _ _ _ hy
    simp only [Res.ok.injEq] at hy
    subst hy
    exact told_modSt b i _ (fun _ => rfl) (fun _ => rfl) (told_call pr hpr _ _ b hb fa)

set_option linter.unusedTactic false in
set_option linter.unreachableTactic false in
theorem told_state (cfg : Config) (pr : keyrecord_t → World → Res World) (hpr : KeepsTokens pr)
    (kc : Nat) (r : keyrecord_t) (i : Nat) (w : World) (b : Bool) (w2 : World)
    (hw : w.tokens_old) (h : process_smtd_state cfg pr kc r i w = .ok (b, w2)) :
    w2.tokens_old := by
  unfold process_smtd_state at h
  repeat' (first | split at h | (simp only [Res.bind] at h; split at h))
  all_goals
    first
    | (exfalso; simp at h; done)
    | skip
  all_goals
    simp only [Res.ok.injEq, Prod.mk.injEq] at h
    obtain ⟨-, rfl⟩ := h
    repeat (first
      | assumption
      | (with_reducible refine told_modSt _ _ _ (fun _ => rfl) (fun _ => rfl) ?_)
      | with_reducible apply told_action
      | with_reducible apply told_tap
      | with_reducible apply told_next
      | with_reducible apply told_press_following pr hpr _ _ _ _ (by assumption)
      | with_reducible apply told_call pr hpr _ _ _ (by assumption)
      | split)

theorem told_scan (cfg : Config) (pr : keyrecord_t → World → Res World) (hpr : KeepsTokens pr)
    (kc : Nat) (r : keyrecord_t) (n i : Nat) (w : World) (b : Bool) (w2 : World)
    (hw : w.tokens_old) (h : process_smtd_scan cfg pr kc r n i w = .ok (b, w2)) :
    w2.tokens_old := by
  induction n generalizing i w with
  | zero =>
    simp only [process_smtd_scan, Res.ok.injEq, Prod.mk.injEq] at h
    obtain ⟨-, rfl⟩ := h
    exact hw
  | succ n ih =>
    by_cases hi : i < w.smtd_active_states_size
    · rw [scan_step _ _ _ _ _ _ _ hi] at h
      obtain ⟨x, hx, h⟩ := bind_eq_ok _ _ _ h
      have hx2 := told_state cfg pr hpr kc r i w x.1 x.2 hw hx
      split at h
      · exact ih (i + 1) x.2 hx2 h
      · simp only [Res.ok.injEq, Prod.mk.injEq] at h
        obtain ⟨-, rfl⟩ := h
        exact hx2
    · rw [scan_stop _ _ _ _ _ _ _ hi] at h
      simp only [Res.ok.injEq, Prod.mk.injEq] at h
      obtain ⟨-, rfl⟩ := h
      exact hw

theorem told_open (kc : Nat) (w : World) (hw : w.tokens_old)
    (hnot : already_handled kc w = false)
    (hcap : ¬ SMTD_POOL_CAPACITY ≤ w.smtd_active_states_size) :
    (open_slot kc w).tokens_old := by
  refine ⟨inv_open kc w hw.1 hnot hcap, fun j => ?_⟩
  rw [st_open]
  split
  · exact hw.2 _
  · exact hw.2 j

theorem told_process_smtd (cfg : Config) (pr : keyrecord_t → World → Res World)
    (hpr : KeepsTokens pr) (kc : Nat) (r : keyrecord_t) (w : World) (b : Bool) (w2 : World)
    (hw : w.tokens_old) (h : process_smtd cfg pr kc r w = .ok (b, w2)) :
    w2.tokens_old := by
  unfold process_smtd at h
  obtain ⟨x, hx, h⟩ := bind_eq_ok _ _ _ h
  have hx2 := told_scan cfg pr hpr kc r 256 0 w x.1 x.2 hw hx
  repeat' split at h
  all_goals
    first
    | (exfalso; simp at h; done)
    | (simp only [Res.ok.injEq, Prod.mk.injEq] at h
       obtain ⟨-, rfl⟩ := h
       exact hx2)
    | (rename_i h4 h5
       exact told_state cfg pr hpr kc r _ _ b w2
        (told_open kc x.2 hx2 (Bool.eq_false_iff.mpr h4) h5) h)

theorem told_process_record (cfg : Config) (fuel : Nat) :
    KeepsTokens (process_record cfg fuel) := by
  induction fuel with
  | zero =>
    intro r w w2 _ h
    simp [process_record] at h
  | succ n ih =>
    intro r w w2 hw h
    simp only [process_record] at h
    obtain ⟨x, hx, h⟩ := bind_eq_ok _ _ _ h
    have hx2 := told_process_smtd cfg _ ih _ r w x.1 x.2 hw hx
    split at h
    · simp only [Res.ok.injEq] at h
      subst h
      exact told_host _ _ hx2
    · simp only [Res.ok.injEq] at h
      subst h
      exact hx2

theorem told_init (h : Host) : (World.init h).tokens_old := by
  refine ⟨inv_init h, fun j => ?_⟩
  have e : (World.init h).st j = EMPTY_STATE := st_init h j
  rw [e]
  exact Nat.zero_lt_one

/-- In every pool reached from power up the token stored in a slot is not the
one `defer_exec` hands out next. -/
theorem stored_token_old (cfg : Config) (w : World) (h : Reachable cfg w) (idx : Nat) :
    (w.st idx).timeout ≠ w.next_token := by
  have key : w.tokens_old := by
    induction h with
    | init h => exact told_init h
    | event fuel kc r w b w2 _ he ih =>
      exact told_process_smtd cfg _ (told_process_record cfg fuel) kc r w b w2 ih he
    | touch idx w _ ih => exact told_next _ _ _ _ ih
    | sequence idx w _ ih =>
      simp only [timeout_sequence]
      split
      · exact told_next _ _ _ _ (told_tap _ _ _ ih)
      · exact told_next _ _ _ _ ih
    | following fuel idx w w2 _ he ih =>
      exact told_press_following _ (told_process_record cfg fuel) _ _ _ _ he
        (told_next _ _ _ _ ih)
    | release fuel idx w w2 _ he ih =>
      simp only [timeout_release] at he
      obtain ⟨x, hx, he⟩ := bind_eq_ok _ _ _ he
      simp only [Res.ok.injEq] at he
      subst he
      exact told_next _ _ _ _
        (told_press_following _ (told_process_record cfg fuel) _ _ _ _ hx (told_tap _ _ _ ih))
    | host w h _ ih => exact told_host _ _ ih
  exact Nat.ne_of_lt (key.2 idx)

/-! ## The claims -/

/-- C1 (simple tap, scenario A).  On the empty pool, for every tracked key `K`
with tap aggregation off, a press of `K` followed by its release makes
`process_smtd` return `false` (handled) twice; the calls that leave the module
are exactly `TOUCH(K, 0)` then `TAP(K, 0)` (no `HOLD`, no synthesized record);
the pool then holds the single record of `K`, in stage `SEQUENCE`.  The result
does not depend on the re-entry budget `fuel`. -/
theorem simple_tap (cfg : Config) (h : Host) (fuel K : Nat) (pK : keypos_t)
    (hb : cfg.SMTD_KEYCODES_BEGIN < K) (he : K < cfg.SMTD_KEYCODES_END)
    (hagg : smtd_feature_enabled_or_default cfg K SMTD_FEATURE_AGGREGATE_TAPS = false) :
    ∃ w, feed cfg fuel [(K, mk_record pK true), (K, mk_record pK false)] (World.init h)
        = .ok ([false, false], w)
      ∧ emitted w.trace = [.action K SMTD_ACTION_TOUCH 0, .action K SMTD_ACTION_TAP 0]
      ∧ w.smtd_active_states_size = 1
      ∧ (w.st 0).macro_keycode = K
      ∧ (w.st 0).stage = SMTD_STAGE_SEQUENCE := by
  have e1 := event_first_press cfg fuel K (mk_record pK true) h rfl hb he
  obtain ⟨f1, f2, f3, f4, f5, f6, f7, -⟩ := touched_facts cfg K h
  generalize smtd_next_stage cfg 0 SMTD_STAGE_TOUCH (open_slot K (World.init h)) = w1 at *
  have s2 : process_smtd_state cfg (process_record cfg fuel) K (mk_record pK false) 0 w1
      = .ok (false, DO_ACTION_TAP cfg 0 (smtd_next_stage cfg 0 SMTD_STAGE_SEQUENCE w1)) := by
    simp [process_smtd_state, f3, f4, f5, mk_record, hagg]
  have e2 : smtd_event cfg fuel K (mk_record pK false) w1 = _ :=
    process_smtd_consumed_zero _ _ _ _ _ _ (by omega) s2
  refine ⟨_, feed_cons_ok _ _ _ _ _ _ _ _ _ e1 (feed_cons_ok _ _ _ _ _ _ _ _ _ e2 (feed_nil _ _ _)), ?_⟩
  simp [stage_next, emitted_next, f2, f1, f5, f6, f7]

/-- Witness of C1: key 105 under `cfg0`. -/
theorem simple_tap_witness :
    ∃ w, feed cfg0 0 [(105, mk_record ⟨5, 10⟩ true), (105, mk_record ⟨5, 10⟩ false)]
          (World.init host0) = .ok ([false, false], w)
      ∧ emitted w.trace = [.action 105 SMTD_ACTION_TOUCH 0, .action 105 SMTD_ACTION_TAP 0]
      ∧ w.smtd_active_states_size = 1
      ∧ (w.st 0).macro_keycode = 105
      ∧ (w.st 0).stage = SMTD_STAGE_SEQUENCE :=
  simple_tap cfg0 host0 0 105 ⟨5, 10⟩ (by decide) (by decide) rfl

/-- C2 (hold alone, scenario B).  On the empty pool, for every tracked key `K`:
the press of `K` is handled and leaves one pending timer, the tap timer whose
argument is slot 0; when `timeout_touch` fires on slot 0 the emitted calls are
`TOUCH(K, 0)` then `HOLD(K, 0)` and the record of `K` is in stage `HOLD`; the
later release of `K` is handled, emits `RELEASE(K, 0)` and leaves the pool
with size 0. -/
theorem hold_alone (cfg : Config) (h : Host) (fuel K : Nat) (pK : keypos_t)
    (hb : cfg.SMTD_KEYCODES_BEGIN < K) (he : K < cfg.SMTD_KEYCODES_END) :
    ∃ w1 w3, smtd_event cfg fuel K (mk_record pK true) (World.init h) = .ok (false, w1)
      ∧ w1.timers = [{ token := (w1.st 0).timeout,
                       delay := get_smtd_timeout_or_default cfg K SMTD_TIMEOUT_TAP,
                       callback := SMTD_TIMEOUT_TAP, cb_arg := 0 }]
      ∧ emitted (timeout_touch cfg 0 w1).trace
          = [.action K SMTD_ACTION_TOUCH 0, .action K SMTD_ACTION_HOLD 0]
      ∧ (timeout_touch cfg 0 w1).smtd_active_states_size = 1
      ∧ ((timeout_touch cfg 0 w1).st 0).macro_keycode = K
      ∧ ((timeout_touch cfg 0 w1).st 0).stage = SMTD_STAGE_HOLD
      ∧ smtd_event cfg fuel K (mk_record pK false) (timeout_touch cfg 0 w1) = .ok (false, w3)
      ∧ emitted w3.trace
          = [.action K SMTD_ACTION_TOUCH 0, .action K SMTD_ACTION_HOLD 0,
             .action K SMTD_ACTION_RELEASE 0]
      ∧ w3.smtd_active_states_size = 0 := by
  have e1 := event_first_press cfg fuel K (mk_record pK true) h rfl hb he
  obtain ⟨f1, f2, f3, f4, f5, f6, f7, -⟩ := touched_facts cfg K h
  obtain ⟨m1, m2⟩ := touched_timer cfg K h
  generalize smtd_next_stage cfg 0 SMTD_STAGE_TOUCH (open_slot K (World.init h)) = w1 at *
  have g3 : ((timeout_touch cfg 0 w1).st 0).stage = SMTD_STAGE_HOLD := by
    simp [timeout_touch, stage_next, f2]
  have g4 : ((timeout_touch cfg 0 w1).st 0).freeze = false := by simp [timeout_touch, f4]
  have g5 : ((timeout_touch cfg 0 w1).st 0).macro_keycode = K := by simp [timeout_touch, f5]
  have g6 : ((timeout_touch cfg 0 w1).st 0).sequence_len = 0 := by simp [timeout_touch, f6]
  have g1 : (timeout_touch cfg 0 w1).smtd_active_states_size = 1 := by simp [timeout_touch, f1]
  have g7 : emitted (timeout_touch cfg 0 w1).trace
      = [.action K SMTD_ACTION_TOUCH 0, .action K SMTD_ACTION_HOLD 0] := by
    simp [timeout_touch, emitted_next, f5, f6, f7]
  have s2 : process_smtd_state cfg (process_record cfg fuel) K (mk_record pK false) 0
      (timeout_touch cfg 0 w1)
      = .ok (false, smtd_next_stage cfg 0 SMTD_STAGE_NONE
          (SMTD_ACTION cfg SMTD_ACTION_RELEASE 0 (timeout_touch cfg 0 w1))) := by
    simp [process_smtd_state, g3, g4, g5, mk_record]
  have e2 : smtd_event cfg fuel K (mk_record pK false) (timeout_touch cfg 0 w1) = _ :=
    process_smtd_consumed_zero _ _ _ _ _ _ (by omega) s2
  refine ⟨w1, _, e1, by rw [m1, m2], g7, g1, g5, g3, e2, ?_, ?_⟩
  · simp [emitted_next, g5, g6, g7]
  · rw [size_next_none] <;> simp [g1]

/-- Witness of C2: key 105 under `cfg0`; the release is handled and the pool is empty. -/
theorem hold_alone_witness :
    ∃ w1 w3, smtd_event cfg0 0 105 (mk_record ⟨5, 10⟩ true) (World.init host0) = .ok (false, w1)
      ∧ smtd_event cfg0 0 105 (mk_record ⟨5, 10⟩ false) (timeout_touch cfg0 0 w1)
          = .ok (false, w3)
      ∧ w3.smtd_active_states_size = 0 := by
  obtain ⟨w1, w3, a, -, -, -, -, -, b, -, c⟩ :=
    hold_alone cfg0 host0 0 105 ⟨5, 10⟩ (by decide) (by decide)
  exact ⟨w1, w3, a, b, c⟩

/-- C3 (chord, following key released first, scenario C).  On the empty pool,
for every tracked key `K`, every keycode `F` other than `K` at position `p`
and every re-entry budget of at least one level: press `K`, press `F`,
release `F` are all three handled (`false`); the actions emitted for `K`
and the synthesized records are, in this order, `TOUCH(K, 0)`, `HOLD(K, 0)`,
a press at `p`, a release at `p`; the record of `K` ends in stage `HOLD` with
`freeze` cleared.  What the replayed tap of `F` makes the host or a record
of `F` do is not counted among the actions of `K`; when the keymap sends
position `p` to keycodes that are not tracked, these four calls are all the
calls emitted. -/
theorem chord_following_released_first (cfg : Config) (h : Host) (f K F : Nat) (pK p : keypos_t)
    (hb : cfg.SMTD_KEYCODES_BEGIN < K) (he : K < cfg.SMTD_KEYCODES_END) (hF : F ≠ K) :
    ∃ w, feed cfg (f + 1)
          [(K, mk_record pK true), (F, mk_record p true), (F, mk_record p false)] (World.init h)
        = .ok ([false, false, false], w)
      ∧ emitted_for K w.trace
          = [.action K SMTD_ACTION_TOUCH 0, .action K SMTD_ACTION_HOLD 0,
             .process_record p true, .process_record p false]
      ∧ (w.st 0).macro_keycode = K
      ∧ (w.st 0).stage = SMTD_STAGE_HOLD
      ∧ (w.st 0).freeze = false
      ∧ ((∀ hst b, cfg.keycode_at hst { key := p, pressed := b } ≤ cfg.SMTD_KEYCODES_BEGIN
            ∨ cfg.SMTD_KEYCODES_END ≤ cfg.keycode_at hst { key := p, pressed := b }) →
          emitted w.trace
            = [.action K SMTD_ACTION_TOUCH 0, .action K SMTD_ACTION_HOLD 0,
               .process_record p true, .process_record p false]) := by
  obtain ⟨w2, e12, g1, g2, g3, g4, g5, g6, g7, g8, g9⟩ :=
    chord_facts cfg (f + 1) K F pK p h hb he hF
  obtain ⟨w3, e3, l3, s3, t3, -⟩ := press_following_solo cfg f K true
    (smtd_next_stage cfg 0 SMTD_STAGE_HOLD w2) (by simp [g2]) (by simp [g1]) (by simp [g5])
    (by simp [st_next_ne, g9, EMPTY_STATE]) (by simp [g9, EMPTY_STATE])
  have s3' : process_smtd_state cfg (process_record cfg (f + 1)) F (mk_record p false) 0 w2
      = .ok (false, w3) := by
    simp [process_smtd_state, g3, g4, g5, g7, mk_record, hF, same_pos, e3]
  have e3' : smtd_event cfg (f + 1) F (mk_record p false) w2 = _ :=
    process_smtd_consumed_zero _ _ _ _ _ _ (by omega) s3'
  refine ⟨w3, feed_append_ok _ _ [_, _] [_] _ _ _ _ _ e12
    (feed_cons_ok _ _ _ _ _ _ _ _ _ e3' (feed_nil _ _ _)), ?_, ?_, ?_, ?_, ?_⟩
  · rw [t3, emitted_for_eq K _ [] _ (by simpa [g8] using emitted_next cfg 0 SMTD_STAGE_HOLD w2)]
    simp [g5, g6, g7, g8, emitted_for]
  · simp [s3, g5]
  · simp [s3, stage_next, g2]
  · simp [s3]
  · intro hun
    obtain ⟨w3b, e3b, -, t3b⟩ := press_following_plain cfg f true
      (smtd_next_stage cfg 0 SMTD_STAGE_HOLD w2) (by simp [g2]) (by simp [g1])
      (by simpa [g7] using hun)
    rw [e3] at e3b
    simp only [Res.ok.injEq] at e3b
    subst e3b
    rw [t3b]
    simp [emitted_next, g5, g6, g7, g8]

/-- Witness of C3: key 105 held, key 7 (not tracked) tapped, under `cfg0`. -/
theorem chord_following_released_first_witness :
    ∃ w, feed cfg0 1
          [(105, mk_record ⟨5, 10⟩ true), (7, mk_record ⟨7, 0⟩ true), (7, mk_record ⟨7, 0⟩ false)]
          (World.init host0) = .ok ([false, false, false], w)
      ∧ emitted_for 105 w.trace
          = [.action 105 SMTD_ACTION_TOUCH 0, .action 105 SMTD_ACTION_HOLD 0,
             .process_record ⟨7, 0⟩ true, .process_record ⟨7, 0⟩ false]
      ∧ (w.st 0).macro_keycode = 105
      ∧ (w.st 0).stage = SMTD_STAGE_HOLD
      ∧ (w.st 0).freeze = false
      ∧ emitted w.trace
          = [.action 105 SMTD_ACTION_TOUCH 0, .action 105 SMTD_ACTION_HOLD 0,
             .process_record ⟨7, 0⟩ true, .process_record ⟨7, 0⟩ false] := by
  obtain ⟨w, a, b, c, d, e, g⟩ :=
    chord_following_released_first cfg0 host0 0 105 7 ⟨5, 10⟩ ⟨7, 0⟩ (by decide) (by decide)
      (by decide)
  exact ⟨w, a, b, c, d, e, g (fun _ _ => Or.inl (by show (7 : Nat) ≤ 100; decide))⟩

/-- C4 (chord, macro key released first, scenario D).  On the empty pool, for
every tracked key `K`, every keycode `F` other than `K` at position `p` and
every re-entry budget of at least one level: after press `K`, press `F`,
release `K` (all handled) the only call emitted is `TOUCH(K, 0)` and the
record of `K` is in stage `RELEASE`; the release of `F` is then handled, the
actions of `K` and the synthesized records become `TOUCH(K, 0)`,
`HOLD(K, 0)`, press at `p`, release at `p`, `RELEASE(K, 0)`, and no live
record tracks `K` any more.  When the keymap sends position `p` to keycodes
that are not tracked, these five calls are all the calls emitted and the pool
is empty. -/
theorem chord_macro_released_first (cfg : Config) (h : Host) (f K F : Nat) (pK p : keypos_t)
    (hb : cfg.SMTD_KEYCODES_BEGIN < K) (he : K < cfg.SMTD_KEYCODES_END) (hF : F ≠ K) :
    ∃ w3 w5, feed cfg (f + 1)
          [(K, mk_record pK true), (F, mk_record p true), (K, mk_record pK false)] (World.init h)
        = .ok ([false, false, false], w3)
      ∧ emitted w3.trace = [.action K SMTD_ACTION_TOUCH 0]
      ∧ w3.smtd_active_states_size = 1
      ∧ (w3.st 0).macro_keycode = K
      ∧ (w3.st 0).stage = SMTD_STAGE_RELEASE
      ∧ smtd_event cfg (f + 1) F (mk_record p false) w3 = .ok (false, w5)
      ∧ emitted_for K w5.trace
          = [.action K SMTD_ACTION_TOUCH 0, .action K SMTD_ACTION_HOLD 0,
             .process_record p true, .process_record p false, .action K SMTD_ACTION_RELEASE 0]
      ∧ (∀ j, j < w5.smtd_active_states_size → (w5.st j).macro_keycode ≠ K)
      ∧ ((∀ hst b, cfg.keycode_at hst { key := p, pressed := b } ≤ cfg.SMTD_KEYCODES_BEGIN
            ∨ cfg.SMTD_KEYCODES_END ≤ cfg.keycode_at hst { key := p, pressed := b }) →
          emitted w5.trace
              = [.action K SMTD_ACTION_TOUCH 0, .action K SMTD_ACTION_HOLD 0,
                 .process_record p true, .process_record p false,
                 .action K SMTD_ACTION_RELEASE 0]
            ∧ w5.smtd_active_states_size = 0) := by
  obtain ⟨w2, e12, g1, g2, g3, g4, g5, g6, g7, g8, g9⟩ :=
    chord_facts cfg (f + 1) K F pK p h hb he hF
  have s3 : process_smtd_state cfg (process_record cfg (f + 1)) K (mk_record pK false) 0 w2
      = .ok (false, smtd_next_stage cfg 0 SMTD_STAGE_RELEASE w2) := by
    simp [process_smtd_state, g3, g4, g5, mk_record]
  have e3 : smtd_event cfg (f + 1) K (mk_record pK false) w2 = _ :=
    process_smtd_consumed_zero _ _ _ _ _ _ (by omega) s3
  generalize hw3 : smtd_next_stage cfg 0 SMTD_STAGE_RELEASE w2 = w3 at *
  have k1 : w3.smtd_active_states_size = 1 := by rw [← hw3]; simp [g1]
  have k2 : w3.smtd_active_states.length = 10 := by rw [← hw3]; simp [g2]
  have k3 : (w3.st 0).stage = SMTD_STAGE_RELEASE := by rw [← hw3]; simp [stage_next, g2]
  have k4 : (w3.st 0).freeze = false := by rw [← hw3]; simp [g4]
  have k5 : (w3.st 0).macro_keycode = K := by rw [← hw3]; simp [g5]
  have k6 : (w3.st 0).sequence_len = 0 := by rw [← hw3]; simp [g6]
  have k7 : (w3.st 0).following_key = p := by rw [← hw3]; simp [g7]
  have k8 : emitted w3.trace = [.action K SMTD_ACTION_TOUCH 0] := by
    rw [← hw3]; simp [emitted_next, g8]
  have k9 : w3.st 1 = EMPTY_STATE := by rw [← hw3]; simp [st_next_ne, g9]
  obtain ⟨w4, e4, l4, s4, t4, z4⟩ := press_following_solo cfg f K true
    (SMTD_ACTION cfg SMTD_ACTION_HOLD 0 w3) (by simp [k2]) (by simp [k1]) (by simp [k5])
    (by simp [k9, EMPTY_STATE]) (by simp [k9, EMPTY_STATE])
  have s5 : process_smtd_state cfg (process_record cfg (f + 1)) F (mk_record p false) 0 w3
      = .ok (false, smtd_next_stage cfg 0 SMTD_STAGE_NONE
          (SMTD_ACTION cfg SMTD_ACTION_RELEASE 0 w4)) := by
    simp [process_smtd_state, k3, k4, k5, k7, mk_record, hF, same_pos, e4]
  have e5 : smtd_event cfg (f + 1) F (mk_record p false) w3 = _ :=
    process_smtd_consumed_zero _ _ _ _ _ _ (by omega) s5
  refine ⟨w3, _, feed_append_ok _ _ [_, _] [_] _ _ _ _ _ e12
    (feed_cons_ok _ _ _ _ _ _ _ _ _ e3 (feed_nil _ _ _)), k8, k1, k5, k3, e5, ?_, ?_, ?_⟩
  · have t0 : emitted_for K (SMTD_ACTION cfg SMTD_ACTION_HOLD 0 w3).trace
        = [.action K SMTD_ACTION_TOUCH 0, .action K SMTD_ACTION_HOLD 0] := by
      simp [emitted_for, k8, k5, k6]
    rw [emitted_for_eq K _ _ _ (emitted_next _ _ _ _),
      emitted_for_eq K _ _ _ (emitted_action _ _ _ _), t4, t0]
    simp [s4, k5, k6, k7]
  · intro j hj
    have hsz4 : 0 < (SMTD_ACTION cfg SMTD_ACTION_RELEASE 0 w4).smtd_active_states_size := by
      rcases z4 with z | ⟨z, -⟩ <;> simp [z]
    have hle4 : (SMTD_ACTION cfg SMTD_ACTION_RELEASE 0 w4).smtd_active_states_size
        ≤ (SMTD_ACTION cfg SMTD_ACTION_RELEASE 0 w4).smtd_active_states.length := by
      rcases z4 with z | ⟨z, -⟩ <;> simp [z, l4]
    rw [size_next_none _ _ _ hsz4] at hj
    rw [st_next_none _ _ _ _ hsz4 hle4]
    rcases z4 with z | ⟨z, m⟩
    · simp [z] at hj
    · simp only [size_action, z] at hj
      have hj0 : j = 0 := by omega
      subst hj0
      simpa [z] using m
  · intro hun
    obtain ⟨w4b, e4b, z4b, t4b⟩ := press_following_plain cfg f true
      (SMTD_ACTION cfg SMTD_ACTION_HOLD 0 w3) (by simp [k2]) (by simp [k1])
      (by simpa [k7] using hun)
    rw [e4] at e4b
    simp only [Res.ok.injEq] at e4b
    subst e4b
    constructor
    · simp [emitted_next, t4b, k5, k6, k7, k8, s4]
    · rw [size_next_none] <;> simp [z4b]

/-- Witness of C4: key 105 and key 7 under `cfg0`, key 105 released first. -/
theorem chord_macro_released_first_witness :
    ∃ w3 w5, feed cfg0 1
          [(105, mk_record ⟨5, 10⟩ true), (7, mk_record ⟨7, 0⟩ true),
           (105, mk_record ⟨5, 10⟩ false)] (World.init host0)
        = .ok ([false, false, false], w3)
      ∧ (w3.st 0).stage = SMTD_STAGE_RELEASE
      ∧ smtd_event cfg0 1 7 (mk_record ⟨7, 0⟩ false) w3 = .ok (false, w5)
      ∧ emitted_for 105 w5.trace
          = [.action 105 SMTD_ACTION_TOUCH 0, .action 105 SMTD_ACTION_HOLD 0,
             .process_record ⟨7, 0⟩ true, .process_record ⟨7, 0⟩ false,
             .action 105 SMTD_ACTION_RELEASE 0]
      ∧ w5.smtd_active_states_size = 0 := by
  obtain ⟨w3, w5, a, -, -, -, b, c, d, -, g⟩ :=
    chord_macro_released_first cfg0 host0 0 105 7 ⟨5, 10⟩ ⟨7, 0⟩ (by decide) (by decide)
      (by decide)
  exact ⟨w3, w5, a, b, c, d, (g (fun _ _ => Or.inl (by show (7 : Nat) ≤ 100; decide))).2⟩

/-- C5 (tap sequence aggregation, scenario E).  On the empty pool with tap
aggregation on for the tracked key `K`: press, release, press, release of `K`
are all handled and emit no `TAP` (only `TOUCH(K, 0)` and, on re-entering
`TOUCH`, `TOUCH(K, 1)`), leaving the record in `SEQUENCE` with
`sequence_len = 1`; when `timeout_sequence` fires on slot 0 it emits
`TAP(K, 1)`, the only `TAP` of the run, and frees the record (size 0). -/
theorem tap_sequence_aggregation (cfg : Config) (h : Host) (fuel K : Nat) (pK : keypos_t)
    (hb : cfg.SMTD_KEYCODES_BEGIN < K) (he : K < cfg.SMTD_KEYCODES_END)
    (hagg : smtd_feature_enabled_or_default cfg K SMTD_FEATURE_AGGREGATE_TAPS = true) :
    ∃ w4, feed cfg fuel
          [(K, mk_record pK true), (K, mk_record pK false),
           (K, mk_record pK true), (K, mk_record pK false)] (World.init h)
        = .ok ([false, false, false, false], w4)
      ∧ emitted w4.trace = [.action K SMTD_ACTION_TOUCH 0, .action K SMTD_ACTION_TOUCH 1]
      ∧ w4.smtd_active_states_size = 1
      ∧ (w4.st 0).macro_keycode = K
      ∧ (w4.st 0).stage = SMTD_STAGE_SEQUENCE
      ∧ (w4.st 0).sequence_len = 1
      ∧ emitted (timeout_sequence cfg 0 w4).trace
          = [.action K SMTD_ACTION_TOUCH 0, .action K SMTD_ACTION_TOUCH 1,
             .action K SMTD_ACTION_TAP 1]
      ∧ taps_of (timeout_sequence cfg 0 w4).trace = [.action K SMTD_ACTION_TAP 1]
      ∧ (timeout_sequence cfg 0 w4).smtd_active_states_size = 0 := by
  obtain ⟨w1, e1, q1, t1⟩ := solo_first_press cfg fuel K pK h hb he
  obtain ⟨w2, e2, q2, t2⟩ := solo_release cfg fuel K 0 pK w1 q1
  obtain ⟨w3, e3, q3, t3⟩ := solo_press_again cfg fuel K 0 pK w2 q2
  obtain ⟨w4, e4, q4, t4⟩ := solo_release cfg fuel K _ pK w3 q3
  obtain ⟨h1, h2, h3, h4, h5, h6⟩ := q4
  have t : emitted w4.trace = [.action K SMTD_ACTION_TOUCH 0, .action K SMTD_ACTION_TOUCH 1] := by
    rw [t4, t3, t2, t1]; simp [hagg]
  have tt : emitted (timeout_sequence cfg 0 w4).trace
      = [.action K SMTD_ACTION_TOUCH 0, .action K SMTD_ACTION_TOUCH 1,
         .action K SMTD_ACTION_TAP 1] := by
    simp [timeout_sequence, h3, hagg, emitted_next, t, h6]
  refine ⟨w4, feed_cons_ok _ _ _ _ _ _ _ _ _ e1 (feed_cons_ok _ _ _ _ _ _ _ _ _ e2
    (feed_cons_ok _ _ _ _ _ _ _ _ _ e3 (feed_cons_ok _ _ _ _ _ _ _ _ _ e4 (feed_nil _ _ _)))),
    t, h1, h3, h4, h6, tt, ?_, ?_⟩
  · simp [taps_of, tt]
  · simp only [timeout_sequence, h3, hagg, if_true]
    rw [size_next_none] <;> simp [h1]

/-- Witness of C5: key 105 under `cfg_agg`. -/
theorem tap_sequence_aggregation_witness :
    ∃ w4, feed cfg_agg 0
          [(105, mk_record ⟨5, 10⟩ true), (105, mk_record ⟨5, 10⟩ false),
           (105, mk_record ⟨5, 10⟩ true), (105, mk_record ⟨5, 10⟩ false)] (World.init host0)
        = .ok ([false, false, false, false], w4)
      ∧ taps_of (timeout_sequence cfg_agg 0 w4).trace = [.action 105 SMTD_ACTION_TAP 1]
      ∧ (timeout_sequence cfg_agg 0 w4).smtd_active_states_size = 0 := by
  obtain ⟨w4, a, -, -, -, -, -, -, b, c⟩ :=
    tap_sequence_aggregation cfg_agg host0 0 105 ⟨5, 10⟩ (by decide) (by decide) rfl
  exact ⟨w4, a, b, c⟩

/-- C6 (counted taps).  On the empty pool, for every tracked key `K` with tap
aggregation off and every `n ≥ 1`, feeding `n` press/release pairs of `K`:
all `2 * n` events are handled; the emitted calls are, pair by pair,
`TOUCH(K, i % 256)` at the press and `TAP(K, i % 256)` at the release
(`i = 0, .., n - 1`), so exactly `n` taps, one per release; and for
`n ≤ 256` the `i`-th tap counted from zero carries `sequence_len = i`.  The
counter wraps at 256, so the 257th tap carries 0. -/
theorem counted_taps (cfg : Config) (h : Host) (fuel K : Nat) (pK : keypos_t)
    (hb : cfg.SMTD_KEYCODES_BEGIN < K) (he : K < cfg.SMTD_KEYCODES_END)
    (hagg : smtd_feature_enabled_or_default cfg K SMTD_FEATURE_AGGREGATE_TAPS = false)
    (n : Nat) (hn1 : 1 ≤ n) :
    ∃ w, feed cfg fuel (tap_pairs K pK n) (World.init h) = .ok (List.replicate (2 * n) false, w)
      ∧ emitted w.trace = ((List.range n).flatMap fun i =>
          [.action K SMTD_ACTION_TOUCH (i % 256), .action K SMTD_ACTION_TAP (i % 256)])
      ∧ taps_of w.trace = ((List.range n).map fun i => .action K SMTD_ACTION_TAP (i % 256))
      ∧ (n ≤ 256 →
          taps_of w.trace = (List.range n).map fun i => .action K SMTD_ACTION_TAP i) := by
  obtain ⟨m, rfl⟩ : ∃ m, n = m + 1 := ⟨n - 1, by omega⟩
  obtain ⟨w, e, -, t⟩ := taps_run cfg h fuel K pK hb he hagg m
  have tp : taps_of w.trace
      = ((List.range (m + 1)).map fun i => .action K SMTD_ACTION_TAP (i % 256)) := by
    simp only [taps_of, t]
    generalize List.range (m + 1) = l
    induction l with
    | nil => rfl
    | cons a l ih => simp [List.flatMap_cons, List.filter_cons, ih]
  refine ⟨w, e, t, tp, ?_⟩
  intro hle
  rw [tp]
  apply List.map_congr_left
  intro i hi
  have : i < m + 1 := List.mem_range.mp hi
  rw [Nat.mod_eq_of_lt (by omega)]

/-- Witness of C6: three taps of key 105 under `cfg0`. -/
theorem counted_taps_witness :
    ∃ w, feed cfg0 0 (tap_pairs 105 ⟨5, 10⟩ 3) (World.init host0)
        = .ok (List.replicate 6 false, w)
      ∧ taps_of w.trace
          = [.action 105 SMTD_ACTION_TAP 0, .action 105 SMTD_ACTION_TAP 1,
             .action 105 SMTD_ACTION_TAP 2] := by
  obtain ⟨w, a, -, -, b⟩ :=
    counted_taps cfg0 host0 0 105 ⟨5, 10⟩ (by decide) (by decide) rfl 3 (by decide)
  exact ⟨w, a, b (by decide)⟩


/-- C7 (dispatcher, first consumer wins).  For every pool, host pipeline `pr`
and event: if the first `i` iterations of the dispatcher loop ran with every
offered record declining (the loop bounded to `i` iterations returns `true`
and leaves a world `wi` that still has a live slot `i`), and
`process_smtd_state` on slot `i` handles the event (returns `false`, leaving
`w2`), then `process_smtd` returns `false` and the world it leaves is exactly
`w2`: no later slot is offered the event and no record is opened.  Moreover,
when the host pipeline does not re-enter the module, the records behind
slot `i` are still, in order and with all fields unchanged, the tail of the
pool (they move down one slot when record `i` frees itself) and the size has
not grown.  The index is a `uint8_t`, hence `i < 256`. -/
theorem first_consumer_wins (cfg : Config) (pr : keyrecord_t → World → Res World) (kc : Nat)
    (r : keyrecord_t) (i : Nat) (w wi w2 : World) (hi256 : i < 256)
    (hscan : process_smtd_scan cfg pr kc r i 0 w = .ok (true, wi))
    (hi : i < wi.smtd_active_states_size)
    (hs : process_smtd_state cfg pr kc r i wi = .ok (false, w2)) :
    process_smtd cfg pr kc r w = .ok (false, w2)
      ∧ (PoolKept pr → wi.wf →
          wi.live.drop (i + 1) <:+ w2.live
            ∧ w2.smtd_active_states_size ≤ wi.smtd_active_states_size) :=
  ⟨process_smtd_consumed cfg pr kc r i w wi w2 hi256 hscan hi hs,
    fun hpr hwf => consumed_frame cfg pr hpr kc r i wi w2 hi (wf_le wi hwf) hs⟩

/-- Witness of C7: in `world_two` a press of key 106 is declined by slot 0
(key 105, `HOLD`) and handled by slot 1 (key 106, `SEQUENCE`). -/
theorem first_consumer_wins_witness :
    process_smtd cfg0 pr_none 106 (mk_record ⟨6, 10⟩ true) world_two
        = .ok (false, smtd_next_stage cfg0 1 SMTD_STAGE_TOUCH
            (world_two.modSt 1 fun s => { s with sequence_len := (s.sequence_len + 1) % 256 }))
      ∧ world_two.live.drop 2 <:+
          (smtd_next_stage cfg0 1 SMTD_STAGE_TOUCH
            (world_two.modSt 1 fun s =>
              { s with sequence_len := (s.sequence_len + 1) % 256 })).live
      ∧ (smtd_next_stage cfg0 1 SMTD_STAGE_TOUCH
            (world_two.modSt 1 fun s =>
              { s with sequence_len := (s.sequence_len + 1) % 256 })).smtd_active_states_size
          ≤ world_two.smtd_active_states_size := by
  have h := first_consumer_wins cfg0 pr_none 106 (mk_record ⟨6, 10⟩ true) 1 world_two world_two
    _ (by decide) rfl (by decide) rfl
  exact ⟨h.1, h.2 poolKept_none ⟨rfl, by decide⟩⟩

/-- C8 (releases never open records).  For every pool, host pipeline and
release event: if every live record declines the event (`process_smtd_state`
returns `true` on each live slot), then `process_smtd` returns `true` (not
handled) and leaves the whole world as it was: same array, same size, same
fields, and nothing added to the trace (no action, no timer call). -/
theorem release_never_opens (cfg : Config) (pr : keyrecord_t → World → Res World) (kc : Nat)
    (r : keyrecord_t) (w : World) (hp : r.event.pressed = false)
    (hdecl : ∀ i, i < w.smtd_active_states_size →
      ∃ w2, process_smtd_state cfg pr kc r i w = .ok (true, w2)) :
    process_smtd cfg pr kc r w = .ok (true, w) := by
  have hscan : ∀ n i, process_smtd_scan cfg pr kc r n i w = .ok (true, w) := by
    intro n
    induction n with
    | zero => intro i; rfl
    | succ n ih =>
      intro i
      by_cases hi : i < w.smtd_active_states_size
      · obtain ⟨w2, h2⟩ := hdecl i hi
        rcases decline_cases cfg pr kc r i w w2 h2 with rfl | ⟨-, hp2, -, -⟩
        · rw [scan_step _ _ _ _ _ _ _ hi, h2]
          simpa using ih (i + 1)
        · rw [hp] at hp2
          exact absurd hp2 (by simp)
      · exact scan_stop _ _ _ _ _ _ _ hi
  exact process_smtd_bypass cfg pr kc r w w (hscan 256 0) (Or.inl hp)

/-- Witness of C8: the release of the untracked key 7 in `world_two`. -/
theorem release_never_opens_witness :
    process_smtd cfg0 pr_none 7 (mk_record ⟨7, 0⟩ false) world_two = .ok (true, world_two) :=
  release_never_opens cfg0 pr_none 7 (mk_record ⟨7, 0⟩ false) world_two rfl (by
    intro i hi
    have hi2 : i < 2 := hi
    interval_cases i
    · exact ⟨_, rfl⟩
    · exact ⟨_, rfl⟩)

/-- C9 (untracked keys pass through).  For every well-formed pool, host
pipeline and event whose keycode is at most `SMTD_KEYCODES_BEGIN` or at least
`SMTD_KEYCODES_END`: if the dispatcher loop ends with no record having
handled the event (leaving `w1`), then `process_smtd` returns `true` (not
handled) and the world it leaves is `w1`; no record is opened: the live
records are a sublist of the former ones (records in `SEQUENCE` may have
freed themselves), and the records with that keycode are the same as before. -/
theorem untracked_pass_through (cfg : Config) (pr : keyrecord_t → World → Res World) (kc : Nat)
    (r : keyrecord_t) (w w1 : World) (hwf : w.wf)
    (hkc : kc ≤ cfg.SMTD_KEYCODES_BEGIN ∨ cfg.SMTD_KEYCODES_END ≤ kc)
    (hscan : process_smtd_scan cfg pr kc r 256 0 w = .ok (true, w1)) :
    process_smtd cfg pr kc r w = .ok (true, w1)
      ∧ w1.live.Sublist w.live
      ∧ w1.live.filter (fun s => s.macro_keycode == kc)
          = w.live.filter (fun s => s.macro_keycode == kc) := by
  obtain ⟨-, -, hsub, hfil⟩ := scan_declined_live cfg pr kc r 256 0 w w1 (wf_le w hwf) hscan
  refine ⟨process_smtd_bypass cfg pr kc r w w1 hscan ?_, hsub, hfil⟩
  rcases hkc with h | h
  · exact Or.inr (Or.inl h)
  · exact Or.inr (Or.inr (Or.inl h))

/-- Witness of C9: a press of the untracked key 7 in `world_two`; the record
of key 106, in `SEQUENCE`, frees itself and the press is passed on. -/
theorem untracked_pass_through_witness :
    process_smtd cfg0 pr_none 7 (mk_record ⟨7, 0⟩ true) world_two
        = .ok (true, smtd_next_stage cfg0 1 SMTD_STAGE_NONE world_two)
      ∧ (smtd_next_stage cfg0 1 SMTD_STAGE_NONE world_two).live.Sublist world_two.live
      ∧ (smtd_next_stage cfg0 1 SMTD_STAGE_NONE world_two).live.filter
            (fun s => s.macro_keycode == 7)
          = world_two.live.filter (fun s => s.macro_keycode == 7) :=
  untracked_pass_through cfg0 pr_none 7 (mk_record ⟨7, 0⟩ true) world_two _ ⟨rfl, by decide⟩
    (Or.inl (by decide)) rfl

/-- C10, as amended (duplicate press).  For every well-formed pool that holds
a live record of the key `K`, every host pipeline and every event with
keycode `K`: if the dispatcher loop ends with no record having handled the
event (leaving `w1`), then `process_smtd` opens no second record for `K` (the
live records are a sublist of the former ones and the records of `K` are
exactly the former ones) and returns `true`: the event is reported NOT
handled, so the host goes on processing it, as for a bypassed key. -/
theorem duplicate_press_not_consumed (cfg : Config) (pr : keyrecord_t → World → Res World)
    (K : Nat) (r : keyrecord_t) (w w1 : World) (hwf : w.wf)
    (hlive : ∃ s ∈ w.live, s.macro_keycode = K)
    (hscan : process_smtd_scan cfg pr K r 256 0 w = .ok (true, w1)) :
    process_smtd cfg pr K r w = .ok (true, w1)
      ∧ w1.live.Sublist w.live
      ∧ w1.live.filter (fun s => s.macro_keycode == K)
          = w.live.filter (fun s => s.macro_keycode == K) := by
  obtain ⟨hl, hz, hsub, hfil⟩ := scan_declined_live cfg pr K r 256 0 w w1 (wf_le w hwf) hscan
  refine ⟨process_smtd_bypass cfg pr K r w w1 hscan ?_, hsub, hfil⟩
  refine Or.inr (Or.inr (Or.inr (mem_live_already_handled K w1 (by have := wf_le w hwf; omega) ?_)))
  obtain ⟨s, hs, hK⟩ := hlive
  have : s ∈ w.live.filter (fun s => s.macro_keycode == K) := by
    simp [List.mem_filter, hs, hK]
  rw [← hfil] at this
  exact ⟨s, (List.mem_filter.mp this).1, hK⟩

/-- Witness of C10 as amended: a second press of key 105 in `world_two`,
where the record of 105 is in `HOLD`. -/
theorem duplicate_press_not_consumed_witness :
    process_smtd cfg0 pr_none 105 (mk_record ⟨5, 10⟩ true) world_two
        = .ok (true, smtd_next_stage cfg0 1 SMTD_STAGE_NONE world_two)
      ∧ (smtd_next_stage cfg0 1 SMTD_STAGE_NONE world_two).live.Sublist world_two.live
      ∧ (smtd_next_stage cfg0 1 SMTD_STAGE_NONE world_two).live.filter
            (fun s => s.macro_keycode == 105)
          = world_two.live.filter (fun s => s.macro_keycode == 105) :=
  duplicate_press_not_consumed cfg0 pr_none 105 (mk_record ⟨5, 10⟩ true) world_two _
    ⟨rfl, by decide⟩ ⟨world_two.st 0, by decide, rfl⟩ rfl

/-- Counterexample to C10 as stated: under `cfg0`, on the empty pool, key 105
is pressed twice.  The first press opens the record (stage `TOUCH`); the
second press is declined by it, no second record is opened, and
`process_smtd` returns `true`, which is the value that lets the host process
the key: the press is not reported consumed. -/
theorem duplicate_press_counterexample :
    ∃ w, feed cfg0 0 [(105, mk_record ⟨5, 10⟩ true), (105, mk_record ⟨5, 10⟩ true)]
          (World.init host0) = .ok ([false, true], w)
      ∧ w.smtd_active_states_size = 1
      ∧ (w.st 0).macro_keycode = 105
      ∧ (w.st 0).stage = SMTD_STAGE_TOUCH := by
  refine ⟨_, rfl, ?_, ?_, ?_⟩ <;> rfl

/-- C13 (compaction preserves order and contents).  For every pool with its
ten slots and size `n ≤ 10` and every live position `i < n`,
`smtd_next_stage(&smtd_active_states[i], SMTD_STAGE_NONE)` leaves size
`n - 1`; the live records are the former live records with the `i`-th one
erased, in the same order and with every field unchanged (the list equality
compares whole records: keycode, modifier snapshots, `sequence_len`,
following key and keycode, timeout token, stage, freeze); the vacated slot
`n - 1` equals `EMPTY_STATE`, and the slots from `n` on are as before. -/
theorem compaction_preserves_order (cfg : Config) (i : Nat) (w : World) (hwf : w.wf)
    (hi : i < w.smtd_active_states_size) :
    (smtd_next_stage cfg i SMTD_STAGE_NONE w).smtd_active_states_size
        = w.smtd_active_states_size - 1
      ∧ (smtd_next_stage cfg i SMTD_STAGE_NONE w).live = w.live.eraseIdx i
      ∧ (smtd_next_stage cfg i SMTD_STAGE_NONE w).live
          = w.live.take i ++ w.live.drop (i + 1)
      ∧ (smtd_next_stage cfg i SMTD_STAGE_NONE w).st (w.smtd_active_states_size - 1)
          = EMPTY_STATE
      ∧ (∀ j, w.smtd_active_states_size ≤ j →
          (smtd_next_stage cfg i SMTD_STAGE_NONE w).st j = w.st j)
      ∧ (smtd_next_stage cfg i SMTD_STAGE_NONE w).wf := by
  have hle := wf_le w hwf
  have hlive := live_next_none cfg i w w hi hle rfl rfl (fun _ _ => rfl)
  refine ⟨size_next_none cfg i w hi, hlive, ?_, ?_, ?_, ?_⟩
  · rw [hlive, List.eraseIdx_eq_take_drop_succ]
  · rw [st_next_none cfg i w _ hi hle]
    have h1 : ¬ w.smtd_active_states_size - 1 < i := by omega
    have h2 : ¬ w.smtd_active_states_size - 1 + 1 < w.smtd_active_states_size := by omega
    have h3 : w.smtd_active_states_size - 1 + 1 = w.smtd_active_states_size := by omega
    rw [if_neg h1, if_neg h2, if_pos h3]
  · intro j hj
    rw [st_next_none cfg i w _ hi hle]
    have h1 : ¬ j < i := by omega
    have h2 : ¬ j + 1 < w.smtd_active_states_size := by omega
    have h3 : ¬ j + 1 = w.smtd_active_states_size := by omega
    rw [if_neg h1, if_neg h2, if_neg h3]
  · obtain ⟨a, b⟩ := hwf
    exact ⟨by rw [len_next_none]; exact a, by rw [size_next_none cfg i w hi]; omega⟩

/-- Witness of C13: the record of key 105 (slot 0) is removed from `world_two`;
the record of key 106 moves to slot 0 unchanged. -/
theorem compaction_preserves_order_witness :
    (smtd_next_stage cfg0 0 SMTD_STAGE_NONE world_two).smtd_active_states_size = 1
      ∧ (smtd_next_stage cfg0 0 SMTD_STAGE_NONE world_two).live = [world_two.st 1]
      ∧ (smtd_next_stage cfg0 0 SMTD_STAGE_NONE world_two).st 1 = EMPTY_STATE := by
  obtain ⟨a, b, -, d, -, -⟩ :=
    compaction_preserves_order cfg0 0 world_two ⟨rfl, by decide⟩ (by decide)
  exact ⟨a, b, d⟩

/-- C17 (timeout policy).  For every keycode and timeout kind,
`get_smtd_timeout_or_default` returns the value of the user hook
`get_smtd_timeout(keycode, kind)` when the hook is supplied, and otherwise the
global default of the kind, whatever the keycode: `TAPPING_TERM` for `TAP`,
`TAPPING_TERM / 2` for `SEQUENCE`, `TAPPING_TERM` for `FOLLOWING_TAP` and
`TAPPING_TERM / 4` for `RELEASE`, with integer division. -/
theorem timeout_policy (cfg : Config) (keycode : Nat) (kind : smtd_timeout) :
    (∀ hook, cfg.get_smtd_timeout = some hook →
        get_smtd_timeout_or_default cfg keycode kind = hook keycode kind)
      ∧ (cfg.get_smtd_timeout = none →
        get_smtd_timeout_or_default cfg keycode kind
          = match kind with
            | SMTD_TIMEOUT_TAP => cfg.TAPPING_TERM
            | SMTD_TIMEOUT_SEQUENCE => cfg.TAPPING_TERM / 2
            | SMTD_TIMEOUT_FOLLOWING_TAP => cfg.TAPPING_TERM
            | SMTD_TIMEOUT_RELEASE => cfg.TAPPING_TERM / 4) := by
  constructor
  · intro hook h
    simp [get_smtd_timeout_or_default, h]
  · intro h
    cases kind <;> simp [get_smtd_timeout_or_default, h, get_smtd_timeout_default]

/-- Witness of C17: under `cfg0` (no hook, `TAPPING_TERM = 200`) the four
timeouts of key 105 are 200, 100, 200 and 50. -/
theorem timeout_policy_witness :
    get_smtd_timeout_or_default cfg0 105 SMTD_TIMEOUT_TAP = 200
      ∧ get_smtd_timeout_or_default cfg0 105 SMTD_TIMEOUT_SEQUENCE = 100
      ∧ get_smtd_timeout_or_default cfg0 105 SMTD_TIMEOUT_FOLLOWING_TAP = 200
      ∧ get_smtd_timeout_or_default cfg0 105 SMTD_TIMEOUT_RELEASE = 50 :=
  ⟨(timeout_policy cfg0 105 SMTD_TIMEOUT_TAP).2 rfl,
    (timeout_policy cfg0 105 SMTD_TIMEOUT_SEQUENCE).2 rfl,
    (timeout_policy cfg0 105 SMTD_TIMEOUT_FOLLOWING_TAP).2 rfl,
    (timeout_policy cfg0 105 SMTD_TIMEOUT_RELEASE).2 rfl⟩

/-- C16 (unmatched events are no-ops). For every record that is not frozen
and every event `(kc, r)`: when the event matches no row of the transition
table for the stage of the record (`spec_table_row` is false),
`process_smtd_state` returns C `true` (not consumed) together with the very
world it was given, so no action, no synthesized event, no timer call and no
change of any field of the record or of the pool; and when the event does
match a row, the result is never that unchanged decline, so the rows of the
table are exactly the events the code reacts to. -/
theorem unmatched_noop (cfg : Config) (pr : keyrecord_t → World → Res World) (kc : Nat)
    (r : keyrecord_t) (idx : Nat) (w : World) (hfr : (w.st idx).freeze = false) :
    (spec_table_row (w.st idx) kc r = false →
        process_smtd_state cfg pr kc r idx w = .ok (true, w))
      ∧ (spec_table_row (w.st idx) kc r = true →
        process_smtd_state cfg pr kc r idx w ≠ .ok (true, w)) := by
  constructor
  · intro h
    by_cases hk : kc = (w.st idx).macro_keycode <;> cases hp : r.event.pressed <;>
      by_cases hrow : (w.st idx).following_key.row = r.event.key.row <;>
      by_cases hcol : (w.st idx).following_key.col = r.event.key.col <;>
      cases hs : (w.st idx).stage <;>
      simp [spec_table_row, same_pos, hs, hk, hp, hrow, hcol] at h <;>
      simp [process_smtd_state, same_pos, hfr, hs, hk, hp, hrow, hcol]
  · intro h hres
    by_cases hk : kc = (w.st idx).macro_keycode <;> cases hp : r.event.pressed <;>
      by_cases hrow : (w.st idx).following_key.row = r.event.key.row <;>
      by_cases hcol : (w.st idx).following_key.col = r.event.key.col <;>
      cases hs : (w.st idx).stage <;>
      simp [spec_table_row, same_pos, hs, hk, hp, hrow, hcol] at h <;>
      simp [process_smtd_state, same_pos, hfr, hs, hk, hp, hrow, hcol] at hres
    all_goals first
      | (refine bind_ne_ok _ _ _ (fun a => ?_) hres
         first
           | (simp; done)
           | (refine bind_ne_ok _ _ _ (fun b => ?_)
              simp))
      | (have hlen := trace_len_next cfg idx SMTD_STAGE_NONE
            (if smtd_feature_enabled_or_default cfg (w.st idx).macro_keycode
                SMTD_FEATURE_AGGREGATE_TAPS = true then DO_ACTION_TAP cfg idx w else w)
         rw [hres] at hlen
         split at hlen
         · have := trace_len_tap cfg idx w
           omega
         · omega)

theorem unmatched_noop_witness :
    spec_table_row (world_two.st 0) 106 (mk_record ⟨6, 10⟩ true) = false
      ∧ process_smtd_state cfg0 pr_none 106 (mk_record ⟨6, 10⟩ true) 0 world_two
          = .ok (true, world_two) :=
  ⟨rfl, (unmatched_noop cfg0 pr_none 106 (mk_record ⟨6, 10⟩ true) 0 world_two rfl).1 rfl⟩

/-- C19 (modifier recall is conditional).  For every record (slot `idx`): when
mods-recall is disabled for its key or the current modifiers equal
`modes_before_touch`, `DO_ACTION_TAP` makes exactly one outgoing call, the
`TAP` action of the record (so no `set_mods`, `del_mods` or
`send_keyboard_report`), and leaves the whole array, hence both modifier
snapshots, unchanged.  In every case, also when the recall is performed, the
actions and synthesized records it emits are exactly that one `TAP`. -/
theorem mods_recall_conditional (cfg : Config) (idx : Nat) (w : World) :
    ((smtd_feature_enabled_or_default cfg (w.st idx).macro_keycode SMTD_FEATURE_MODS_RECALL
          = false
        ∨ (w.st idx).modes_before_touch = get_mods w) →
      (DO_ACTION_TAP cfg idx w).trace
          = w.trace ++ [.action (w.st idx).macro_keycode SMTD_ACTION_TAP (w.st idx).sequence_len]
        ∧ (DO_ACTION_TAP cfg idx w).smtd_active_states = w.smtd_active_states
        ∧ (DO_ACTION_TAP cfg idx w).timers = w.timers)
      ∧ emitted (DO_ACTION_TAP cfg idx w).trace
          = emitted w.trace
            ++ [.action (w.st idx).macro_keycode SMTD_ACTION_TAP (w.st idx).sequence_len] := by
  refine ⟨?_, emitted_tap cfg idx w⟩
  intro h
  have hc : ¬ ((smtd_feature_enabled_or_default cfg (w.st idx).macro_keycode
      SMTD_FEATURE_MODS_RECALL && (w.st idx).modes_before_touch != get_mods w) = true) := by
    rcases h with h | h
    · simp [h]
    · simp [h]
  simp only [DO_ACTION_TAP, if_neg hc]
  exact ⟨rfl, rfl, rfl⟩

/-- Witness of C19: in `world_two` no modifier is held and the snapshot of
slot 1 is 0, so the tap of key 106 is a single call. -/
theorem mods_recall_conditional_witness :
    (DO_ACTION_TAP cfg0 1 world_two).trace
        = world_two.trace ++ [.action 106 SMTD_ACTION_TAP 0]
      ∧ (DO_ACTION_TAP cfg0 1 world_two).smtd_active_states = world_two.smtd_active_states := by
  obtain ⟨a, b, -⟩ := (mods_recall_conditional cfg0 1 world_two).1 (Or.inr rfl)
  exact ⟨a, b⟩

/-- C12 (pool exhaustion), evaluation of the code at the failing input.  The
pool `world_full` holds ten live records, keys 101..110, all in `HOLD`.  The
press of the tracked key 111, which has no record, is declined by all ten
records (the scan returns C `true` and changes nothing) and passes the three
guards of `process_smtd`; the code then takes
`&smtd_active_states[smtd_active_states_size]` with size 10, one past the last
slot of the array of ten, writes the keycode there and increments the size to
11: the model reports `out_of_bounds`, nothing in `process_smtd` tests the
size against the capacity. -/
theorem pool_overflow_out_of_bounds :
    world_full.smtd_active_states_size = SMTD_POOL_CAPACITY
      ∧ world_full.live.map (fun (s : smtd_state) => (s.macro_keycode, s.stage))
          = (List.range 10).map (fun i => (101 + i, SMTD_STAGE_HOLD))
      ∧ process_smtd_scan cfg_wide (process_record cfg_wide 1) 111 (mk_record ⟨1, 11⟩ true)
          256 0 world_full = .ok (true, world_full)
      ∧ (111 ≤ cfg_wide.SMTD_KEYCODES_BEGIN || cfg_wide.SMTD_KEYCODES_END ≤ 111) = false
      ∧ already_handled 111 world_full = false
      ∧ process_smtd cfg_wide (process_record cfg_wide 1) 111 (mk_record ⟨1, 11⟩ true)
          world_full = .out_of_bounds
      ∧ (open_slot 111 world_full).smtd_active_states_size = 11 :=
  ⟨rfl, rfl, rfl, rfl, rfl, rfl, rfl⟩

/-- C18, amended (modifier recall restores the pre-touch modifiers).  Mods
recall is enabled for the key.  `w` is the world in which
`smtd_next_stage(state, SMTD_STAGE_TOUCH)` runs, with 8-bit modifier state `m`;
the TOUCH action leaves an 8-bit state that keeps every bit of `m` (it may set
any further bits, or none).  `w2` is the world in which the tap is resolved:
the modifier state and the two snapshots of the record are still the ones left
by the TOUCH entry.  The TAP action leaves the modifiers as it finds them.
Then after `DO_ACTION_TAP` the modifier state is `m`; the host state is the
one the TAP action returned when called with modifier state `m`; if the TOUCH
action changed the modifiers, both snapshots are 0 and the calls made are
`set_mods(m)`, report, TAP, `set_mods`, `del_mods`, report; if it changed
nothing, the only call is the TAP action and the array is untouched (the
snapshots stay `m` and 0). -/
theorem mods_recall_restores (cfg : Config) (idx : Nat) (w w2 : World)
    (hl : idx < w.smtd_active_states.length) (hl2 : idx < w2.smtd_active_states.length)
    (hm : w.host.mods < 256)
    (hm2 : (smtd_next_stage cfg idx SMTD_STAGE_TOUCH w).host.mods < 256)
    (hsup : w.host.mods &&& (smtd_next_stage cfg idx SMTD_STAGE_TOUCH w).host.mods
      = w.host.mods)
    (hrecall : smtd_feature_enabled_or_default cfg (w2.st idx).macro_keycode
      SMTD_FEATURE_MODS_RECALL = true)
    (htap : ∀ K s h, (cfg.on_smtd_action K SMTD_ACTION_TAP s h).mods = h.mods)
    (hmods : w2.host.mods = (smtd_next_stage cfg idx SMTD_STAGE_TOUCH w).host.mods)
    (hbefore : (w2.st idx).modes_before_touch
      = ((smtd_next_stage cfg idx SMTD_STAGE_TOUCH w).st idx).modes_before_touch)
    (hwith : (w2.st idx).modes_with_touch
      = ((smtd_next_stage cfg idx SMTD_STAGE_TOUCH w).st idx).modes_with_touch) :
    (DO_ACTION_TAP cfg idx w2).host.mods = w.host.mods
      ∧ (DO_ACTION_TAP cfg idx w2).host
          = cfg.on_smtd_action (w2.st idx).macro_keycode SMTD_ACTION_TAP
              (w2.st idx).sequence_len { w2.host with mods := w.host.mods }
      ∧ (w2.host.mods ≠ w.host.mods →
          ((DO_ACTION_TAP cfg idx w2).st idx).modes_before_touch = 0
            ∧ ((DO_ACTION_TAP cfg idx w2).st idx).modes_with_touch = 0
            ∧ (DO_ACTION_TAP cfg idx w2).trace = w2.trace ++ [.set_mods w.host.mods,
                .send_keyboard_report,
                .action (w2.st idx).macro_keycode SMTD_ACTION_TAP (w2.st idx).sequence_len,
                .set_mods w2.host.mods,
                .del_mods (w2.host.mods &&& (255 - w.host.mods % 256)),
                .send_keyboard_report])
      ∧ (w2.host.mods = w.host.mods →
          (DO_ACTION_TAP cfg idx w2).smtd_active_states = w2.smtd_active_states
            ∧ (DO_ACTION_TAP cfg idx w2).trace = w2.trace
                ++ [.action (w2.st idx).macro_keycode SMTD_ACTION_TAP (w2.st idx).sequence_len]) := by
  obtain ⟨s1, s2⟩ := snapshot_touch cfg idx w hl
  rw [← hmods] at hm2 hsup s2
  obtain ⟨a, b, c⟩ := tap_recall cfg idx w2 w.host.mods w2.host.mods hl2 hm hm2 hsup hrecall
    htap rfl (hbefore.trans s1) (hwith.trans s2)
  refine ⟨?_, a, b, c⟩
  rw [a, htap]

theorem mods_recall_restores_witness :
    (open_slot 105 (World.init host_mod)).host.mods = 1
      ∧ world_set.host.mods = 3
      ∧ (DO_ACTION_TAP cfg_set 0 world_set).host.mods = 1
      ∧ ((DO_ACTION_TAP cfg_set 0 world_set).st 0).modes_before_touch = 0
      ∧ ((DO_ACTION_TAP cfg_set 0 world_set).st 0).modes_with_touch = 0 := by
  obtain ⟨a, -, c, -⟩ := mods_recall_restores cfg_set 0 (open_slot 105 (World.init host_mod))
    world_set (by decide) (by decide) (by decide) (by decide) (by decide) rfl
    (fun _ _ _ => rfl) rfl rfl rfl
  obtain ⟨c1, c2, -⟩ := c (by decide)
  exact ⟨rfl, rfl, a, c1, c2⟩

/-- C18, counterexample.  Mods recall is enabled (the default).  First part:
under `cfg_clear` the modifier state before TOUCH is 1 and the TOUCH action
clears it; key 105 is pressed and released, nothing else touches the
modifiers and the TAP action leaves them alone; after the tap is resolved the
modifier state is 0, not 1.  Second part: under `cfg0` the TOUCH action has no
effect on the modifiers; after the same two events `modes_before_touch` is
still 1, not 0. -/
theorem mods_recall_counterexample :
    smtd_feature_enabled_or_default cfg_clear 105 SMTD_FEATURE_MODS_RECALL = true
      ∧ (World.init host_mod).host.mods = 1
      ∧ (∃ w3, feed cfg_clear 1 [(105, mk_record ⟨5, 10⟩ true), (105, mk_record ⟨5, 10⟩ false)]
            (World.init host_mod) = .ok ([false, false], w3)
          ∧ w3.host.mods = 0)
      ∧ (DO_ACTION_TAP cfg_clear 0 (smtd_next_stage cfg_clear 0 SMTD_STAGE_TOUCH
            (open_slot 105 (World.init host_mod)))).host.mods = 0
      ∧ (∃ w3, feed cfg0 1 [(105, mk_record ⟨5, 10⟩ true), (105, mk_record ⟨5, 10⟩ false)]
            (World.init host_mod) = .ok ([false, false], w3)
          ∧ w3.host.mods = 1 ∧ (w3.st 0).modes_before_touch = 1) :=
  ⟨rfl, rfl, ⟨_, rfl, rfl⟩, rfl, ⟨_, rfl, rfl, rfl⟩⟩

/-- C20 (reprocessing after a `SEQUENCE` record frees itself), evaluation of
the code at the failing input.  In `world_seq_touch` slot 0 holds the record of
key 105 in `SEQUENCE` and slot 1 the record of key 106 in `TOUCH`.  The press
of the untracked key 7 makes the record of 105 free itself; the record of 106
moves to slot 0, the loop goes on with index 1, which is now past the size, so
the record of 106 is never offered the event: `process_smtd` returns C `true`,
the only call made is the cancellation of the sequence timer, and the record
of 106 is unchanged, still in `TOUCH`.  Offered the event, that record would
have handled it and moved to `FOLLOWING_TOUCH` (last part). -/
theorem sequence_free_skips_next :
    world_seq_touch.live.map (fun (s : smtd_state) => (s.macro_keycode, s.stage))
        = [(105, SMTD_STAGE_SEQUENCE), (106, SMTD_STAGE_TOUCH)]
      ∧ smtd_event cfg0 1 7 (mk_record ⟨7, 0⟩ true) world_seq_touch
          = .ok (true, smtd_next_stage cfg0 0 SMTD_STAGE_NONE world_seq_touch)
      ∧ (smtd_next_stage cfg0 0 SMTD_STAGE_NONE world_seq_touch).smtd_active_states_size = 1
      ∧ (smtd_next_stage cfg0 0 SMTD_STAGE_NONE world_seq_touch).st 0 = world_seq_touch.st 1
      ∧ ((smtd_next_stage cfg0 0 SMTD_STAGE_NONE world_seq_touch).st 0).stage
          = SMTD_STAGE_TOUCH
      ∧ (smtd_next_stage cfg0 0 SMTD_STAGE_NONE world_seq_touch).trace
          = world_seq_touch.trace ++ [.cancel_deferred_exec 6]
      ∧ (∃ w3, process_smtd_state cfg0 (process_record cfg0 1) 7 (mk_record ⟨7, 0⟩ true) 0
            (smtd_next_stage cfg0 0 SMTD_STAGE_NONE world_seq_touch) = .ok (false, w3)
          ∧ (w3.st 0).macro_keycode = 106
          ∧ (w3.st 0).stage = SMTD_STAGE_FOLLOWING_TOUCH) := by
  refine ⟨rfl, rfl, rfl, by decide, rfl, rfl, ⟨_, rfl, ?_, ?_⟩⟩ <;> rfl

/-- C11 (opening a record).  The pool is well formed: ten slots, at most ten
live records, the slots behind the live ones empty; fewer than ten records are
live.  `K` is tracked and has no live record; the event is a press of `K`
that every live record declines, leaving the world `w1` (records in
`SEQUENCE` free themselves on it).  Then `process_smtd` returns C `false`
(consumed); the live records are the ones still live after the scan, which are
former live records in their order, followed by exactly one new record; the
new record tracks `K`, is in `TOUCH` with `sequence_len` 0 and `freeze` false,
stores in `modes_before_touch` the modifier state found before the TOUCH
action and in `timeout` the token of the freshly queued TAP timer of its slot;
the pending timers are the former ones and that timer; the only thing emitted
for `K` during the call is `TOUCH(K, 0)`; the resulting pool is well formed. -/
theorem opening_a_record (cfg : Config) (pr : keyrecord_t → World → Res World) (K : Nat)
    (r : keyrecord_t) (w w1 : World)
    (hwf : w.wf) (hclean : w.clean)
    (hsz : w.smtd_active_states_size < SMTD_POOL_CAPACITY)
    (hb : cfg.SMTD_KEYCODES_BEGIN < K) (he : K < cfg.SMTD_KEYCODES_END)
    (hno : ∀ s ∈ w.live, s.macro_keycode ≠ K)
    (hp : r.event.pressed = true)
    (hscan : process_smtd_scan cfg pr K r 256 0 w = .ok (true, w1)) :
    ∃ w2, process_smtd cfg pr K r w = .ok (false, w2)
      ∧ w2.smtd_active_states_size = w1.smtd_active_states_size + 1
      ∧ w1.live.Sublist w.live
      ∧ w2.live = w1.live ++ [w2.st w1.smtd_active_states_size]
      ∧ (w2.st w1.smtd_active_states_size).macro_keycode = K
      ∧ (w2.st w1.smtd_active_states_size).stage = SMTD_STAGE_TOUCH
      ∧ (w2.st w1.smtd_active_states_size).sequence_len = 0
      ∧ (w2.st w1.smtd_active_states_size).freeze = false
      ∧ (w2.st w1.smtd_active_states_size).modes_before_touch = w1.host.mods
      ∧ (w2.st w1.smtd_active_states_size).timeout = w1.next_token
      ∧ w2.timers = w1.timers ++ [(⟨w1.next_token,
            get_smtd_timeout_or_default cfg K SMTD_TIMEOUT_TAP, SMTD_TIMEOUT_TAP,
            w1.smtd_active_states_size⟩ : Timer)]
      ∧ emitted_for K w2.trace = emitted_for K w.trace ++ [.action K SMTD_ACTION_TOUCH 0]
      ∧ w2.wf ∧ w2.clean := by
  have hle := wf_le w hwf
  obtain ⟨hlen, hsize, hsub, hfil⟩ := scan_declined_live cfg pr K r 256 0 w w1 hle hscan
  obtain ⟨hle1, hclean1, hem1⟩ := scan_invariant cfg pr K r
    (fun v => v.smtd_active_states_size ≤ v.smtd_active_states.length ∧ v.clean
      ∧ emitted_for K v.trace = emitted_for K w.trace)
    (fun i v v2 hi hq hs => by
      obtain ⟨a, b, c⟩ := decline_clean cfg pr K r i v v2 hi hq.1 hq.2.1 hs
      exact ⟨a, b, c.trans hq.2.2⟩)
    256 0 w w1 ⟨hle, hclean, rfl⟩ hscan
  obtain ⟨hwl, hws⟩ := hwf
  have hn10 : w1.smtd_active_states_size < SMTD_POOL_CAPACITY := lt_of_le_of_lt hsize hsz
  have hnl : w1.smtd_active_states_size < w1.smtd_active_states.length := by
    rw [hlen, hwl]; exact hn10
  have hempty : w1.st w1.smtd_active_states_size = EMPTY_STATE := hclean1 _ (Nat.le_refl _)
  have hnot : already_handled K w1 = false := by
    simp only [already_handled, Bool.eq_false_iff, ne_eq, List.any_eq_true, List.mem_range,
      beq_iff_eq, not_exists, not_and]
    intro j hj hK
    have hmem : w1.st j ∈ w1.live := by
      apply List.mem_iff_getElem?.mpr
      exact ⟨j, by rw [live_getElem? w1 hle1, if_pos hj]⟩
    exact hno _ (hsub.subset hmem) hK
  have hopen := process_smtd_open cfg pr K r w w1 hscan hp hb he hnot hn10 hnl
    (by rw [hempty]; rfl) (by rw [hempty]; rfl)
  have hT : SMTD_STAGE_TOUCH ≠ SMTD_STAGE_NONE := by decide
  have hmod : (w1.smtd_active_states_size + 1) % 256 = w1.smtd_active_states_size + 1 := by
    apply Nat.mod_eq_of_lt
    have : w1.smtd_active_states_size < 10 := hn10
    omega
  have hlo : w1.smtd_active_states_size < (open_slot K w1).smtd_active_states.length := by
    rw [len_open]; exact hnl
  have hso : (open_slot K w1).st w1.smtd_active_states_size
      = { EMPTY_STATE with macro_keycode := K } := by
    rw [st_open, if_pos ⟨rfl, hnl⟩, hempty]
  have hsize2 : (smtd_next_stage cfg w1.smtd_active_states_size SMTD_STAGE_TOUCH
      (open_slot K w1)).smtd_active_states_size = w1.smtd_active_states_size + 1 := by
    rw [size_next _ _ _ _ hT, size_open, hmod]
  have hlen2 : (smtd_next_stage cfg w1.smtd_active_states_size SMTD_STAGE_TOUCH
      (open_slot K w1)).smtd_active_states.length = w1.smtd_active_states.length := by
    rw [len_next _ _ _ _ hT, len_open]
  have hother : ∀ j, j ≠ w1.smtd_active_states_size →
      (smtd_next_stage cfg w1.smtd_active_states_size SMTD_STAGE_TOUCH (open_slot K w1)).st j
        = w1.st j := by
    intro j hj
    rw [st_next_ne _ _ _ _ _ hT (Ne.symm hj), st_open, if_neg (fun h => hj h.1.symm)]
  refine ⟨_, hopen, hsize2, hsub, ?_, ?_, ?_, ?_, ?_, ?_, ?_, ?_, ?_, ?_, ?_⟩
  · exact live_snoc w1 _ hle1 (by rw [hsize2, hlen2]; omega) hsize2
      (fun j hj => hother j (by omega))
  · rw [macro_next _ _ _ _ _ hT, hso]
  · rw [stage_next _ _ _ _ _ hT, if_pos ⟨rfl, hlo⟩]
  · rw [seq_next _ _ _ _ _ hT, hso]
    rfl
  · rw [freeze_next _ _ _ _ _ hT, hso]
    rfl
  · exact (snapshot_touch cfg _ (open_slot K w1) hlo).1
  · rw [timeout_field_next cfg _ _ _ hT hlo]
    rfl
  · rw [timers_next]
    simp only [hso, armed_entry]
    rw [List.filter_eq_self.mpr (by intro t _; simp [EMPTY_STATE])]
    rfl
  · rw [emitted_for_eq K _ _ _ (emitted_next cfg _ SMTD_STAGE_TOUCH _), trace_open, hem1, hso]
    simp [EMPTY_STATE]
  · exact ⟨by rw [hlen2, hlen]; exact hwl, by
      rw [hsize2]
      have : w1.smtd_active_states_size < 10 := hn10
      show w1.smtd_active_states_size + 1 ≤ 10
      omega⟩
  · intro j hj
    rw [hsize2] at hj
    rw [hother j (by omega)]
    exact hclean1 j (by omega)

theorem opening_a_record_witness :
    ∃ w2, process_smtd cfg0 pr_none 107 (mk_record ⟨7, 10⟩ true) world_two = .ok (false, w2)
      ∧ w2.smtd_active_states_size = 2
      ∧ (w2.st 1).macro_keycode = 107
      ∧ (w2.st 1).stage = SMTD_STAGE_TOUCH
      ∧ emitted_for 107 w2.trace
          = emitted_for 107 world_two.trace ++ [.action 107 SMTD_ACTION_TOUCH 0] := by
  have hclean : world_two.clean := by
    intro j hj
    by_cases h10 : j < 10
    · have h2 : 2 ≤ j := hj
      interval_cases j <;> rfl
    · have hlen : world_two.smtd_active_states.length ≤ j := by
        have : world_two.smtd_active_states.length = 10 := rfl
        omega
      simp only [World.st, List.getD_eq_getElem?_getD, List.getElem?_eq_none hlen,
        Option.getD_none]
  obtain ⟨w2, h1, h2, -, -, h5, h6, -, -, -, -, -, h12, -⟩ :=
    opening_a_record cfg0 pr_none 107 (mk_record ⟨7, 10⟩ true) world_two
      (smtd_next_stage cfg0 1 SMTD_STAGE_NONE world_two) ⟨rfl, by decide⟩ hclean (by decide)
      (by decide) (by decide) (by decide) rfl rfl
  exact ⟨w2, h1, h2, h5, h6, h12⟩

/-- C14 (one record per key).  A pool with its ten slots, at most ten live
records and pairwise distinct keycodes among the live records (`one_per_key`)
still has these properties after every call of `process_smtd` that returns,
whatever the keycode and the record, press or release, and whatever the depth
of re-entry: the records opened while synthesized events are replayed through
the host pipeline are included, for `smtd_event` the pipeline is
`process_record` itself, and for `process_smtd` it is any pipeline that keeps
the property.  The same holds after each of the four timeout callbacks, run on
any slot.  Hence every pool reachable from power up has the property: no two
live slots hold the same keycode.  (A call that would write past the tenth
slot does not return in the model, see C12.) -/
theorem one_record_per_key (cfg : Config) :
    (∀ pr, KeepsKeys pr → ∀ kc r w b w2, w.one_per_key →
        process_smtd cfg pr kc r w = .ok (b, w2) → w2.one_per_key)
      ∧ (∀ fuel kc r w b w2, w.one_per_key →
        smtd_event cfg fuel kc r w = .ok (b, w2) → w2.one_per_key)
      ∧ (∀ idx w, w.one_per_key → (timeout_touch cfg idx w).one_per_key)
      ∧ (∀ idx w, w.one_per_key → (timeout_sequence cfg idx w).one_per_key)
      ∧ (∀ fuel idx w w2, w.one_per_key →
        timeout_following_touch cfg (process_record cfg fuel) idx w = .ok w2 →
        w2.one_per_key)
      ∧ (∀ fuel idx w w2, w.one_per_key →
        timeout_release cfg (process_record cfg fuel) idx w = .ok w2 → w2.one_per_key)
      ∧ (∀ w, Reachable cfg w →
        w.one_per_key ∧ ∀ i j, i < j → j < w.smtd_active_states_size →
          (w.st i).macro_keycode ≠ (w.st j).macro_keycode) := by
  refine ⟨?_, ?_, ?_, ?_, ?_, ?_, ?_⟩
  · intro pr hpr kc r w b w2 hw h
    exact inv_process_smtd cfg pr hpr kc r w b w2 hw h
  · intro fuel kc r w b w2 hw h
    exact inv_process_smtd cfg _ (inv_process_record cfg fuel) kc r w b w2 hw h
  · intro idx w hw
    exact inv_next _ _ _ _ hw
  · intro idx w hw
    exact inv_timeout_sequence cfg idx w hw
  · intro fuel idx w w2 hw h
    exact inv_press_following _ (inv_process_record cfg fuel) _ _ _ _ h (inv_next _ _ _ _ hw)
  · intro fuel idx w w2 hw h
    exact inv_timeout_release cfg _ (inv_process_record cfg fuel) idx w w2 hw h
  · intro w hr
    have h := inv_reachable cfg w hr
    exact ⟨h, distinct_of_nodup w h⟩

theorem one_record_per_key_witness :
    world_two.keys = [105, 106]
      ∧ smtd_event cfg0 1 107 (mk_record ⟨7, 10⟩ true) world_two
          = .ok (false, smtd_next_stage cfg0 1 SMTD_STAGE_TOUCH
              (open_slot 107 (smtd_next_stage cfg0 1 SMTD_STAGE_NONE world_two)))
      ∧ (smtd_next_stage cfg0 1 SMTD_STAGE_TOUCH
          (open_slot 107 (smtd_next_stage cfg0 1 SMTD_STAGE_NONE world_two))).one_per_key
      ∧ (World.init host0).one_per_key :=
  ⟨rfl, rfl,
    (one_record_per_key cfg0).2.1 1 107 (mk_record ⟨7, 10⟩ true) world_two false _
      ⟨⟨rfl, by decide⟩, by decide⟩ rfl,
    ((one_record_per_key cfg0).2.2.2.2.2.2 _ (Reachable.init host0)).1⟩

/-- C21 (timers survive compaction), evaluation of the code at the failing
input.  In `world_b_shifted` the only live record, in slot 0, tracks key 106
and is in `TOUCH`; it stores the token 2 of its tap timer, and that timer is
queued with slot 1 as argument, the slot the record had when the timer was
armed.  When the timer fires, `timeout_touch` runs on slot 1, an empty slot
behind the live records: the `HOLD` action is called with keycode 0 and not
106, the record of 106 is not touched (it stays in `TOUCH`, its token still
2), and the empty slot 1 is left with stage `HOLD`. -/
theorem stale_timer_fires_on_old_slot :
    world_b_shifted.smtd_active_states_size = 1
      ∧ (world_b_shifted.st 0).macro_keycode = 106
      ∧ (world_b_shifted.st 0).stage = SMTD_STAGE_TOUCH
      ∧ (world_b_shifted.st 0).timeout = 2
      ∧ world_b_shifted.st 1 = EMPTY_STATE
      ∧ world_b_shifted.timers = [(⟨2, 200, SMTD_TIMEOUT_TAP, 1⟩ : Timer)]
      ∧ (timeout_touch cfg0 1 world_b_shifted).trace
          = world_b_shifted.trace ++ [.action 0 SMTD_ACTION_HOLD 0, .cancel_deferred_exec 0]
      ∧ (timeout_touch cfg0 1 world_b_shifted).smtd_active_states_size = 1
      ∧ (timeout_touch cfg0 1 world_b_shifted).st 0 = world_b_shifted.st 0
      ∧ ((timeout_touch cfg0 1 world_b_shifted).st 1).stage = SMTD_STAGE_HOLD := by
  refine ⟨rfl, rfl, rfl, rfl, by decide, rfl, rfl, rfl, by decide, rfl⟩

/-- C28 (layer push/restore), evaluation of the code at the failing input.
The highest layer is 15, which is also the value of `RETURN_LAYER_NOT_SET`;
the return layer is unset and the counter 0.  After `LAYER_PUSH(1)` the return
layer is 15, which the macro reads as unset, so `LAYER_PUSH(2)` stores the
current layer 1 as return layer.  The first `LAYER_RESTORE` keeps layer 2; the
second one moves to layer 1, not back to layer 15. -/
theorem layer_fifteen_not_restored :
    get_highest_layer host_l15.layer_state = 15
      ∧ host_l15.return_layer = RETURN_LAYER_NOT_SET ∧ host_l15.return_layer_cnt = 0
      ∧ (LAYER_PUSH 1 host_l15).return_layer = 15
      ∧ (LAYER_PUSH 2 (LAYER_PUSH 1 host_l15)) = { mods := 0, layer_state := 2 ^ 2, return_layer := 1, return_layer_cnt := 2 }
      ∧ get_highest_layer (LAYER_RESTORE (LAYER_PUSH 2 (LAYER_PUSH 1 host_l15))).layer_state = 2
      ∧ LAYER_RESTORE (LAYER_RESTORE (LAYER_PUSH 2 (LAYER_PUSH 1 host_l15)))
          = { mods := 0, layer_state := 2 ^ 1, return_layer := RETURN_LAYER_NOT_SET, return_layer_cnt := 0 }
      ∧ get_highest_layer
          (LAYER_RESTORE (LAYER_RESTORE (LAYER_PUSH 2 (LAYER_PUSH 1 host_l15)))).layer_state
          = 1 := by
  refine ⟨by decide, rfl, rfl, by decide, by decide, by decide, by decide, by decide⟩

/-- C22, amended (re-entering `TOUCH` from `SEQUENCE`).  For every record in
stage `SEQUENCE` for key `K`, not frozen, with `sequence_len` `s < 255`, in any
slot of any pool, and every press with keycode `K`: `process_smtd_state`
returns C `false` (consumed); the record is in `TOUCH` with `sequence_len`
`s + 1`; `modes_before_touch` holds the modifier state found at the press and
`modes_with_touch` the bits the touch action added; the tap timer is armed:
`defer_exec` is called for the slot with the tap timeout of `K`, the record
stores the token it returns, the entry is queued, and the token stored before
is cancelled; and the touch action is called again: the calls made are
`on_smtd_action(K, TOUCH, s + 1)`, `defer_exec`, `cancel_deferred_exec`, in
this order, so that the one action emitted is `TOUCH(K, s + 1)`. -/
theorem sequence_press_reenters_touch (cfg : Config) (pr : keyrecord_t → World → Res World)
    (K : Nat) (r : keyrecord_t) (idx : Nat) (w : World)
    (hl : idx < w.smtd_active_states.length)
    (hst : (w.st idx).stage = SMTD_STAGE_SEQUENCE) (hfr : (w.st idx).freeze = false)
    (hK : (w.st idx).macro_keycode = K) (hs : (w.st idx).sequence_len < 255)
    (hp : r.event.pressed = true) :
    ∃ w2, process_smtd_state cfg pr K r idx w = .ok (false, w2)
      ∧ (w2.st idx).stage = SMTD_STAGE_TOUCH
      ∧ (w2.st idx).sequence_len = (w.st idx).sequence_len + 1
      ∧ (w2.st idx).macro_keycode = K
      ∧ (w2.st idx).modes_before_touch = w.host.mods
      ∧ (w2.st idx).modes_with_touch = w2.host.mods &&& (255 - w.host.mods % 256)
      ∧ (w2.st idx).timeout = w.next_token
      ∧ w2.timers
          = (w.timers ++ [(⟨w.next_token, get_smtd_timeout_or_default cfg K SMTD_TIMEOUT_TAP,
              SMTD_TIMEOUT_TAP, idx⟩ : Timer)]).filter
            (fun t => t.token != (w.st idx).timeout
              || (w.st idx).timeout == INVALID_DEFERRED_TOKEN)
      ∧ w2.trace
          = w.trace ++ [.action K SMTD_ACTION_TOUCH ((w.st idx).sequence_len + 1),
              .defer_exec w.next_token (get_smtd_timeout_or_default cfg K SMTD_TIMEOUT_TAP)
                SMTD_TIMEOUT_TAP idx,
              .cancel_deferred_exec (w.st idx).timeout]
      ∧ emitted w2.trace
          = emitted w.trace ++ [.action K SMTD_ACTION_TOUCH ((w.st idx).sequence_len + 1)] := by
  have hT : SMTD_STAGE_TOUCH ≠ SMTD_STAGE_NONE := by decide
  have e : process_smtd_state cfg pr K r idx w
      = .ok (false, smtd_next_stage cfg idx SMTD_STAGE_TOUCH
          (w.modSt idx fun s => { s with sequence_len := (s.sequence_len + 1) % 256 })) := by
    simp [process_smtd_state, hst, hfr, hK, hp]
  generalize hw1 : (w.modSt idx fun s => { s with sequence_len := (s.sequence_len + 1) % 256 })
    = w1 at e
  have l1 : idx < w1.smtd_active_states.length := by rw [← hw1, len_modSt]; exact hl
  have s1 : w1.st idx = { w.st idx with sequence_len := (w.st idx).sequence_len + 1 } := by
    rw [← hw1, st_modSt_self w idx _ hl, Nat.mod_eq_of_lt (by omega)]
  have t1 : w1.timers = w.timers := by rw [← hw1]; rfl
  have n1 : w1.next_token = w.next_token := by rw [← hw1]; rfl
  have h1 : w1.host = w.host := by rw [← hw1]; rfl
  have r1 : w1.trace = w.trace := by rw [← hw1]; rfl
  obtain ⟨m1, m2⟩ := snapshot_touch cfg idx w1 l1
  refine ⟨_, e, ?_, ?_, ?_, ?_, ?_, ?_, ?_, ?_, ?_⟩
  · rw [stage_next _ _ _ _ _ hT, if_pos ⟨rfl, l1⟩]
  · rw [seq_next _ _ _ _ _ hT, s1]
  · rw [macro_next _ _ _ _ _ hT, s1]; exact hK
  · rw [m1, h1]
  · rw [m2, h1]
  · rw [timeout_field_next cfg idx _ w1 hT l1, if_neg (by decide), n1]
  · rw [timers_next]
    simp only [armed_entry, t1, n1, s1, hK]
  · rw [trace_next_touch, r1, n1, s1]
    simp only [hK]
  · rw [emitted_next, r1, s1]
    simp only [hK]

theorem sequence_press_reenters_touch_witness :
    ∃ w2, process_smtd_state cfg0 pr_none 106 (mk_record ⟨6, 10⟩ true) 1 world_two
        = .ok (false, w2)
      ∧ (w2.st 1).stage = SMTD_STAGE_TOUCH
      ∧ (w2.st 1).sequence_len = 1
      ∧ (w2.st 1).timeout = world_two.next_token
      ∧ emitted w2.trace = emitted world_two.trace ++ [.action 106 SMTD_ACTION_TOUCH 1] := by
  obtain ⟨w2, h1, h2, h3, -, -, -, h7, -, -, h10⟩ :=
    sequence_press_reenters_touch cfg0 pr_none 106 (mk_record ⟨6, 10⟩ true) 1 world_two
      (by decide) rfl rfl rfl (by decide) rfl
  exact ⟨w2, h1, h2, h3, h7, h10⟩

/-- C22, counterexample.  Under `cfg0` on the empty pool, key 105 is pressed,
released and pressed again: the second press finds the record in `SEQUENCE`,
is consumed, and the calls emitted are `TOUCH(105, 0)`, `TAP(105, 0)` and, for
the second press, `TOUCH(105, 1)`: a touch action is emitted on the transition
from `SEQUENCE`.  Besides, a record in `SEQUENCE` whose `freeze` flag is set
(the record of 106 of `world_two` with the flag set) declines the press of its
own key: `process_smtd_state` returns C `true` and changes nothing. -/
theorem touch_action_from_sequence_counterexample :
    ∃ w, feed cfg0 0 [(105, mk_record ⟨5, 10⟩ true), (105, mk_record ⟨5, 10⟩ false)]
          (World.init host0) = .ok ([false, false], w)
      ∧ (w.st 0).stage = SMTD_STAGE_SEQUENCE
      ∧ emitted w.trace = [.action 105 SMTD_ACTION_TOUCH 0, .action 105 SMTD_ACTION_TAP 0]
      ∧ ∃ w2, smtd_event cfg0 0 105 (mk_record ⟨5, 10⟩ true) w = .ok (false, w2)
        ∧ (w2.st 0).stage = SMTD_STAGE_TOUCH
        ∧ emitted w2.trace = [.action 105 SMTD_ACTION_TOUCH 0, .action 105 SMTD_ACTION_TAP 0,
            .action 105 SMTD_ACTION_TOUCH 1]
        ∧ ((world_two.modSt 1 fun s => { s with freeze := true }).st 1).stage
            = SMTD_STAGE_SEQUENCE
        ∧ process_smtd_state cfg0 pr_none 106 (mk_record ⟨6, 10⟩ true) 1
              (world_two.modSt 1 fun s => { s with freeze := true })
            = .ok (true, world_two.modSt 1 fun s => { s with freeze := true }) := by
  refine ⟨_, rfl, rfl, rfl, _, rfl, rfl, rfl, rfl, rfl⟩

/-- C23 (third key joins a chord), evaluation of the code at the failing
input.  The twenty events of `run_three` leave the pool `world_three`: the
records of 101 and 103 in `SEQUENCE`, and behind them the record of 102 in
`FOLLOWING_TOUCH` with following key `⟨7, 0⟩`.  The untracked key 8 is then
pressed at `⟨8, 0⟩`.  The record of 101 frees itself, the loop skips the
record of 103 that moved into its slot, and the record of 102, now in slot 1,
handles the press as a third key: `HOLD(102)`, the synthesized press at
`⟨7, 0⟩`, the replayed press at `⟨8, 0⟩`, and the event is consumed.  During
the synthesized press the record of 103 frees itself, so the record of 102
moves to slot 0 while the handler goes on writing to slot 1: the record ends
in `HOLD` with `freeze` still true, and the later release of 102 is declined
without any action. -/
theorem third_key_leaves_record_frozen :
    feed cfg0 2 run_three (World.init host0) = .ok (List.replicate 20 false, world_three)
      ∧ world_three.live.map smtd_state.summary
          = [(101, SMTD_STAGE_SEQUENCE, ⟨3, 10⟩, false), (103, SMTD_STAGE_SEQUENCE, ⟨7, 0⟩, false),
             (102, SMTD_STAGE_FOLLOWING_TOUCH, ⟨7, 0⟩, false)]
      ∧ ∃ w2, smtd_event cfg0 2 8 (mk_record ⟨8, 0⟩ true) world_three = .ok (false, w2)
        ∧ emitted w2.trace = emitted world_three.trace
            ++ [.action 102 SMTD_ACTION_HOLD 0, .process_record ⟨7, 0⟩ true,
                .process_record ⟨8, 0⟩ true]
        ∧ w2.live.map smtd_state.summary = [(102, SMTD_STAGE_HOLD, ⟨7, 0⟩, true)]
        ∧ pending_for 0 w2 = []
        ∧ ∃ w3, smtd_event cfg0 2 102 (mk_record ⟨2, 10⟩ false) w2 = .ok (true, w3)
          ∧ emitted w3.trace = emitted w2.trace
          ∧ w3.live.map smtd_state.summary = [(102, SMTD_STAGE_HOLD, ⟨7, 0⟩, true)] := by
  refine ⟨by decide!, by decide!,
    ((smtd_event cfg0 2 8 (mk_record ⟨8, 0⟩ true) world_three).getD (true, World.init host0)).2,
    by decide!, by decide!, by decide!, by decide!,
    ((smtd_event cfg0 2 102 (mk_record ⟨2, 10⟩ false)
      ((smtd_event cfg0 2 8 (mk_record ⟨8, 0⟩ true) world_three).getD
        (true, World.init host0)).2).getD (true, World.init host0)).2,
    by decide!, by decide!, by decide!⟩

/-- C24 (macro key pressed again in `RELEASE`), evaluation of the code at the
failing input.  `world_three_release` is `world_three` after the release of
102: the records of 101 and 103 in `SEQUENCE` and the record of 102 in
`RELEASE` with following key `⟨7, 0⟩` and its release timer, token 28, queued.
Key 102 is pressed again.  The record of 101 frees itself, the record of 103 is
skipped, and the record of 102, now in slot 1, handles its own press:
`TAP(102)` and the synthesized press at `⟨7, 0⟩`, during which the record of
103 frees itself and the record of 102 moves to slot 0.  The handler then
enters `TOUCH` on slot 1, which is empty: the `TOUCH` action is called with
keycode 0, the tap timer is armed for slot 1, and the slot behind the live
records is left in stage `TOUCH`.  The record of 102 is still in `RELEASE`,
frozen, with the release timer of its former slot 2 as its only timer. -/
theorem release_repress_hits_stale_slot :
    smtd_event cfg0 2 102 (mk_record ⟨2, 10⟩ false) world_three = .ok (false, world_three_release)
      ∧ world_three_release.live.map smtd_state.summary
          = [(101, SMTD_STAGE_SEQUENCE, ⟨3, 10⟩, false), (103, SMTD_STAGE_SEQUENCE, ⟨7, 0⟩, false),
             (102, SMTD_STAGE_RELEASE, ⟨7, 0⟩, false)]
      ∧ ∃ w2, smtd_event cfg0 2 102 (mk_record ⟨2, 10⟩ true) world_three_release = .ok (false, w2)
        ∧ emitted w2.trace = emitted world_three_release.trace
            ++ [.action 102 SMTD_ACTION_TAP 0, .process_record ⟨7, 0⟩ true,
                .action 0 SMTD_ACTION_TOUCH 0]
        ∧ w2.live.map smtd_state.summary = [(102, SMTD_STAGE_RELEASE, ⟨7, 0⟩, true)]
        ∧ (w2.st 1).stage = SMTD_STAGE_TOUCH
        ∧ (w2.st 1).macro_keycode = 0
        ∧ w2.timers = [(⟨28, 50, SMTD_TIMEOUT_RELEASE, 2⟩ : Timer), ⟨29, 200, SMTD_TIMEOUT_TAP, 1⟩] := by
  refine ⟨by decide!, by decide!,
    ((smtd_event cfg0 2 102 (mk_record ⟨2, 10⟩ true) world_three_release).getD
      (true, World.init host0)).2,
    by decide!, by decide!, by decide!, by decide!, by decide!, by decide!⟩

/-- C25 (third key pressed in `RELEASE`), evaluation of the code at the failing
input.  In `world_three_release` the record of 102 is in `RELEASE` with
following key `⟨7, 0⟩`, behind the records of 101 and 103 in `SEQUENCE`.  The
untracked key 8 is pressed at `⟨8, 0⟩`.  The record of 101 frees itself, the
record of 103 is skipped, and the record of 102, now in slot 1, handles the
press as a third key: `TAP(102)`, the synthesized press at `⟨7, 0⟩`, during
which the record of 103 frees itself and the record of 102 moves to slot 0,
then `smtd_next_stage(state, NONE)` on slot 1, which is empty, then the
replayed press at `⟨8, 0⟩`.  The record of 102 is not removed: it stays in the
pool in `RELEASE`, frozen, with its release timer still queued. -/
theorem release_third_key_keeps_record :
    world_three_release.live.map smtd_state.summary
        = [(101, SMTD_STAGE_SEQUENCE, ⟨3, 10⟩, false), (103, SMTD_STAGE_SEQUENCE, ⟨7, 0⟩, false),
           (102, SMTD_STAGE_RELEASE, ⟨7, 0⟩, false)]
      ∧ ∃ w2, smtd_event cfg0 2 8 (mk_record ⟨8, 0⟩ true) world_three_release = .ok (false, w2)
        ∧ emitted w2.trace = emitted world_three_release.trace
            ++ [.action 102 SMTD_ACTION_TAP 0, .process_record ⟨7, 0⟩ true,
                .process_record ⟨8, 0⟩ true]
        ∧ w2.smtd_active_states_size = 1
        ∧ w2.live.map smtd_state.summary = [(102, SMTD_STAGE_RELEASE, ⟨7, 0⟩, true)]
        ∧ w2.timers = [(⟨28, 50, SMTD_TIMEOUT_RELEASE, 2⟩ : Timer)] := by
  refine ⟨by decide!,
    ((smtd_event cfg0 2 8 (mk_record ⟨8, 0⟩ true) world_three_release).getD
      (true, World.init host0)).2,
    by decide!, by decide!, by decide!, by decide!, by decide!⟩

/-- C26 (`FOLLOWING_TAP` timeout), evaluation of the code at the failing input.
The eight events of `run_seq_following` leave the pool `world_seq_following`:
the record of 105 in `SEQUENCE` in slot 0 and the record of 106 in
`FOLLOWING_TOUCH` with following key `⟨7, 0⟩` in slot 1, its timer queued for
slot 1.  When that timer fires, `timeout_following_touch` emits `HOLD(106)` and
the synthesized press at `⟨7, 0⟩`; during that press the record of 105 frees
itself and the record of 106 moves to slot 0, so `state->freeze = false` is
written to slot 1.  The record of 106 is live in `HOLD` with `freeze` true,
and the later release of 106 is declined without any action. -/
theorem following_timeout_leaves_record_frozen :
    feed cfg0 1 run_seq_following (World.init host0)
        = .ok (List.replicate 8 false, world_seq_following)
      ∧ world_seq_following.live.map smtd_state.summary
          = [(105, SMTD_STAGE_SEQUENCE, ⟨7, 0⟩, false),
             (106, SMTD_STAGE_FOLLOWING_TOUCH, ⟨7, 0⟩, false)]
      ∧ pending_for 1 world_seq_following = [(⟨8, 200, SMTD_TIMEOUT_FOLLOWING_TAP, 1⟩ : Timer)]
      ∧ ∃ w2, timeout_following_touch cfg0 (process_record cfg0 1) 1 world_seq_following = .ok w2
        ∧ emitted w2.trace = emitted world_seq_following.trace
            ++ [.action 106 SMTD_ACTION_HOLD 0, .process_record ⟨7, 0⟩ true]
        ∧ w2.live.map smtd_state.summary = [(106, SMTD_STAGE_HOLD, ⟨7, 0⟩, true)]
        ∧ ∃ w3, smtd_event cfg0 1 106 (mk_record ⟨6, 10⟩ false) w2 = .ok (true, w3)
          ∧ emitted w3.trace = emitted w2.trace
          ∧ w3.live.map smtd_state.summary = [(106, SMTD_STAGE_HOLD, ⟨7, 0⟩, true)] := by
  refine ⟨rfl, rfl, rfl, _, rfl, rfl, rfl, _, rfl, rfl, rfl⟩

/-- C27 (freeze suppresses the originating record only), evaluation of the code
at the failing input.  In `world_seq_following` the record of 105 is in
`SEQUENCE` in slot 0 and the record of 106 in `FOLLOWING_TOUCH` with following
key `⟨7, 0⟩` in slot 1.  Key 7 is released.  The record of 106 emits
`HOLD(106)` and synthesizes the press at `⟨7, 0⟩` with `freeze` set; during
that press the record of 105 frees itself and the record of 106 moves to slot
0.  The release is then synthesized from the following key of slot 1, which is
empty, so it goes to `⟨0, 0⟩`, and `state->freeze = false` is written to slot
1: the freeze of the originating record is not reset, and the record declines
the later release of 106. -/
theorem freeze_not_reset_after_synthesis :
    world_seq_following.live.map smtd_state.summary
        = [(105, SMTD_STAGE_SEQUENCE, ⟨7, 0⟩, false),
           (106, SMTD_STAGE_FOLLOWING_TOUCH, ⟨7, 0⟩, false)]
      ∧ ∃ w2, smtd_event cfg0 1 7 (mk_record ⟨7, 0⟩ false) world_seq_following = .ok (false, w2)
        ∧ emitted w2.trace = emitted world_seq_following.trace
            ++ [.action 106 SMTD_ACTION_HOLD 0, .process_record ⟨7, 0⟩ true,
                .process_record ⟨0, 0⟩ false]
        ∧ w2.live.map smtd_state.summary = [(106, SMTD_STAGE_HOLD, ⟨7, 0⟩, true)]
        ∧ (w2.st 1).freeze = false
        ∧ ∃ w3, smtd_event cfg0 1 106 (mk_record ⟨6, 10⟩ false) w2 = .ok (true, w3)
          ∧ emitted w3.trace = emitted w2.trace
          ∧ w3.live.map smtd_state.summary = [(106, SMTD_STAGE_HOLD, ⟨7, 0⟩, true)] := by
  refine ⟨rfl, _, rfl, rfl, rfl, rfl, _, rfl, rfl, rfl⟩

/-- C29 (pool well-formedness), evaluation of the code at the failing input.
The pool `world_three` is well-formed and has three live records: 101 and 103
in `SEQUENCE`, 102 in `FOLLOWING_TOUCH` with following key `⟨7, 0⟩`.  Key 103
is pressed.  The record of 101 frees itself, the record of 103 is skipped, the
record of 102 in slot 1 synthesizes the press at `⟨7, 0⟩`, during which the
record of 103 frees itself and the record of 102 moves to slot 0.  The handler
sets `freeze` on slot 1 and replays the press of 103; the new-record logic
opens a record for 103 in that very slot, which declines the press because it
is frozen.  `process_smtd` returns with two live records, the second one for
key 103 in stage `NONE`: the pool is not well-formed. -/
theorem well_formedness_broken_by_press :
    feed cfg0 2 run_three (World.init host0) = .ok (List.replicate 20 false, world_three)
      ∧ world_three.well_formed cfg0 = true
      ∧ world_three.smtd_active_states_size = 3
      ∧ ∃ w2, smtd_event cfg0 2 103 (mk_record ⟨3, 10⟩ true) world_three = .ok (false, w2)
        ∧ w2.smtd_active_states_size = 2
        ∧ w2.live.map smtd_state.summary
            = [(102, SMTD_STAGE_HOLD, ⟨7, 0⟩, true), (103, SMTD_STAGE_NONE, ⟨0, 0⟩, false)]
        ∧ w2.well_formed cfg0 = false := by
  refine ⟨by decide!, by decide!, by decide!,
    ((smtd_event cfg0 2 103 (mk_record ⟨3, 10⟩ true) world_three).getD
      (true, World.init host0)).2,
    by decide!, by decide!, by decide!, by decide!⟩

/-- C30 (`HOLD` and `RELEASE` are balanced), evaluation of the code at the
failing input.  The ten events of `run_unbalanced` are fed from power up and
no timeout fires.  Before the last event the record of 101 is in `SEQUENCE` in
slot 0 and the record of 102 in `RELEASE` in slot 1, its following key being
that of 103.  The last event, the release of 103, makes the record of 102 emit
`HOLD(102)` and synthesize the press of 103, during which the record of 101
frees itself, the record of 102 moves to slot 0 and a record for 103 is opened
in slot 1.  The handler then emits its `RELEASE` action and frees slot 1:
`RELEASE(103)` is emitted for a record that never emitted `HOLD`, and the
record of 102 stays in `RELEASE` with one `HOLD` and no `RELEASE`. -/
theorem hold_release_unbalanced :
    ∃ w, feed cfg0 1 run_unbalanced (World.init host0) = .ok (List.replicate 10 false, w)
      ∧ actions_of w.trace
          = [.action 101 SMTD_ACTION_TOUCH 0, .action 101 SMTD_ACTION_TAP 0,
             .action 102 SMTD_ACTION_TOUCH 0, .action 101 SMTD_ACTION_TOUCH 0,
             .action 101 SMTD_ACTION_TAP 0, .action 101 SMTD_ACTION_TOUCH 0,
             .action 101 SMTD_ACTION_TAP 0, .action 102 SMTD_ACTION_HOLD 0,
             .action 103 SMTD_ACTION_TOUCH 0, .action 103 SMTD_ACTION_RELEASE 0]
      ∧ w.live.map smtd_state.summary = [(102, SMTD_STAGE_RELEASE, ⟨3, 10⟩, true)]
      ∧ count_action 102 SMTD_ACTION_HOLD w.trace = 1
      ∧ count_action 102 SMTD_ACTION_RELEASE w.trace = 0
      ∧ count_action 103 SMTD_ACTION_HOLD w.trace = 0
      ∧ count_action 103 SMTD_ACTION_RELEASE w.trace = 1 := by
  refine ⟨((feed cfg0 1 run_unbalanced (World.init host0)).getD ([], World.init host0)).2,
    by decide!, by decide!, by decide!, by decide!, by decide!, by decide!, by decide!⟩

end SmTd
